import Mathlib

/-!
# valo-track: match analytics engine

A shallow embedding of `internal/analytics/service.go` (with the payload types of
`internal/api/client.go` and the records of `internal/models/models.go`) and
theorems about the kill timeline, the trade, multi-kill, clutch, first-blood and KAST
computations, side attribution, match processing and aggregation.

Conventions of the embedding

* A Go `map[K]V` is an association list `GoMap K V`.  `GoMap.set` overwrites the
  entry of an existing key in place and appends a new key at the end, so a map
  built from the empty map has unique keys.  Go leaves the order of `range` over
  a map unspecified; the embedding ranges in list order, and every result is
  read back through lookups (`GoMap.getD`), which do not depend on that order.
* Go `int` is 64 bits wide.  Values are `Int`; the sum of two arbitrary ints is
  `goAdd`, which wraps around like the machine addition.  Counters that start at
  zero and are incremented once per visited element are left unwrapped: they are
  bounded by the length of a slice.
* `sort.Slice` belongs to the Go standard library.  It is taken as a parameter
  `sortSlice`, together with its documented contract `SortsBy`: the result is a
  rearrangement of the slice in which no element is `less` than an earlier one.
  The documentation adds that the sort is not guaranteed to be stable.
-/

namespace ValoTrack

/-! ## Go maps -/

/-- A Go map, as an association list. -/
abbrev GoMap (κ ν : Type) := List (κ × ν)

namespace GoMap

variable {κ ν : Type} [DecidableEq κ]

/-- The comma-ok lookup: `v, ok := m[k]`. -/
def get? : GoMap κ ν → κ → Option ν
  | [], _ => none
  | (k', v) :: rest, k => if k' = k then some v else get? rest k

/-- The plain lookup `m[k]`, with the zero value `d` of the value type for a missing key. -/
def getD (m : GoMap κ ν) (k : κ) (d : ν) : ν :=
  (m.get? k).getD d

/-- The assignment `m[k] = v`. -/
def set : GoMap κ ν → κ → ν → GoMap κ ν
  | [], k, v => [(k, v)]
  | (k', v') :: rest, k, v => if k' = k then (k, v) :: rest else (k', v') :: set rest k v

/-- The increment `m[k]++` of a counter map. -/
def incr (m : GoMap κ Int) (k : κ) : GoMap κ Int :=
  m.set k (m.getD k 0 + 1)

/-- The builtin `delete(m, k)`. -/
def delete (m : GoMap κ ν) (k : κ) : GoMap κ ν :=
  m.filter (fun e => decide (e.1 ≠ k))

/-- The keys, in range order. -/
def keys (m : GoMap κ ν) : List κ :=
  m.map Prod.fst

end GoMap

/-! ## Machine integers -/

/-- Go's `+` on `int` (64 bits, two's complement, wrapping). -/
def goAdd (a b : Int) : Int :=
  (a + b + 2 ^ 63) % 2 ^ 64 - 2 ^ 63

/-- The values of the Go type `int`. -/
def IsGoInt (a : Int) : Prop :=
  -(2 ^ 63) ≤ a ∧ a < 2 ^ 63

instance (a : Int) : Decidable (IsGoInt a) := by
  unfold IsGoInt; infer_instance

/-! ## Data model (`client.go`, `models.go`)

`service.go` names the payload types `V4MatchResponse`, `V4MatchPlayer`, `V4Round` and
`V4KillEventResponse` through package `models`; the declarations embedded here are those
of `client.go`, which carry the fields that `service.go` reads. -/

/-- The player reference inside a kill event or a round statistic: the anonymous
struct of `Killer`, `Victim`, each of the `Assistants`, and `V4RoundStatsEntry.Player`. -/
structure V4PlayerRef where
  PUUID : String
  Name : String
  Tag : String
  Team : String
deriving DecidableEq, Repr

/-- The payload type `V4KillEventResponse`. -/
structure V4KillEventResponse where
  Round : Int
  TimeInRoundInMs : Int
  Killer : V4PlayerRef
  Victim : V4PlayerRef
  Assistants : List V4PlayerRef
deriving DecidableEq, Repr

/-- The field `Stats.Damage` of `V4MatchPlayer`. -/
structure V4Damage where
  Dealt : Int
  Received : Int
deriving DecidableEq, Repr

/-- The field `Stats` of `V4MatchPlayer`. -/
structure V4PlayerStats where
  Score : Int
  Kills : Int
  Deaths : Int
  Assists : Int
  Headshots : Int
  Bodyshots : Int
  Legshots : Int
  Damage : V4Damage
deriving DecidableEq, Repr

/-- The payload type `V4MatchPlayer`; `AgentName` is the field `Agent.Name`. -/
structure V4MatchPlayer where
  PUUID : String
  Name : String
  Tag : String
  TeamID : String
  AgentName : String
  Stats : V4PlayerStats
deriving DecidableEq, Repr

/-- The field `Stats` of `V4RoundStatsEntry`. -/
structure V4RoundStats where
  Damage : Int
  Kills : Int
deriving DecidableEq, Repr

/-- The payload type `V4RoundStatsEntry`. -/
structure V4RoundStatsEntry where
  Player : V4PlayerRef
  Stats : V4RoundStats
deriving DecidableEq, Repr

/-- The payload type `V4Round`; `Plant` is `none` for the nil pointer and otherwise
holds `Plant.Player.Team`. -/
structure V4Round where
  ID : Int
  WinningTeam : String
  Plant : Option String
  Stats : List V4RoundStatsEntry
deriving DecidableEq, Repr

/-- An element of `Data.Teams` of `V4MatchResponse`. -/
structure V4Team where
  TeamID : String
  RoundsWon : Int
  RoundsLost : Int
  Won : Bool
deriving DecidableEq, Repr

/-- The payload type `V4MatchResponse`, with the fields of `Data` and `Data.Metadata` inlined. -/
structure V4MatchResponse where
  Status : Int
  ID : String
  MapName : String
  QueueID : String
  Region : String
  GameStart : Int
  Players : List V4MatchPlayer
  Teams : List V4Team
  Rounds : List V4Round
  Kills : List V4KillEventResponse
deriving DecidableEq, Repr

/-- The record `models.KillEvent`. -/
structure KillEvent where
  Round : Int
  Time : Int
  KillerName : String
  VictimName : String
  KillerTeam : String
  VictimTeam : String
  KillerPUUID : String
  VictimPUUID : String
  Assistants : List String
deriving DecidableEq, Repr

/-- The record `models.PlayerMatchStats`. -/
structure PlayerMatchStats where
  Kills : Int
  Deaths : Int
  Assists : Int
  Headshots : Int
  Bodyshots : Int
  Legshots : Int
  Score : Int
  Agent : String
  Team : String
  DamageMade : Int
  DamageReceived : Int
deriving DecidableEq, Repr

/-- The record `models.MatchData`. -/
structure MatchData where
  MatchID : String
  Map : String
  Mode : String
  PlayerData : GoMap String PlayerMatchStats
  Won : Bool
  RoundsPlayed : Int
  FirstKills : GoMap String Int
  FirstDeaths : GoMap String Int
  KASTRounds : GoMap String Int
  PlayerTeams : GoMap String String
  AttackKills : GoMap String Int
  AttackDeaths : GoMap String Int
  AttackDamage : GoMap String Int
  AttackRounds : GoMap String Int
  DefenseKills : GoMap String Int
  DefenseDeaths : GoMap String Int
  DefenseDamage : GoMap String Int
  DefenseRounds : GoMap String Int
  MultiKills : GoMap String (GoMap Int Int)
  Clutches : GoMap String Int
  Timestamp : Int
deriving DecidableEq, Repr

/-- The timeline `map[int][]models.KillEvent`: round id to the events of the round. -/
abbrev Timeline := GoMap Int (List KillEvent)

/-- The trade flags `map[int]map[string]bool`. -/
abbrev Trades := GoMap Int (GoMap String Bool)

/-- The roster `map[string]map[string]struct{}`: team id to the set of its PUUIDs. -/
abbrev Roster := GoMap String (GoMap String Unit)

/-- The receiver `AnalyticsService`. -/
structure AnalyticsService where
  playerAccountsMap : GoMap String String
  tradeWindowMs : Int
deriving DecidableEq, Repr

/-- The argument `apiMatch interface{}` of `ProcessMatchDetails`: a `*V4MatchResponse`
or a value of another type. -/
inductive ApiMatch where
  | v4 (fullMatch : V4MatchResponse)
  | other
deriving DecidableEq, Repr

/-! ## Identity resolution and rosters -/

/-- `GetPlayerName`: the canonical name stored under `name#tag`, or the empty string. -/
def GetPlayerName (svc : AnalyticsService) (name tag : String) : String :=
  match svc.playerAccountsMap.get? (name ++ "#" ++ tag) with
  | some player => player
  | none => ""

/-- The `models.PlayerMatchStats` literal built from a payload player. -/
def playerMatchStats (player : V4MatchPlayer) : PlayerMatchStats :=
  { Kills := player.Stats.Kills
    Deaths := player.Stats.Deaths
    Assists := player.Stats.Assists
    Headshots := player.Stats.Headshots
    Bodyshots := player.Stats.Bodyshots
    Legshots := player.Stats.Legshots
    Score := player.Stats.Score
    Agent := player.AgentName
    Team := player.TeamID
    DamageMade := player.Stats.Damage.Dealt
    DamageReceived := player.Stats.Damage.Received }

/-- `GetStackPlayers`. -/
def GetStackPlayers (svc : AnalyticsService) (players : List V4MatchPlayer) :
    GoMap String PlayerMatchStats :=
  players.foldl
    (fun stackPlayers player =>
      let playerName := GetPlayerName svc player.Name player.Tag
      if playerName ≠ "" then stackPlayers.set playerName (playerMatchStats player)
      else stackPlayers)
    []

/-- `BuildTeamMembers`. -/
def BuildTeamMembers (players : List V4MatchPlayer) : Roster :=
  players.foldl
    (fun teams p => teams.set p.TeamID ((teams.getD p.TeamID []).set p.PUUID ()))
    []

/-- `BuildStackNamesByPUUID`. -/
def BuildStackNamesByPUUID (svc : AnalyticsService) (players : List V4MatchPlayer) :
    GoMap String String :=
  players.foldl
    (fun mapping player =>
      let playerName := GetPlayerName svc player.Name player.Tag
      if playerName ≠ "" then mapping.set player.PUUID playerName else mapping)
    []

/-! ## Kill timeline -/

/-- The comparison handed to `sort.Slice` by `BuildKillEvents`: `events[i].Time < events[j].Time`. -/
def lessByTime (a b : KillEvent) : Bool :=
  decide (a.Time < b.Time)

/-- The library function `sort.Slice`, applied to a `[]models.KillEvent`: from the
comparison `less` and the slice to the slice as it is left. -/
abbrev SortSlice := (KillEvent → KillEvent → Bool) → List KillEvent → List KillEvent

/-- The documented contract of `sort.Slice` for the comparison `less`: the slice is
rearranged so that no element is `less` than an element before it.  Nothing is
promised about the order of elements that compare equal. -/
def SortsBy (sortSlice : SortSlice) (less : KillEvent → KillEvent → Bool) : Prop :=
  ∀ l : List KillEvent,
    (sortSlice less l).Perm l ∧ (sortSlice less l).Pairwise (fun a b => less b a = false)

/-- The `models.KillEvent` built from one raw kill, assistants included. -/
def toKillEvent (stackNamesByPUUID : GoMap String String) (kill : V4KillEventResponse) :
    KillEvent :=
  { Round := kill.Round
    Time := kill.TimeInRoundInMs
    KillerName := stackNamesByPUUID.getD kill.Killer.PUUID ""
    VictimName := stackNamesByPUUID.getD kill.Victim.PUUID ""
    KillerTeam := kill.Killer.Team
    VictimTeam := kill.Victim.Team
    KillerPUUID := kill.Killer.PUUID
    VictimPUUID := kill.Victim.PUUID
    Assistants :=
      kill.Assistants.foldl
        (fun assistants assistant =>
          let assistantName := stackNamesByPUUID.getD assistant.PUUID ""
          if assistantName ≠ "" then assistants ++ [assistantName] else assistants)
        [] }

/-- The first loop of `BuildKillEvents`: every raw kill is appended to the slice of its round. -/
def groupKillEvents (kills : List V4KillEventResponse) (stackNamesByPUUID : GoMap String String) :
    Timeline :=
  kills.foldl
    (fun eventsByRound kill =>
      eventsByRound.set kill.Round
        (eventsByRound.getD kill.Round [] ++ [toKillEvent stackNamesByPUUID kill]))
    []

/-- `BuildKillEvents`.  The second loop sorts the slice of every round with `sort.Slice`
and the comparison `lessByTime`. -/
def BuildKillEvents (sortSlice : SortSlice)
    (kills : List V4KillEventResponse) (stackNamesByPUUID : GoMap String String) : Timeline :=
  (groupKillEvents kills stackNamesByPUUID).map (fun e => (e.1, sortSlice lessByTime e.2))

/-! ## Trade detection -/

/-- The inner loop of `ComputeTrades`,
`for j := i + 1; j < len(events) && events[j].Time <= window; j++`, over the events
after `ev`: the answer is whether the loop reaches its `break`. -/
def scanTrade (window : Int) (ev : KillEvent) : List KillEvent → Bool
  | [] => false
  | next :: rest =>
    if next.Time ≤ window then
      if next.VictimPUUID = ev.KillerPUUID ∧ next.KillerTeam = ev.VictimTeam then true
      else scanTrade window ev rest
    else false

/-- The statement `trades[round][name] = true`, creating the inner map when it is missing. -/
def markTrade (trades : Trades) (round : Int) (name : String) : Trades :=
  trades.set round ((trades.getD round []).set name true)

/-- The loop `for i, ev := range events` of `ComputeTrades` for one round. -/
def tradesInRound (tradeWindowMs : Int) (round : Int) : List KillEvent → Trades → Trades
  | [], trades => trades
  | ev :: rest, trades =>
    if ev.VictimName = "" then tradesInRound tradeWindowMs round rest trades
    else if scanTrade (goAdd ev.Time tradeWindowMs) ev rest then
      tradesInRound tradeWindowMs round rest (markTrade trades round ev.VictimName)
    else tradesInRound tradeWindowMs round rest trades

/-- `ComputeTrades`. -/
def ComputeTrades (svc : AnalyticsService) (eventsByRound : Timeline) : Trades :=
  eventsByRound.foldl (fun trades e => tradesInRound svc.tradeWindowMs e.1 e.2 trades) []

/-- The test `trades[round] != nil && trades[round][name]` of the readers of the flags. -/
def Trades.flagged (trades : Trades) (round : Int) (name : String) : Bool :=
  (trades.getD round []).getD name false

/-! ## Multi-kills -/

/-- The first inner loop of `ComputeMultiKills`: the map `killsThisRound` of one round. -/
def killsThisRound (events : List KillEvent) : GoMap String Int :=
  events.foldl
    (fun kills ev => if ev.KillerName = "" then kills else kills.incr ev.KillerName)
    []

/-- The body of the second inner loop of `ComputeMultiKills`, for one entry `name, count`
of `killsThisRound`: `multi[name][count]++` unless `count < 2`. -/
def bumpMulti (multi : GoMap String (GoMap Int Int)) (entry : String × Int) :
    GoMap String (GoMap Int Int) :=
  if entry.2 < 2 then multi
  else multi.set entry.1 ((multi.getD entry.1 []).incr entry.2)

/-- `ComputeMultiKills`. -/
def ComputeMultiKills (eventsByRound : Timeline) : GoMap String (GoMap Int Int) :=
  eventsByRound.foldl (fun multi e => (killsThisRound e.2).foldl bumpMulti multi) []

/-! ## Clutches -/

/-- `CloneTeamMembers`: the deep copy of the roster. -/
def CloneTeamMembers (src : Roster) : Roster :=
  src.foldl
    (fun clone e =>
      clone.set e.1 (e.2.foldl (fun members m => members.set m.1 ()) []))
    []

/-- The count `len(alive[team])`. -/
def aliveCount (alive : Roster) (team : String) : Int :=
  ((alive.getD team []).length : Int)

/-- The statement `delete(alive[ev.VictimTeam], ev.VictimPUUID)`; deleting from the nil
map of an unknown team does nothing. -/
def removeVictim (alive : Roster) (ev : KillEvent) : Roster :=
  match alive.get? ev.VictimTeam with
  | some members => alive.set ev.VictimTeam (members.delete ev.VictimPUUID)
  | none => alive

/-- The loop `for _, ev := range events` of `ComputeClutches` for one round, from the
alive sets `alive`. -/
def clutchesInRound : List KillEvent → Roster → GoMap String Int → GoMap String Int
  | [], _, clutches => clutches
  | ev :: rest, alive, clutches =>
    let teamAliveBefore := aliveCount alive ev.KillerTeam
    let enemyAliveBefore := aliveCount alive ev.VictimTeam
    let alive' := removeVictim alive ev
    if ev.KillerName = "" then clutchesInRound rest alive' clutches
    else if enemyAliveBefore > 0 ∧ aliveCount alive' ev.VictimTeam = 0 ∧ teamAliveBefore = 1 then
      clutchesInRound rest alive' (clutches.incr ev.KillerName)
    else clutchesInRound rest alive' clutches

/-- `ComputeClutches`. -/
def ComputeClutches (eventsByRound : Timeline) (teamMembers : Roster) : GoMap String Int :=
  eventsByRound.foldl
    (fun clutches e => clutchesInRound e.2 (CloneTeamMembers teamMembers) clutches)
    []

/-! ## First blood and KAST -/

/-- The body of the loop of `CalculateFirstKillsAndDeaths`, for one entry
`round, events` of the timeline. -/
def firstBloodStep (m : MatchData) (e : Int × List KillEvent) : MatchData :=
  match e.2 with
  | [] => m
  | firstKill :: _ =>
    let m1 := if firstKill.KillerName ≠ "" then
        { m with FirstKills := m.FirstKills.incr firstKill.KillerName } else m
    if firstKill.VictimName ≠ "" then
      { m1 with FirstDeaths := m1.FirstDeaths.incr firstKill.VictimName } else m1

/-- `CalculateFirstKillsAndDeaths`; the updated record is returned. -/
def CalculateFirstKillsAndDeaths (eventsByRound : Timeline) (mtch : MatchData) : MatchData :=
  eventsByRound.foldl firstBloodStep mtch

/-- The first loop of a round in `CalculateKAST`: every player of `PlayerData` starts as
a survivor. -/
def survivedInit (playerData : GoMap String PlayerMatchStats) : GoMap String Bool :=
  playerData.foldl (fun survived e => survived.set e.1 true) []

/-- The body of the second loop of a round in `CalculateKAST`: the writes of one event
to `survivedPlayers`. -/
def survivedStep (survived : GoMap String Bool) (ev : KillEvent) : GoMap String Bool :=
  let s1 := if ev.KillerName ≠ "" then survived.set ev.KillerName true else survived
  let s2 := if ev.VictimName ≠ "" then s1.set ev.VictimName false else s1
  ev.Assistants.foldl (fun s assistant => if assistant ≠ "" then s.set assistant true else s) s2

/-- The map `survivedPlayers` of a round after all events of the round. -/
def survivedPlayers (playerData : GoMap String PlayerMatchStats) (events : List KillEvent) :
    GoMap String Bool :=
  events.foldl survivedStep (survivedInit playerData)

/-- The flag `hasKill` of `CalculateKAST`. -/
def hasKill (events : List KillEvent) (playerName : String) : Bool :=
  events.foldl (fun flag ev => if ev.KillerName = playerName then true else flag) false

/-- The flag `hasAssist` of `CalculateKAST`. -/
def hasAssist (events : List KillEvent) (playerName : String) : Bool :=
  events.foldl
    (fun flag ev =>
      ev.Assistants.foldl (fun f assistant => if assistant = playerName then true else f) flag)
    false

/-- The body of `for round, events := range eventsByRound` in `CalculateKAST`: the KAST
counters after one round. -/
def kastRound (trades : Trades) (playerData : GoMap String PlayerMatchStats)
    (round : Int) (events : List KillEvent) (kastRounds : GoMap String Int) : GoMap String Int :=
  let survived := survivedPlayers playerData events
  playerData.foldl
    (fun kast e =>
      let playerName := e.1
      let hasTrade := Trades.flagged trades round playerName
      if hasKill events playerName || hasAssist events playerName
          || survived.getD playerName false || hasTrade then
        kast.incr playerName
      else kast)
    kastRounds

/-- `CalculateKAST`; the updated record is returned. -/
def CalculateKAST (eventsByRound : Timeline) (trades : Trades) (mtch : MatchData) : MatchData :=
  { mtch with
    KASTRounds :=
      eventsByRound.foldl (fun kast e => kastRound trades mtch.PlayerData e.1 e.2 kast)
        mtch.KASTRounds }

/-! ## Side attribution -/

/-- The test `round.Plant != nil && round.Plant.Player.Team != ""`, with the planter's team. -/
def plantTeam (round : V4Round) : Option String :=
  match round.Plant with
  | some team => if team ≠ "" then some team else none
  | none => none

/-- `InferInitialAttackingTeam`. -/
def InferInitialAttackingTeam : List V4Round → String
  | [] => ""
  | round :: rest =>
    match plantTeam round with
    | some team => team
    | none => InferInitialAttackingTeam rest

/-- The order in which the two `range` loops of `PickSecondTeam` visit their maps: Go
leaves it unspecified, so it is a parameter.  `teams` reorders `playerTeams` and `seen`
reorders `seenTeams`. -/
structure RangeOrder where
  teams : GoMap String String → GoMap String String
  seen : GoMap String Bool → GoMap String Bool

/-- A range order visits every entry of the map once. -/
def RangeOrder.Valid (order : RangeOrder) : Prop :=
  (∀ m, (order.teams m).Perm m) ∧ (∀ m, (order.seen m).Perm m)

/-- The range order that follows the association list. -/
def RangeOrder.listOrder : RangeOrder :=
  { teams := fun m => m, seen := fun m => m }

/-- `PickSecondTeam`. -/
def PickSecondTeam (order : RangeOrder) (playerTeams : GoMap String String) : String :=
  let acc := (order.teams playerTeams).foldl
    (fun (acc : String × GoMap String Bool) e =>
      ((if acc.1 = "" then e.2 else acc.1), acc.2.set e.2 true))
    ("", [])
  match (order.seen acc.2).find? (fun e => decide (e.1 ≠ acc.1)) with
  | some e => e.1
  | none => ""

/-- `SideByRoundIndex`; `%` is Go's truncated remainder. -/
def SideByRoundIndex (idx : Int) (firstAttack secondTeam : String) : String :=
  if firstAttack = "" ∨ secondTeam = "" then ""
  else if idx < 12 then firstAttack
  else if idx < 24 then secondTeam
  else if Int.tmod (idx - 24) 2 = 0 then firstAttack
  else secondTeam

/-- `BuildAttackingTeamByRound`. -/
def BuildAttackingTeamByRound (rounds : List V4Round) (firstAttack secondTeam : String) :
    GoMap Int String :=
  rounds.enum.foldl
    (fun attackingByRound ir =>
      let attackingTeam :=
        match plantTeam ir.2 with
        | some team => team
        | none => SideByRoundIndex (ir.1 : Int) firstAttack secondTeam
      attackingByRound.set ir.2.ID attackingTeam)
    []

/-- The first loop of `CalculateSideStats` (`for _, kill := range kills`), one kill. -/
def sideKill (attackingByRound : GoMap Int String) (stackNamesByPUUID : GoMap String String)
    (m : MatchData) (kill : V4KillEventResponse) : MatchData :=
  let killerName := stackNamesByPUUID.getD kill.Killer.PUUID ""
  let victimName := stackNamesByPUUID.getD kill.Victim.PUUID ""
  let attackingTeam := attackingByRound.getD kill.Round ""
  if killerName = "" ∨ victimName = "" then m
  else if kill.Killer.Team = attackingTeam then
    { m with AttackKills := m.AttackKills.incr killerName
             DefenseDeaths := m.DefenseDeaths.incr victimName }
  else
    { m with DefenseKills := m.DefenseKills.incr killerName
             AttackDeaths := m.AttackDeaths.incr victimName }

/-- The second loop of `CalculateSideStats`, one statistic entry of a round. -/
def sideDamage (attackingTeam : String) (stackNamesByPUUID : GoMap String String)
    (m : MatchData) (stat : V4RoundStatsEntry) : MatchData :=
  let playerName := stackNamesByPUUID.getD stat.Player.PUUID ""
  if playerName = "" then m
  else if stat.Player.Team = attackingTeam then
    { m with AttackDamage :=
               m.AttackDamage.set playerName (goAdd (m.AttackDamage.getD playerName 0) stat.Stats.Damage)
             AttackRounds := m.AttackRounds.incr playerName }
  else
    { m with DefenseDamage :=
               m.DefenseDamage.set playerName (goAdd (m.DefenseDamage.getD playerName 0) stat.Stats.Damage)
             DefenseRounds := m.DefenseRounds.incr playerName }

/-- `CalculateSideStats`; the updated record is returned. -/
def CalculateSideStats (order : RangeOrder) (rounds : List V4Round)
    (kills : List V4KillEventResponse) (mtch : MatchData)
    (stackNamesByPUUID : GoMap String String) : MatchData :=
  let firstAttackTeam := InferInitialAttackingTeam rounds
  if firstAttackTeam = "" then mtch
  else
    let secondTeam := PickSecondTeam order mtch.PlayerTeams
    if secondTeam = "" then mtch
    else
      let attackingByRound := BuildAttackingTeamByRound rounds firstAttackTeam secondTeam
      let m1 := kills.foldl (sideKill attackingByRound stackNamesByPUUID) mtch
      rounds.foldl
        (fun m round =>
          round.Stats.foldl (sideDamage (attackingByRound.getD round.ID "") stackNamesByPUUID) m)
        m1

/-! ## Match processing -/

/-- `CalculateRoundsPlayed`. -/
def CalculateRoundsPlayed (rounds : List V4Round) : Int :=
  (rounds.length : Int)

/-- The loop of `ProcessMatchDetails` that decides `match.Won`: the flag of the first
team of the payload with a tracked player, `false` when there is none. -/
def stackTeamWon (svc : AnalyticsService) (players : List V4MatchPlayer) : List V4Team → Bool
  | [] => false
  | team :: rest =>
    if players.any (fun player =>
        decide (player.TeamID = team.TeamID) && decide (GetPlayerName svc player.Name player.Tag ≠ ""))
    then team.Won
    else stackTeamWon svc players rest

/-- `ProcessMatchDetails`; `none` is the nil result.  `sortSlice` is `sort.Slice` as used
by `BuildKillEvents` and `order` the range order used by `PickSecondTeam`. -/
def ProcessMatchDetails (sortSlice : SortSlice) (order : RangeOrder)
    (svc : AnalyticsService) (apiMatch : ApiMatch) (minStackPlayers : Int) : Option MatchData :=
  match apiMatch with
  | ApiMatch.other => none
  | ApiMatch.v4 fullMatch =>
    let stackPlayers := GetStackPlayers svc fullMatch.Players
    if (stackPlayers.length : Int) < minStackPlayers then none
    else
      let m0 : MatchData :=
        { MatchID := fullMatch.ID
          Map := fullMatch.MapName
          Mode := fullMatch.QueueID
          PlayerData := []
          Won := false
          RoundsPlayed := CalculateRoundsPlayed fullMatch.Rounds
          FirstKills := []
          FirstDeaths := []
          KASTRounds := []
          PlayerTeams := []
          AttackKills := []
          AttackDeaths := []
          AttackDamage := []
          AttackRounds := []
          DefenseKills := []
          DefenseDeaths := []
          DefenseDamage := []
          DefenseRounds := []
          MultiKills := []
          Clutches := []
          Timestamp := fullMatch.GameStart }
      let m1 := fullMatch.Players.foldl
        (fun (m : MatchData) player =>
          let playerName := GetPlayerName svc player.Name player.Tag
          if playerName = "" then m
          else
            { m with PlayerData := m.PlayerData.set playerName (playerMatchStats player)
                     PlayerTeams := m.PlayerTeams.set playerName player.TeamID })
        m0
      let m2 := { m1 with Won := stackTeamWon svc fullMatch.Players fullMatch.Teams }
      let teamMembers := BuildTeamMembers fullMatch.Players
      let stackNamesByPUUID := BuildStackNamesByPUUID svc fullMatch.Players
      let eventsByRound := BuildKillEvents sortSlice fullMatch.Kills stackNamesByPUUID
      let trades := ComputeTrades svc eventsByRound
      let multiKills := ComputeMultiKills eventsByRound
      let m3 := { m2 with
        MultiKills := multiKills.foldl
          (fun (mk : GoMap String (GoMap Int Int)) (e : String × GoMap Int Int) => mk.set e.1 e.2) m2.MultiKills }
      let clutches := ComputeClutches eventsByRound teamMembers
      let m4 := { m3 with
        Clutches := clutches.foldl (fun (c : GoMap String Int) (e : String × Int) => c.set e.1 e.2) m3.Clutches }
      let m5 := CalculateFirstKillsAndDeaths eventsByRound m4
      let m6 := CalculateKAST eventsByRound trades m5
      some (CalculateSideStats order fullMatch.Rounds fullMatch.Kills m6 stackNamesByPUUID)

/-! ## Properties of the timeline and of the trade flags, in the words of the specification -/

/-- A round is sorted non-decreasing by in-round time. -/
def SortedByTime (events : List KillEvent) : Prop :=
  events.Pairwise (fun a b => a.Time ≤ b.Time)

/-- The death of `n` at some event `i` of the round is avenged at a later event `j`
within the window: `Time_j <= Time_i + w`, the victim of `j` is the killer of `i`, and
the killer of `j` is on the team of the victim of `i`.  The sum is the machine sum. -/
def AvengedIn (w : Int) (events : List KillEvent) (n : String) : Prop :=
  ∃ (i j : Nat) (ei ej : KillEvent), i < j ∧ events[i]? = some ei ∧ events[j]? = some ej ∧
    ei.VictimName = n ∧ n ≠ "" ∧ ej.Time ≤ goAdd ei.Time w ∧
    ej.VictimPUUID = ei.KillerPUUID ∧ ej.KillerTeam = ei.VictimTeam

/-- The condition `AvengedIn` with the integer sum `Time_i + w` in place of the machine sum. -/
def AvengedInExact (w : Int) (events : List KillEvent) (n : String) : Prop :=
  ∃ (i j : Nat) (ei ej : KillEvent), i < j ∧ events[i]? = some ei ∧ events[j]? = some ej ∧
    ei.VictimName = n ∧ n ≠ "" ∧ ej.Time ≤ ei.Time + w ∧
    ej.VictimPUUID = ei.KillerPUUID ∧ ej.KillerTeam = ei.VictimTeam

/-- The flag that `tradesInRound` raises for `n` in one round. -/
def roundFlags (w : Int) : List KillEvent → String → Bool
  | [], _ => false
  | ev :: rest, n =>
    (decide (ev.VictimName = n) && decide (n ≠ "") && scanTrade (goAdd ev.Time w) ev rest)
      || roundFlags w rest n

instance : DecidablePred SortedByTime := fun events => by
  unfold SortedByTime; infer_instance

/-- A service with the default trade window of 5000 ms and three tracked accounts. -/
def exampleService : AnalyticsService :=
  { playerAccountsMap := [("alpha#1", "A"), ("bravo#2", "B"), ("carol#3", "C")]
    tradeWindowMs := 5000 }

/-- A round in which `A` is killed by the untracked `px` at 1000 ms and `B`, a
teammate of `A`, kills `px` at 6000 ms. -/
def exampleTradeRound : List KillEvent :=
  [ { Round := 1, Time := 1000, KillerName := "", VictimName := "A", KillerTeam := "Red",
      VictimTeam := "Blue", KillerPUUID := "px", VictimPUUID := "pa", Assistants := [] },
    { Round := 1, Time := 6000, KillerName := "B", VictimName := "", KillerTeam := "Blue",
      VictimTeam := "Red", KillerPUUID := "pb", VictimPUUID := "px", Assistants := [] } ]

/-! ## The clutch condition, in the words of the specification -/

/-- The alive sets just before event `k` of a round, when the round starts from the
alive sets `start`: the victim of each of the first `k` events is removed, in timeline
order, whoever the killer is. -/
def aliveFrom (start : Roster) (events : List KillEvent) (k : Nat) : Roster :=
  (events.take k).foldl removeVictim start

/-- Event `k` of a round that starts from the alive sets `start` is a clutch kill of
`n`: the killer is `n`, a tracked player; just before the event the killer's team has
exactly one alive member and the victim's team at least one; after the victim is
removed the victim's team has none. -/
def clutchAtFrom (start : Roster) (events : List KillEvent) (k : Nat) (n : String) : Bool :=
  match events[k]? with
  | none => false
  | some e =>
    decide (e.KillerName = n ∧ n ≠ "" ∧
      aliveCount (aliveFrom start events k) e.KillerTeam = 1 ∧
      1 ≤ aliveCount (aliveFrom start events k) e.VictimTeam ∧
      aliveCount (removeVictim (aliveFrom start events k) e) e.VictimTeam = 0)

/-- The liveness simulation of a round: it starts from the full roster. -/
def aliveBefore (teamMembers : Roster) (events : List KillEvent) (k : Nat) : Roster :=
  aliveFrom (CloneTeamMembers teamMembers) events k

/-- Event `k` of the round is a clutch kill of `n` in the liveness simulation. -/
def clutchAt (teamMembers : Roster) (events : List KillEvent) (k : Nat) (n : String) : Bool :=
  clutchAtFrom (CloneTeamMembers teamMembers) events k n

/-- The number of clutch kills of `n` in one round. -/
def clutchKillsInRound (teamMembers : Roster) (events : List KillEvent) (n : String) : Nat :=
  (List.range events.length).countP (fun k => clutchAt teamMembers events k n)

/-- The number of clutch kills of `n` over all rounds of the timeline. -/
def clutchKills (teamMembers : Roster) (eventsByRound : Timeline) (n : String) : Nat :=
  (eventsByRound.map (fun e => clutchKillsInRound teamMembers e.2 n)).sum

/-- The sum of the credits of all players in a counter map. -/
def totalCredits (m : GoMap String Int) : Int :=
  (m.map Prod.snd).sum

/-- A roster of two teams with one member each. -/
def exampleDuelRoster : Roster :=
  [("Red", [("r1", ())]), ("Blue", [("b1", ())])]

/-- A round on `exampleDuelRoster`: `A` (Red) kills the only Blue player, then dies by
their own hand (killer and victim are the same Red player). -/
def exampleSelfKillRound : List KillEvent :=
  [ { Round := 0, Time := 1000, KillerName := "A", VictimName := "", KillerTeam := "Red",
      VictimTeam := "Blue", KillerPUUID := "r1", VictimPUUID := "b1", Assistants := [] },
    { Round := 0, Time := 2000, KillerName := "A", VictimName := "A", KillerTeam := "Red",
      VictimTeam := "Red", KillerPUUID := "r1", VictimPUUID := "r1", Assistants := [] } ]

/-- A roster of three teams with one member each. -/
def exampleThreeTeamRoster : Roster :=
  [("Red", [("r1", ())]), ("Blue", [("b1", ())]), ("Green", [("g1", ())])]

/-- A round on `exampleThreeTeamRoster`: `A` (Red) kills the Blue player, then the Green one. -/
def exampleThreeTeamRound : List KillEvent :=
  [ { Round := 0, Time := 1000, KillerName := "A", VictimName := "", KillerTeam := "Red",
      VictimTeam := "Blue", KillerPUUID := "r1", VictimPUUID := "b1", Assistants := [] },
    { Round := 0, Time := 2000, KillerName := "A", VictimName := "", KillerTeam := "Red",
      VictimTeam := "Green", KillerPUUID := "r1", VictimPUUID := "g1", Assistants := [] } ]

/-- A round on `exampleDuelRoster`: `A` (Red) kills the only Blue player. -/
def exampleDuelRound : List KillEvent :=
  [ { Round := 0, Time := 1000, KillerName := "A", VictimName := "", KillerTeam := "Red",
      VictimTeam := "Blue", KillerPUUID := "r1", VictimPUUID := "b1", Assistants := [] } ]

/-! ## Multi-kill buckets, in the words of the specification -/

/-- The number of events of a round whose killer name is `p`. -/
def killsBy (events : List KillEvent) (p : String) : Nat :=
  events.countP (fun ev => decide (ev.KillerName = p))

/-- The number of rounds of the timeline in which exactly `N` events have killer name `p`. -/
def roundsWithKills (eventsByRound : Timeline) (p : String) (N : Int) : Nat :=
  eventsByRound.countP (fun e => decide ((killsBy e.2 p : Int) = N))

/-- The lookup `multi[p][N]` in the result of `ComputeMultiKills`. -/
def multiKillBucket (multi : GoMap String (GoMap Int Int)) (p : String) (N : Int) : Int :=
  GoMap.getD (GoMap.getD multi p []) N 0

/-! ## First blood and KAST, in the words of the specification -/

/-- The number of rounds of the timeline that have at least one event and whose first
event has killer name `p`. -/
def firstKillRounds (eventsByRound : Timeline) (p : String) : Nat :=
  eventsByRound.countP (fun e =>
    match e.2.head? with
    | some firstKill => decide (firstKill.KillerName = p)
    | none => false)

/-- The number of rounds of the timeline that have at least one event and whose first
event has victim name `p`. -/
def firstDeathRounds (eventsByRound : Timeline) (p : String) : Nat :=
  eventsByRound.countP (fun e =>
    match e.2.head? with
    | some firstKill => decide (firstKill.VictimName = p)
    | none => false)

/-- The KAST condition of player `p` in a round: `p` is the killer of at least one event,
or is listed as assistant of at least one event, or is the victim of no event, or is
flagged traded for the round. -/
def kastCondition (trades : Trades) (round : Int) (events : List KillEvent) (p : String) : Bool :=
  events.any (fun ev => decide (ev.KillerName = p))
    || events.any (fun ev => decide (p ∈ ev.Assistants))
    || events.all (fun ev => decide (ev.VictimName ≠ p))
    || Trades.flagged trades round p

/-- The number of rounds of the timeline in which `p` meets the KAST condition. -/
def kastCredits (eventsByRound : Timeline) (trades : Trades) (p : String) : Nat :=
  eventsByRound.countP (fun e => kastCondition trades e.1 e.2 p)

/-- A match record with every map empty. -/
def emptyMatch : MatchData :=
  { MatchID := "", Map := "", Mode := "", PlayerData := [], Won := false, RoundsPlayed := 0,
    FirstKills := [], FirstDeaths := [], KASTRounds := [], PlayerTeams := [],
    AttackKills := [], AttackDeaths := [], AttackDamage := [], AttackRounds := [],
    DefenseKills := [], DefenseDeaths := [], DefenseDamage := [], DefenseRounds := [],
    MultiKills := [], Clutches := [], Timestamp := 0 }

/-- A match record whose only content is the roster of the tracked players `A` and `B`. -/
def exampleMatch : MatchData :=
  { emptyMatch with
    PlayerData :=
      [ ("A", { Kills := 0, Deaths := 1, Assists := 0, Headshots := 0, Bodyshots := 0,
                Legshots := 0, Score := 0, Agent := "Jett", Team := "Blue", DamageMade := 0,
                DamageReceived := 150 }),
        ("B", { Kills := 1, Deaths := 0, Assists := 0, Headshots := 1, Bodyshots := 0,
                Legshots := 0, Score := 200, Agent := "Sova", Team := "Blue", DamageMade := 150,
                DamageReceived := 0 }) ] }

/-! ## The order of a round, in the words of the specification -/

/-- The events of round `r` in payload order: the raw kills whose `Round` is `r`, converted. -/
def roundPayload (kills : List V4KillEventResponse) (stackNamesByPUUID : GoMap String String)
    (r : Int) : List KillEvent :=
  (kills.filter (fun kill => decide (kill.Round = r))).map (toKillEvent stackNamesByPUUID)

/-- The round `out` keeps the events of equal in-round time in the relative order they
have in `payload`: for every time `t`, the events of time `t` form the same sequence. -/
def TiesInPayloadOrder (out payload : List KillEvent) : Prop :=
  ∀ t : Int, out.filter (fun ev => decide (ev.Time = t))
    = payload.filter (fun ev => decide (ev.Time = t))

/-- The order "not after": `b` is not `less` than `a`. -/
def notAfter (less : KillEvent → KillEvent → Bool) (a b : KillEvent) : Prop :=
  less b a = false

instance (less : KillEvent → KillEvent → Bool) : DecidableRel (notAfter less) := fun a b => by
  unfold notAfter; infer_instance

instance : IsTotal KillEvent (notAfter lessByTime) :=
  ⟨fun a b => by
    unfold notAfter lessByTime
    rcases le_total a.Time b.Time with h | h
    · left; simpa using h
    · right; simpa using h⟩

instance : IsTrans KillEvent (notAfter lessByTime) :=
  ⟨fun a b c h1 h2 => by
    unfold notAfter lessByTime at *
    have h1' : a.Time ≤ b.Time := by simpa using h1
    have h2' : b.Time ≤ c.Time := by simpa using h2
    simpa using le_trans h1' h2'⟩

/-- A `sort.Slice` that keeps equal elements in their original order: insertion sort. -/
def stableSort : SortSlice :=
  fun less events => events.insertionSort (notAfter less)

/-- A `sort.Slice` that meets the contract and reverses equal elements: insertion sort
of the reversed slice. -/
def tieReversingSort : SortSlice :=
  fun less events => events.reverse.insertionSort (notAfter less)

/-- A raw kill of round 1 between untracked players, `victim` killed at `time`. -/
def exampleKill (time : Int) (victim : String) : V4KillEventResponse :=
  { Round := 1, TimeInRoundInMs := time,
    Killer := { PUUID := "k", Name := "killer", Tag := "0", Team := "Red" },
    Victim := { PUUID := victim, Name := victim, Tag := "0", Team := "Blue" },
    Assistants := [] }

/-- A payload of thirteen kills in one round: the first at 2000 ms, then twelve at
1000 ms.  (Thirteen, because Go's implementation of `sort.Slice` leaves insertion sort
for a quicksort variant above twelve elements.) -/
def exampleTiedKills : List V4KillEventResponse :=
  [ exampleKill 2000 "v0", exampleKill 1000 "v1", exampleKill 1000 "v2", exampleKill 1000 "v3",
    exampleKill 1000 "v4", exampleKill 1000 "v5", exampleKill 1000 "v6", exampleKill 1000 "v7",
    exampleKill 1000 "v8", exampleKill 1000 "v9", exampleKill 1000 "v10",
    exampleKill 1000 "v11", exampleKill 1000 "v12" ]

/-- A payload player with empty statistics. -/
def examplePlayer (puuid name tag team : String) : V4MatchPlayer :=
  { PUUID := puuid, Name := name, Tag := tag, TeamID := team, AgentName := "Jett",
    Stats := { Score := 0, Kills := 0, Deaths := 0, Assists := 0, Headshots := 0,
               Bodyshots := 0, Legshots := 0, Damage := { Dealt := 0, Received := 0 } } }

/-- A match of two rounds without plants.  The tracked player `A` (account `alpha#1`)
kills the untracked opponent in round 0; round 1 has no kill event.  `A` dies in no round. -/
def exampleQuietRoundMatch : V4MatchResponse :=
  { Status := 200, ID := "m1", MapName := "Bind", QueueID := "competitive", Region := "eu",
    GameStart := 0,
    Players := [examplePlayer "pa" "alpha" "1" "Red", examplePlayer "px" "xeno" "9" "Blue"],
    Teams := [ { TeamID := "Red", RoundsWon := 2, RoundsLost := 0, Won := true },
               { TeamID := "Blue", RoundsWon := 0, RoundsLost := 2, Won := false } ],
    Rounds := [ { ID := 0, WinningTeam := "Red", Plant := none, Stats := [] },
                { ID := 1, WinningTeam := "Red", Plant := none, Stats := [] } ],
    Kills := [ { Round := 0, TimeInRoundInMs := 1000,
                 Killer := { PUUID := "pa", Name := "alpha", Tag := "1", Team := "Red" },
                 Victim := { PUUID := "px", Name := "xeno", Tag := "9", Team := "Blue" },
                 Assistants := [] } ] }

/-- The match `exampleQuietRoundMatch` without its kill and its first round: one round,
no kill event. -/
def exampleNoKillMatch : V4MatchResponse :=
  { exampleQuietRoundMatch with
    Rounds := [ { ID := 0, WinningTeam := "Red", Plant := none, Stats := [] } ],
    Kills := [] }

/-! ## Side attribution, in the words of the specification -/

/-- The round has a plant with the non-empty planter team `team`. -/
def HasPlant (round : V4Round) (team : String) : Prop :=
  round.Plant = some team ∧ team ≠ ""

/-- The round has no plant with a non-empty planter team. -/
def NoPlant (round : V4Round) : Prop :=
  ∀ team, ¬ HasPlant round team

/-- A round without plant and without statistics. -/
def exampleRound (id : Int) : V4Round :=
  { ID := id, WinningTeam := "Red", Plant := none, Stats := [] }

/-- A round without statistics in which `team` plants. -/
def examplePlantRound (id : Int) (team : String) : V4Round :=
  { ID := id, WinningTeam := team, Plant := some team, Stats := [] }

/-- Thirteen rounds with the ids 0 to 12; only round 0 has a plant, by Blue. -/
def exampleThirteenRounds : List V4Round :=
  [ examplePlantRound 0 "Blue", exampleRound 1, exampleRound 2, exampleRound 3, exampleRound 4,
    exampleRound 5, exampleRound 6, exampleRound 7, exampleRound 8, exampleRound 9,
    exampleRound 10, exampleRound 11, exampleRound 12 ]

/-- The number of raw kills whose killer is a tracked player. -/
def trackedKillerKills (stackNamesByPUUID : GoMap String String)
    (kills : List V4KillEventResponse) : Nat :=
  kills.countP (fun kill => decide (GoMap.getD stackNamesByPUUID kill.Killer.PUUID "" ≠ ""))

/-- The number of raw kills whose killer and victim are both tracked players. -/
def bothTrackedKills (stackNamesByPUUID : GoMap String String)
    (kills : List V4KillEventResponse) : Nat :=
  kills.countP (fun kill =>
    decide (GoMap.getD stackNamesByPUUID kill.Killer.PUUID "" ≠ ""
      ∧ GoMap.getD stackNamesByPUUID kill.Victim.PUUID "" ≠ ""))

/-- A statistic entry of a round. -/
def exampleStat (puuid team : String) (damage : Int) : V4RoundStatsEntry :=
  { Player := { PUUID := puuid, Name := puuid, Tag := "0", Team := team },
    Stats := { Damage := damage, Kills := 0 } }

/-- A match of two rounds with the tracked players `A` (Red) and `B` (Blue) and an
untracked Blue player.  Blue plants in round 0; round 1 has no plant.  `A` kills the
untracked player in round 0 and `B` kills `A` in round 1. -/
def exampleSideMatch : V4MatchResponse :=
  { Status := 200, ID := "m2", MapName := "Haven", QueueID := "competitive", Region := "eu",
    GameStart := 0,
    Players := [ examplePlayer "pa" "alpha" "1" "Red", examplePlayer "pb" "bravo" "2" "Blue",
                 examplePlayer "px" "xeno" "9" "Blue" ],
    Teams := [ { TeamID := "Red", RoundsWon := 1, RoundsLost := 1, Won := false },
               { TeamID := "Blue", RoundsWon := 1, RoundsLost := 1, Won := false } ],
    Rounds := [ { ID := 0, WinningTeam := "Red", Plant := some "Blue",
                  Stats := [exampleStat "pa" "Red" 150, exampleStat "pb" "Blue" 40] },
                { ID := 1, WinningTeam := "Blue", Plant := none,
                  Stats := [exampleStat "pa" "Red" 30, exampleStat "pb" "Blue" 150] } ],
    Kills := [ { Round := 0, TimeInRoundInMs := 1000,
                 Killer := { PUUID := "pa", Name := "alpha", Tag := "1", Team := "Red" },
                 Victim := { PUUID := "px", Name := "xeno", Tag := "9", Team := "Blue" },
                 Assistants := [] },
               { Round := 1, TimeInRoundInMs := 2000,
                 Killer := { PUUID := "pb", Name := "bravo", Tag := "2", Team := "Blue" },
                 Victim := { PUUID := "pa", Name := "alpha", Tag := "1", Team := "Red" },
                 Assistants := [] } ] }

/-- The names by PUUID of `exampleSideMatch`. -/
def exampleSideNames : GoMap String String :=
  BuildStackNamesByPUUID exampleService exampleSideMatch.Players

/-- A record with the team of each tracked player of `exampleSideMatch` and empty maps. -/
def exampleSideRecord : MatchData :=
  { emptyMatch with PlayerTeams := [("A", "Red"), ("B", "Blue")] }

/-- The sum of a list of ints as the program computes it: `total += x` for every `x`,
from zero, with the addition of Go's `int`. -/
def goSum (l : List Int) : Int :=
  l.foldl goAdd 0

/-- The per-round damage entries of player `p`, in the order of the payload: for every
statistic entry of a round whose player has the name `p`, whether the entry's team is
the attacking team of that round in `attackingByRound`, and the damage of the entry. -/
def damageEntries (attackingByRound : GoMap Int String) (stackNamesByPUUID : GoMap String String)
    (rounds : List V4Round) (p : String) : List (Bool × Int) :=
  rounds.flatMap (fun round =>
    (round.Stats.filter
      (fun stat => decide (GoMap.getD stackNamesByPUUID stat.Player.PUUID "" = p))).map
      (fun stat =>
        (decide (stat.Player.Team = GoMap.getD attackingByRound round.ID ""),
          stat.Stats.Damage)))

/-- The damages of the entries on the attack side. -/
def attackDamages (entries : List (Bool × Int)) : List Int :=
  (entries.filter (fun e => e.1)).map (fun e => e.2)

/-- The damages of the entries on the defense side. -/
def defenseDamages (entries : List (Bool × Int)) : List Int :=
  (entries.filter (fun e => !e.1)).map (fun e => e.2)

/-- The four side counters of one player: attack damage, defense damage, attack rounds,
defense rounds. -/
structure SideCounters where
  attackDamage : Int
  defenseDamage : Int
  attackRounds : Int
  defenseRounds : Int
deriving DecidableEq, Repr

/-- The side counters of player `p` in a record. -/
def sideCounters (m : MatchData) (p : String) : SideCounters :=
  { attackDamage := GoMap.getD m.AttackDamage p 0
    defenseDamage := GoMap.getD m.DefenseDamage p 0
    attackRounds := GoMap.getD m.AttackRounds p 0
    defenseRounds := GoMap.getD m.DefenseRounds p 0 }

/-- The effect of one damage entry on the side counters of its player. -/
def creditEntry (c : SideCounters) (e : Bool × Int) : SideCounters :=
  if e.1 then { c with attackDamage := goAdd c.attackDamage e.2, attackRounds := c.attackRounds + 1 }
  else { c with defenseDamage := goAdd c.defenseDamage e.2, defenseRounds := c.defenseRounds + 1 }

/-- The value of the Go type `int` that an integer is reduced to (64 bits, two's complement). -/
def wrap64 (x : Int) : Int :=
  (x + 2 ^ 63) % 2 ^ 64 - 2 ^ 63

/-- The map of attacking teams that `CalculateSideStats` builds once both teams are found. -/
def attackingTeams (order : RangeOrder) (rounds : List V4Round) (mtch : MatchData) :
    GoMap Int String :=
  BuildAttackingTeamByRound rounds (InferInitialAttackingTeam rounds)
    (PickSecondTeam order mtch.PlayerTeams)

/-- The record with its four damage and round side maps empty, as `ProcessMatchDetails`
creates it. -/
def withEmptyDamage (mtch : MatchData) : MatchData :=
  { mtch with AttackDamage := [], AttackRounds := [], DefenseDamage := [], DefenseRounds := [] }

/-! ## Match processing, in the words of the specification -/

/-- The record with its eight side-split maps empty. -/
def clearSide (m : MatchData) : MatchData :=
  { m with
    AttackKills := [], AttackDeaths := [], AttackDamage := [], AttackRounds := [],
    DefenseKills := [], DefenseDeaths := [], DefenseDamage := [], DefenseRounds := [] }

/-- The eight side-split maps of a record. -/
def sideMaps (m : MatchData) :
    GoMap String Int × GoMap String Int × GoMap String Int × GoMap String Int
      × GoMap String Int × GoMap String Int × GoMap String Int × GoMap String Int :=
  (m.AttackKills, m.AttackDeaths, m.AttackDamage, m.AttackRounds,
    m.DefenseKills, m.DefenseDeaths, m.DefenseDamage, m.DefenseRounds)

/-- The round without its plant. -/
def stripPlant (round : V4Round) : V4Round :=
  { round with Plant := none }

/-- The record that `ProcessMatchDetails` has built when it calls `CalculateSideStats`:
everything but the side attribution. -/
def recordBeforeSides (sortSlice : SortSlice) (svc : AnalyticsService)
    (fullMatch : V4MatchResponse) : MatchData :=
  let m0 : MatchData :=
    { MatchID := fullMatch.ID
      Map := fullMatch.MapName
      Mode := fullMatch.QueueID
      PlayerData := []
      Won := false
      RoundsPlayed := CalculateRoundsPlayed fullMatch.Rounds
      FirstKills := []
      FirstDeaths := []
      KASTRounds := []
      PlayerTeams := []
      AttackKills := []
      AttackDeaths := []
      AttackDamage := []
      AttackRounds := []
      DefenseKills := []
      DefenseDeaths := []
      DefenseDamage := []
      DefenseRounds := []
      MultiKills := []
      Clutches := []
      Timestamp := fullMatch.GameStart }
  let m1 := fullMatch.Players.foldl
    (fun (m : MatchData) player =>
      let playerName := GetPlayerName svc player.Name player.Tag
      if playerName = "" then m
      else
        { m with PlayerData := m.PlayerData.set playerName (playerMatchStats player)
                 PlayerTeams := m.PlayerTeams.set playerName player.TeamID })
    m0
  let m2 := { m1 with Won := stackTeamWon svc fullMatch.Players fullMatch.Teams }
  let teamMembers := BuildTeamMembers fullMatch.Players
  let stackNamesByPUUID := BuildStackNamesByPUUID svc fullMatch.Players
  let eventsByRound := BuildKillEvents sortSlice fullMatch.Kills stackNamesByPUUID
  let trades := ComputeTrades svc eventsByRound
  let multiKills := ComputeMultiKills eventsByRound
  let m3 := { m2 with
    MultiKills := multiKills.foldl
      (fun (mk : GoMap String (GoMap Int Int)) (e : String × GoMap Int Int) => mk.set e.1 e.2)
      m2.MultiKills }
  let clutches := ComputeClutches eventsByRound teamMembers
  let m4 := { m3 with
    Clutches := clutches.foldl
      (fun (c : GoMap String Int) (e : String × Int) => c.set e.1 e.2) m3.Clutches }
  let m5 := CalculateFirstKillsAndDeaths eventsByRound m4
  CalculateKAST eventsByRound trades m5

/-- The match `exampleSideMatch` with no plant in any round. -/
def exampleSideMatchNoPlant : V4MatchResponse :=
  { exampleSideMatch with Rounds := exampleSideMatch.Rounds.map stripPlant }

/-- The range order that visits the entries of `playerTeams` last to first. -/
def RangeOrder.reversed : RangeOrder :=
  { teams := fun m => m.reverse, seen := fun m => m }

/-- The kill of `A` (Red) by `B` (Blue) in round `round`. -/
def exampleKillOfA (round : Int) : V4KillEventResponse :=
  { Round := round, TimeInRoundInMs := 1000,
    Killer := { PUUID := "pb", Name := "bravo", Tag := "2", Team := "Blue" },
    Victim := { PUUID := "pa", Name := "alpha", Tag := "1", Team := "Red" },
    Assistants := [] }

/-- The players of `exampleSideMatch` in a match of thirteen rounds, `exampleThirteenRounds`:
Blue plants in round 0, the rounds 1 to 12 have no plant.  `B` (Blue) kills `A` (Red) in
round 1, in the first half, and in round 12, in the second half. -/
def exampleLongMatch : V4MatchResponse :=
  { exampleSideMatch with
    Rounds := exampleThirteenRounds
    Kills := [exampleKillOfA 1, exampleKillOfA 12] }

/-- The canonical names of the tracked players of the player list, one per player entry,
in payload order. -/
def trackedNames (svc : AnalyticsService) (players : List V4MatchPlayer) : List String :=
  (players.map (fun player => GetPlayerName svc player.Name player.Tag)).filter
    (fun name => decide (name ≠ ""))

/-- The number of tracked players present in the player list: the number of distinct
canonical names. -/
def trackedPlayerCount (svc : AnalyticsService) (players : List V4MatchPlayer) : Nat :=
  (trackedNames svc players).dedup.length

/-- The loop of `ProcessAnalysisRequest` (`main.go`) over the fetched payloads:
`match := ProcessMatchDetails(apiMatch, min); if match != nil { matches = append(matches, *match) }`.
The result is the collection handed to `AnalyzeMatches`. -/
def collectMatches (sortSlice : SortSlice) (order : RangeOrder) (svc : AnalyticsService)
    (apiMatches : List ApiMatch) (minStackPlayers : Int) : List MatchData :=
  apiMatches.foldl
    (fun collected apiMatch =>
      match ProcessMatchDetails sortSlice order svc apiMatch minStackPlayers with
      | some mtch => collected ++ [mtch]
      | none => collected)
    []

/-! ## Aggregation (`AnalyzeMatches`) -/

/-- The record `models.PlayerStats`. -/
structure PlayerStats where
  Name : String
  Kills : Int
  Deaths : Int
  Assists : Int
  Headshots : Int
  Bodyshots : Int
  Legshots : Int
  Score : Int
  Wins : Int
  Losses : Int
  TotalGames : Int
  TotalRounds : Int
  Agents : GoMap String Int
  DamageMade : Int
  DamageReceived : Int
  FirstKills : Int
  FirstDeaths : Int
  KASTRounds : Int
  AttackKills : Int
  AttackDeaths : Int
  AttackDamage : Int
  AttackRounds : Int
  DefenseKills : Int
  DefenseDeaths : Int
  DefenseDamage : Int
  DefenseRounds : Int
  MultiKills : GoMap Int Int
  Clutches : Int
deriving DecidableEq

/-- The value `&models.PlayerStats{Agents: ..., MultiKills: ...}` that `AnalyzeMatches`
starts from: every number zero, both maps empty. -/
def emptyStats : PlayerStats :=
  { Name := "", Kills := 0, Deaths := 0, Assists := 0, Headshots := 0, Bodyshots := 0,
    Legshots := 0, Score := 0, Wins := 0, Losses := 0, TotalGames := 0, TotalRounds := 0,
    Agents := [], DamageMade := 0, DamageReceived := 0, FirstKills := 0, FirstDeaths := 0,
    KASTRounds := 0, AttackKills := 0, AttackDeaths := 0, AttackDamage := 0, AttackRounds := 0,
    DefenseKills := 0, DefenseDeaths := 0, DefenseDamage := 0, DefenseRounds := 0,
    MultiKills := [], Clutches := 0 }

/-- The statement `if v, ok := m[k]; ok { total += v }`. -/
def addIfPresent (total : Int) (m : GoMap String Int) (k : String) : Int :=
  match GoMap.get? m k with
  | some v => goAdd total v
  | none => total

/-- The body of the inner loop of `AnalyzeMatches` for the first name `playerName` of
`playerNames` that is a key of `match.PlayerData`, with its entry `playerMatchStats`. -/
def addMatch (stats : PlayerStats) (mtch : MatchData) (playerName : String)
    (playerMatchStats : PlayerMatchStats) : PlayerStats :=
  { Name := stats.Name
    Wins := if mtch.Won then stats.Wins + 1 else stats.Wins
    Losses := if mtch.Won then stats.Losses else stats.Losses + 1
    TotalGames := stats.TotalGames + 1
    TotalRounds := goAdd stats.TotalRounds mtch.RoundsPlayed
    Kills := goAdd stats.Kills playerMatchStats.Kills
    Deaths := goAdd stats.Deaths playerMatchStats.Deaths
    Assists := goAdd stats.Assists playerMatchStats.Assists
    Headshots := goAdd stats.Headshots playerMatchStats.Headshots
    Bodyshots := goAdd stats.Bodyshots playerMatchStats.Bodyshots
    Legshots := goAdd stats.Legshots playerMatchStats.Legshots
    Score := goAdd stats.Score playerMatchStats.Score
    DamageMade := goAdd stats.DamageMade playerMatchStats.DamageMade
    DamageReceived := goAdd stats.DamageReceived playerMatchStats.DamageReceived
    Agents :=
      if playerMatchStats.Agent ≠ "" then stats.Agents.incr playerMatchStats.Agent
      else stats.Agents
    FirstKills := addIfPresent stats.FirstKills mtch.FirstKills playerName
    FirstDeaths := addIfPresent stats.FirstDeaths mtch.FirstDeaths playerName
    KASTRounds := addIfPresent stats.KASTRounds mtch.KASTRounds playerName
    AttackKills := goAdd stats.AttackKills (GoMap.getD mtch.AttackKills playerName 0)
    AttackDeaths := goAdd stats.AttackDeaths (GoMap.getD mtch.AttackDeaths playerName 0)
    AttackDamage := goAdd stats.AttackDamage (GoMap.getD mtch.AttackDamage playerName 0)
    AttackRounds := goAdd stats.AttackRounds (GoMap.getD mtch.AttackRounds playerName 0)
    DefenseKills := goAdd stats.DefenseKills (GoMap.getD mtch.DefenseKills playerName 0)
    DefenseDeaths := goAdd stats.DefenseDeaths (GoMap.getD mtch.DefenseDeaths playerName 0)
    DefenseDamage := goAdd stats.DefenseDamage (GoMap.getD mtch.DefenseDamage playerName 0)
    DefenseRounds := goAdd stats.DefenseRounds (GoMap.getD mtch.DefenseRounds playerName 0)
    MultiKills :=
      match GoMap.get? mtch.MultiKills playerName with
      | some mk =>
        mk.foldl
          (fun (multi : GoMap Int Int) (e : Int × Int) =>
            GoMap.set multi e.1 (goAdd (GoMap.getD multi e.1 0) e.2))
          stats.MultiKills
      | none => stats.MultiKills
    Clutches := addIfPresent stats.Clutches mtch.Clutches playerName }

/-- The inner loop of `AnalyzeMatches` for one match: the first name of `playerNames`
that is a key of `match.PlayerData` is added, and the loop breaks. -/
def analyzeMatch (playerNames : List String) (stats : PlayerStats) (mtch : MatchData) :
    PlayerStats :=
  match playerNames.find? (fun playerName => (GoMap.get? mtch.PlayerData playerName).isSome) with
  | some playerName =>
    match GoMap.get? mtch.PlayerData playerName with
    | some playerMatchStats => addMatch stats mtch playerName playerMatchStats
    | none => stats
  | none => stats

/-- `AnalyzeMatches`. -/
def AnalyzeMatches (matchList : List MatchData) (playerNames : List String) : PlayerStats :=
  matchList.foldl (analyzeMatch playerNames) emptyStats

/-- The match contributes to the aggregate: one of the target names is a key of its
`PlayerData`. -/
def contributes (playerNames : List String) (mtch : MatchData) : Bool :=
  playerNames.any (fun playerName => (GoMap.get? mtch.PlayerData playerName).isSome)

/-! ## Data for the identity lookup and the aggregation -/

/-- An identity map in which two accounts, `alpha#1` and `alfa#9`, hold the same canonical
name `A`; `bravo#2` is `B`. -/
def exampleTwoAccountService : AnalyticsService :=
  { playerAccountsMap := [("alpha#1", "A"), ("alfa#9", "A"), ("bravo#2", "B")]
    tradeWindowMs := 5000 }

/-- A won match record of 20 rounds whose only player is the tracked player `C`, with
7 kills. -/
def exampleRecordOfC : MatchData :=
  { emptyMatch with
    PlayerData :=
      [ ("C", { Kills := 7, Deaths := 3, Assists := 2, Headshots := 4, Bodyshots := 9,
                Legshots := 1, Score := 2100, Agent := "Sova", Team := "Red",
                DamageMade := 1500, DamageReceived := 900 }) ]
    Won := true
    RoundsPlayed := 20 }

/-- The fields of a record that `ProcessMatchDetails` fills from the payload header, the
player list and the team list: `MatchID`, `Map`, `Mode`, `PlayerData`, `PlayerTeams`, `Won`,
`RoundsPlayed` and `Timestamp`. -/
def baseFields (m : MatchData) :
    String × String × String × GoMap String PlayerMatchStats × GoMap String String
      × Bool × Int × Int :=
  (m.MatchID, m.Map, m.Mode, m.PlayerData, m.PlayerTeams, m.Won, m.RoundsPlayed, m.Timestamp)

/-- The map `match.PlayerTeams` that the player loop of `ProcessMatchDetails` builds:
`match.PlayerTeams[playerName] = player.TeamID` for every tracked player, in payload order. -/
def playerTeamsOf (svc : AnalyticsService) (players : List V4MatchPlayer) :
    GoMap String String :=
  players.foldl
    (fun playerTeams player =>
      let playerName := GetPlayerName svc player.Name player.Tag
      if playerName = "" then playerTeams
      else playerTeams.set playerName player.TeamID)
    []

/-- A payload player with the given number of kills and otherwise empty statistics. -/
def examplePlayerWithKills (puuid name tag team : String) (kills : Int) : V4MatchPlayer :=
  { examplePlayer puuid name tag team with
    Stats := { Score := 0, Kills := kills, Deaths := 0, Assists := 0, Headshots := 0,
               Bodyshots := 0, Legshots := 0, Damage := { Dealt := 0, Received := 0 } } }

/-- A match without rounds and kills in which the accounts `alpha#1` (3 kills) and `alfa#9`
(4 kills) both resolve to `A` in `exampleTwoAccountService`; the third player is `B`. -/
def exampleTwoAccountMatch : V4MatchResponse :=
  { Status := 200, ID := "m3", MapName := "Split", QueueID := "competitive", Region := "eu",
    GameStart := 0,
    Players := [ examplePlayerWithKills "p1" "alpha" "1" "Red" 3,
                 examplePlayerWithKills "p2" "alfa" "9" "Red" 4,
                 examplePlayerWithKills "p3" "bravo" "2" "Red" 5 ],
    Teams := [], Rounds := [], Kills := [] }

/-! ## Rosters -/

/-- A roster as Go holds it: a map, so no team id is a key twice, whose values are sets,
so no PUUID is a member of a team twice. -/
def WellFormedRoster (teamMembers : Roster) : Prop :=
  (GoMap.keys teamMembers).Nodup ∧ ∀ e ∈ teamMembers, (GoMap.keys e.2).Nodup

/-- A roster of five players per team. -/
def exampleFiveRoster : Roster :=
  [ ("Red", [("r1", ()), ("r2", ()), ("r3", ()), ("r4", ()), ("r5", ())]),
    ("Blue", [("b1", ()), ("b2", ()), ("b3", ()), ("b4", ()), ("b5", ())]) ]

/-- A kill event of round 0 with no assistants. -/
def exampleEvent (time : Int) (killerName victimName killerTeam victimTeam
    killerPUUID victimPUUID : String) : KillEvent :=
  { Round := 0, Time := time, KillerName := killerName, VictimName := victimName,
    KillerTeam := killerTeam, VictimTeam := victimTeam, KillerPUUID := killerPUUID,
    VictimPUUID := victimPUUID, Assistants := [] }

/-- A timeline of two rounds on `exampleDuelRoster`: in each round the tracked Red player
`A` kills the only Blue player. -/
def exampleTwoDuels : Timeline :=
  [ (0, [exampleEvent 1000 "A" "" "Red" "Blue" "r1" "b1"]),
    (1, [exampleEvent 1500 "A" "" "Red" "Blue" "r1" "b1"]) ]

/-- The timeline of scenario A: one round whose only event is `p1` killing `p2` at
1000 ms. -/
def scenarioATimeline (p1 p2 killerTeam victimTeam killerPUUID victimPUUID : String) :
    Timeline :=
  [(0, [exampleEvent 1000 p1 p2 killerTeam victimTeam killerPUUID victimPUUID])]

/-- The first seven events of a round on `exampleFiveRoster`: the untracked Blue player `b1`
kills the Red players `r1` to `r4`, then the tracked Red player `A` (`r5`) kills `b1`, `b2`
and `b3`.  After them Red has one alive member, `r5`, and Blue two, `b4` and `b5`. -/
def exampleRoundStart : List KillEvent :=
  [ exampleEvent 1000 "" "" "Blue" "Red" "b1" "r1",
    exampleEvent 2000 "" "" "Blue" "Red" "b1" "r2",
    exampleEvent 3000 "" "" "Blue" "Red" "b1" "r3",
    exampleEvent 4000 "" "" "Blue" "Red" "b1" "r4",
    exampleEvent 5000 "A" "" "Red" "Blue" "r5" "b1",
    exampleEvent 6000 "A" "" "Red" "Blue" "r5" "b2",
    exampleEvent 7000 "A" "" "Red" "Blue" "r5" "b3" ]

/-- The kill of the Blue player `b4` by `A`. -/
def exampleKillOfB4 : KillEvent :=
  exampleEvent 8000 "A" "" "Red" "Blue" "r5" "b4"

/-- The kill of the Blue player `b5` by `A`. -/
def exampleKillOfB5 : KillEvent :=
  exampleEvent 9000 "A" "" "Red" "Blue" "r5" "b5"

/-- A kill of the tracked `B` by the tracked `A` whose killer has no team id. -/
def exampleMalformedKill : V4KillEventResponse :=
  { Round := 0, TimeInRoundInMs := 1000,
    Killer := { PUUID := "pa", Name := "alpha", Tag := "1", Team := "" },
    Victim := { PUUID := "pb", Name := "bravo", Tag := "2", Team := "Blue" },
    Assistants := [] }

/-- A match of one round without plant, with the tracked players `A` (Red) and `B` (Blue),
whose only kill event is `exampleMalformedKill`. -/
def exampleMalformedMatch : V4MatchResponse :=
  { Status := 200, ID := "m4", MapName := "Ascent", QueueID := "competitive", Region := "eu",
    GameStart := 0,
    Players := [examplePlayer "pa" "alpha" "1" "Red", examplePlayer "pb" "bravo" "2" "Blue"],
    Teams := [ { TeamID := "Red", RoundsWon := 1, RoundsLost := 0, Won := true },
               { TeamID := "Blue", RoundsWon := 0, RoundsLost := 1, Won := false } ],
    Rounds := [ { ID := 0, WinningTeam := "Red", Plant := none, Stats := [] } ],
    Kills := [exampleMalformedKill] }

/-! ## The totals of `AnalyzeMatches`, field by field -/

/-- The body of the loop `for count, occurrences := range mk` of `AnalyzeMatches`:
`stats.MultiKills[count] += occurrences`. -/
def addOccurrences (multi : GoMap Int Int) (e : Int × Int) : GoMap Int Int :=
  GoMap.set multi e.1 (goAdd (GoMap.getD multi e.1 0) e.2)

/-- The totals of a `PlayerStats` that `AnalyzeMatches` updates with `+=` of a value of
the match: `TotalRounds`, the nine totals of `PlayerMatchStats`, the first-blood and KAST
totals, the eight side totals and `Clutches`. -/
def sumFields (s : PlayerStats) : List Int :=
  [s.TotalRounds, s.Kills, s.Deaths, s.Assists, s.Headshots, s.Bodyshots, s.Legshots, s.Score,
   s.DamageMade, s.DamageReceived, s.FirstKills, s.FirstDeaths, s.KASTRounds,
   s.AttackKills, s.AttackDeaths, s.AttackDamage, s.AttackRounds,
   s.DefenseKills, s.DefenseDeaths, s.DefenseDamage, s.DefenseRounds, s.Clutches]

/-- Every numeric field of a `PlayerStats`: the counters `Wins`, `Losses` and `TotalGames`,
then the totals `sumFields`. -/
def numericFields (s : PlayerStats) : List Int :=
  s.Wins :: s.Losses :: s.TotalGames :: sumFields s

/-- Two `PlayerStats` are equal in every numeric field and in the maps `Agents` and
`MultiKills`: the two maps have the same keys with the same values. -/
def SameStats (s t : PlayerStats) : Prop :=
  numericFields s = numericFields t ∧
  (∀ agent, GoMap.get? s.Agents agent = GoMap.get? t.Agents agent) ∧
  (∀ count, GoMap.get? s.MultiKills count = GoMap.get? t.MultiKills count)

/-- The name and the `PlayerData` entry under which `AnalyzeMatches` adds a match: the
first target name that is a key of `match.PlayerData`; `none` when the match is skipped. -/
def addedBy (playerNames : List String) (mtch : MatchData) :
    Option (String × PlayerMatchStats) :=
  match playerNames.find? (fun playerName => (GoMap.get? mtch.PlayerData playerName).isSome) with
  | some playerName =>
    match GoMap.get? mtch.PlayerData playerName with
    | some playerMatchStats => some (playerName, playerMatchStats)
    | none => none
  | none => none

/-- The values that `AnalyzeMatches` adds to the totals `sumFields` for a match added under
`playerName` with entry `playerMatchStats`, in the order of `sumFields`; a total that is
added only `if v, ok := m[playerName]; ok` has the value `m[playerName]`, zero when the key
is missing. -/
def addedValues (mtch : MatchData) (playerName : String) (playerMatchStats : PlayerMatchStats) :
    List Int :=
  [mtch.RoundsPlayed, playerMatchStats.Kills, playerMatchStats.Deaths, playerMatchStats.Assists,
   playerMatchStats.Headshots, playerMatchStats.Bodyshots, playerMatchStats.Legshots,
   playerMatchStats.Score, playerMatchStats.DamageMade, playerMatchStats.DamageReceived,
   GoMap.getD mtch.FirstKills playerName 0, GoMap.getD mtch.FirstDeaths playerName 0,
   GoMap.getD mtch.KASTRounds playerName 0,
   GoMap.getD mtch.AttackKills playerName 0, GoMap.getD mtch.AttackDeaths playerName 0,
   GoMap.getD mtch.AttackDamage playerName 0, GoMap.getD mtch.AttackRounds playerName 0,
   GoMap.getD mtch.DefenseKills playerName 0, GoMap.getD mtch.DefenseDeaths playerName 0,
   GoMap.getD mtch.DefenseDamage playerName 0, GoMap.getD mtch.DefenseRounds playerName 0,
   GoMap.getD mtch.Clutches playerName 0]

/-- Every value that the match adds to a total of `stats` is non-negative and the sum fits
in Go's `int`; the multi-kill map of the player has no repeated key (it is a Go map). -/
def AddsWithoutOverflow (stats : PlayerStats) (mtch : MatchData) (playerName : String)
    (playerMatchStats : PlayerMatchStats) : Prop :=
  (∀ x ∈ List.zip (sumFields stats) (addedValues mtch playerName playerMatchStats),
    0 ≤ x.2 ∧ IsGoInt (x.1 + x.2)) ∧
  (GoMap.keys (GoMap.getD mtch.MultiKills playerName [])).Nodup ∧
  ∀ e ∈ GoMap.getD mtch.MultiKills playerName [],
    0 ≤ e.2 ∧ IsGoInt (GoMap.getD stats.MultiKills e.1 0 + e.2)

instance (stats : PlayerStats) (mtch : MatchData) (playerName : String)
    (playerMatchStats : PlayerMatchStats) :
    Decidable (AddsWithoutOverflow stats mtch playerName playerMatchStats) := by
  unfold AddsWithoutOverflow; infer_instance

/-- No numeric field of `t` is smaller than in `s`, and no value of the maps `Agents` and
`MultiKills` of `t` is smaller than the value under the same key in `s` (zero when the key
is missing). -/
def StatsLe (s t : PlayerStats) : Prop :=
  List.Forall₂ (fun a b => a ≤ b) (numericFields s) (numericFields t) ∧
  (∀ agent, GoMap.getD s.Agents agent 0 ≤ GoMap.getD t.Agents agent 0) ∧
  (∀ count, GoMap.getD s.MultiKills count 0 ≤ GoMap.getD t.MultiKills count 0)

/-- A record in which the tracked player `A` has the given number of kills. -/
def exampleRecordWithKills (kills : Int) : MatchData :=
  { emptyMatch with
    PlayerData :=
      [ ("A", { Kills := kills, Deaths := 0, Assists := 0, Headshots := 0, Bodyshots := 0,
                Legshots := 0, Score := 0, Agent := "Jett", Team := "Red", DamageMade := 0,
                DamageReceived := 0 }) ] }

/-! ## The keys of the derived maps of a record -/

/-- Every key of every derived per-player map of the record (`FirstKills`, `FirstDeaths`,
`KASTRounds`, `MultiKills`, `Clutches` and the eight side maps) satisfies `P`. -/
structure DerivedKeysIn (P : String → Prop) (m : MatchData) : Prop where
  FirstKills : ∀ name ∈ GoMap.keys m.FirstKills, P name
  FirstDeaths : ∀ name ∈ GoMap.keys m.FirstDeaths, P name
  KASTRounds : ∀ name ∈ GoMap.keys m.KASTRounds, P name
  MultiKills : ∀ name ∈ GoMap.keys m.MultiKills, P name
  Clutches : ∀ name ∈ GoMap.keys m.Clutches, P name
  AttackKills : ∀ name ∈ GoMap.keys m.AttackKills, P name
  AttackDeaths : ∀ name ∈ GoMap.keys m.AttackDeaths, P name
  AttackDamage : ∀ name ∈ GoMap.keys m.AttackDamage, P name
  AttackRounds : ∀ name ∈ GoMap.keys m.AttackRounds, P name
  DefenseKills : ∀ name ∈ GoMap.keys m.DefenseKills, P name
  DefenseDeaths : ∀ name ∈ GoMap.keys m.DefenseDeaths, P name
  DefenseDamage : ∀ name ∈ GoMap.keys m.DefenseDamage, P name
  DefenseRounds : ∀ name ∈ GoMap.keys m.DefenseRounds, P name

/-! ## The win flag, in the words of the specification -/

/-- The team has at least one tracked player: a player of the payload with the team's id
whose account resolves to a canonical name. -/
def HasTrackedPlayer (svc : AnalyticsService) (players : List V4MatchPlayer) (team : V4Team) :
    Prop :=
  ∃ player ∈ players, player.TeamID = team.TeamID ∧
    GetPlayerName svc player.Name player.Tag ≠ ""

/-- The roster has exactly the two distinct teams `teamA` and `teamB`. -/
def TwoTeamRoster (teamMembers : Roster) (teamA teamB : String) : Prop :=
  teamA ≠ teamB ∧ teamA ∈ GoMap.keys teamMembers ∧ teamB ∈ GoMap.keys teamMembers ∧
    ∀ t ∈ GoMap.keys teamMembers, t = teamA ∨ t = teamB

/-- The killer and the victim of the event are on the two different teams `teamA` and
`teamB`. -/
def OpposingTeams (teamA teamB : String) (ev : KillEvent) : Prop :=
  (ev.KillerTeam = teamA ∧ ev.VictimTeam = teamB) ∨
    (ev.KillerTeam = teamB ∧ ev.VictimTeam = teamA)

instance (teamA teamB : String) (ev : KillEvent) : Decidable (OpposingTeams teamA teamB ev) := by
  unfold OpposingTeams; infer_instance

/-- A match of two rounds in which both tracked players, `A` and `B`, are on Red and the
untracked Blue player plants in round 0; `A` kills the Blue player in round 0. -/
def exampleSingleTeamMatch : V4MatchResponse :=
  { Status := 200, ID := "m5", MapName := "Lotus", QueueID := "competitive", Region := "eu",
    GameStart := 0,
    Players := [ examplePlayer "pa" "alpha" "1" "Red", examplePlayer "pb" "bravo" "2" "Red",
                 examplePlayer "px" "xeno" "9" "Blue" ],
    Teams := [ { TeamID := "Red", RoundsWon := 2, RoundsLost := 0, Won := true },
               { TeamID := "Blue", RoundsWon := 0, RoundsLost := 2, Won := false } ],
    Rounds := [ { ID := 0, WinningTeam := "Red", Plant := some "Blue",
                  Stats := [exampleStat "pa" "Red" 150, exampleStat "pb" "Red" 40] },
                { ID := 1, WinningTeam := "Red", Plant := none,
                  Stats := [exampleStat "pa" "Red" 30, exampleStat "pb" "Red" 150] } ],
    Kills := [ { Round := 0, TimeInRoundInMs := 1000,
                 Killer := { PUUID := "pa", Name := "alpha", Tag := "1", Team := "Red" },
                 Victim := { PUUID := "px", Name := "xeno", Tag := "9", Team := "Blue" },
                 Assistants := [] } ] }

/-! ## The side kill and death maps, in the words of the specification -/

/-- The number of raw kills whose killer and victim are both tracked and whose killer's
team is the attacking team of the kill's round. -/
def attackSideKills (attackingByRound : GoMap Int String)
    (stackNamesByPUUID : GoMap String String) (kills : List V4KillEventResponse) : Nat :=
  kills.countP (fun kill =>
    decide ((GoMap.getD stackNamesByPUUID kill.Killer.PUUID "" ≠ ""
      ∧ GoMap.getD stackNamesByPUUID kill.Victim.PUUID "" ≠ "")
      ∧ kill.Killer.Team = GoMap.getD attackingByRound kill.Round ""))

/-- The number of raw kills whose killer and victim are both tracked and whose killer's
team is not the attacking team of the kill's round. -/
def defenseSideKills (attackingByRound : GoMap Int String)
    (stackNamesByPUUID : GoMap String String) (kills : List V4KillEventResponse) : Nat :=
  kills.countP (fun kill =>
    decide ((GoMap.getD stackNamesByPUUID kill.Killer.PUUID "" ≠ ""
      ∧ GoMap.getD stackNamesByPUUID kill.Victim.PUUID "" ≠ "")
      ∧ kill.Killer.Team ≠ GoMap.getD attackingByRound kill.Round ""))

/-- The sums over all players of the four side kill and death maps of a record, in the
order `AttackKills`, `DefenseDeaths`, `DefenseKills`, `AttackDeaths`. -/
def sideKillTotals (m : MatchData) : Int × Int × Int × Int :=
  (totalCredits m.AttackKills, totalCredits m.DefenseDeaths,
    totalCredits m.DefenseKills, totalCredits m.AttackDeaths)

/-- The `RoundsPlayed` of the records that contribute to the aggregate, in list order. -/
def contributingRounds (playerNames : List String) (matchList : List MatchData) : List Int :=
  (matchList.filter (contributes playerNames)).map (fun mtch => mtch.RoundsPlayed)

/-! # Theorems -/

/-! ## Go maps -/

namespace GoMap

variable {κ ν : Type} [DecidableEq κ]

theorem get?_set_self (m : GoMap κ ν) (k : κ) (v : ν) : (m.set k v).get? k = some v := by
  induction m with
  | nil => simp [set, get?]
  | cons e rest ih =>
    obtain ⟨k', v'⟩ := e
    by_cases h : k' = k
    · simp [set, get?, h]
    · simp [set, get?, h, ih]

theorem get?_set_ne (m : GoMap κ ν) {k k' : κ} (v : ν) (h : k' ≠ k) :
    (m.set k v).get? k' = m.get? k' := by
  induction m with
  | nil => simp [set, get?, Ne.symm h]
  | cons e rest ih =>
    obtain ⟨k₀, v₀⟩ := e
    by_cases h₀ : k₀ = k
    · subst h₀
      simp [set, get?, Ne.symm h]
    · by_cases h₁ : k₀ = k'
      · subst h₁
        simp [set, get?, h₀]
      · simp [set, get?, h₀, h₁, ih]

theorem getD_set_self (m : GoMap κ ν) (k : κ) (v d : ν) : (m.set k v).getD k d = v := by
  simp [getD, get?_set_self]

theorem getD_set_ne (m : GoMap κ ν) {k k' : κ} (v d : ν) (h : k' ≠ k) :
    (m.set k v).getD k' d = m.getD k' d := by
  simp [getD, get?_set_ne m v h]

theorem getD_set (m : GoMap κ ν) (k k' : κ) (v d : ν) :
    (m.set k v).getD k' d = if k' = k then v else m.getD k' d := by
  by_cases h : k' = k
  · subst h; simp [getD_set_self]
  · simp [h, getD_set_ne m v d h]

theorem getD_incr (m : GoMap κ Int) (k k' : κ) :
    (m.incr k).getD k' 0 = m.getD k' 0 + (if k' = k then 1 else 0) := by
  unfold incr
  rw [getD_set]
  by_cases h : k' = k
  · subst h; simp
  · simp [h]

theorem getD_nil (k : κ) (d : ν) : GoMap.getD ([] : GoMap κ ν) k d = d := rfl

theorem mem_keys_set (m : GoMap κ ν) (k k' : κ) (v : ν) :
    k' ∈ (m.set k v).keys ↔ k' = k ∨ k' ∈ m.keys := by
  induction m with
  | nil => simp [set, keys]
  | cons e rest ih =>
    obtain ⟨k₀, v₀⟩ := e
    by_cases h₀ : k₀ = k
    · subst h₀
      simp [set, keys]
    · have ih' : k' ∈ List.map Prod.fst (set rest k v) ↔ k' = k ∨ k' ∈ List.map Prod.fst rest := ih
      simp only [set, h₀, if_false, keys, List.map_cons, List.mem_cons, ih']
      tauto

theorem nodup_keys_set (m : GoMap κ ν) (k : κ) (v : ν) (h : m.keys.Nodup) :
    (m.set k v).keys.Nodup := by
  induction m with
  | nil => simp [set, keys]
  | cons e rest ih =>
    obtain ⟨k₀, v₀⟩ := e
    have hn : k₀ ∉ keys rest ∧ (keys rest).Nodup := by simpa [keys] using h
    by_cases h₀ : k₀ = k
    · subst h₀
      simpa [set, keys] using h
    · have h1 : k₀ ∉ (set rest k v).keys := by
        rw [mem_keys_set]; push_neg; exact ⟨h₀, hn.1⟩
      have h2 := ih hn.2
      simp only [set, h₀, if_false]
      exact List.nodup_cons.mpr ⟨h1, h2⟩

theorem get?_eq_none_iff (m : GoMap κ ν) (k : κ) : m.get? k = none ↔ k ∉ m.keys := by
  induction m with
  | nil => simp [get?, keys]
  | cons e rest ih =>
    obtain ⟨k₀, v₀⟩ := e
    have ih' : get? rest k = none ↔ k ∉ List.map Prod.fst rest := ih
    by_cases h₀ : k₀ = k
    · subst h₀; simp [get?, keys]
    · simp [get?, keys, h₀, ih', Ne.symm h₀]

end GoMap

/-! ## Trade detection -/

theorem flagged_markTrade (trades : Trades) (r r' : Int) (n n' : String) :
    Trades.flagged (markTrade trades r n) r' n'
      = (Trades.flagged trades r' n' || (decide (r' = r) && decide (n' = n))) := by
  unfold Trades.flagged markTrade
  rw [GoMap.getD_set]
  by_cases hr : r' = r
  · subst hr
    rw [if_pos rfl, GoMap.getD_set]
    by_cases hn : n' = n
    · subst hn; simp
    · simp [hn]
  · simp [hr]

theorem flagged_tradesInRound (w r : Int) (events : List KillEvent) (trades : Trades)
    (r' : Int) (n : String) :
    Trades.flagged (tradesInRound w r events trades) r' n
      = (Trades.flagged trades r' n || (decide (r' = r) && roundFlags w events n)) := by
  induction events generalizing trades with
  | nil => simp [tradesInRound, roundFlags]
  | cons ev rest ih =>
    unfold tradesInRound
    by_cases hv : ev.VictimName = ""
    · rw [if_pos hv, ih]
      by_cases hn : ev.VictimName = n
      · have : n = "" := by rw [← hn]; exact hv
        simp [roundFlags, this]
      · simp [roundFlags, hn]
    · rw [if_neg hv]
      by_cases hs : scanTrade (goAdd ev.Time w) ev rest = true
      · rw [if_pos hs, ih, flagged_markTrade]
        by_cases hn : ev.VictimName = n
        · subst hn
          by_cases hr : r' = r <;> simp [roundFlags, hs, hv, hr]
        · have hn' : ¬ n = ev.VictimName := fun h => hn h.symm
          simp [roundFlags, hn, hn', Bool.or_assoc]
      · rw [if_neg hs, ih]
        have hs' : scanTrade (goAdd ev.Time w) ev rest = false := by simpa using hs
        simp [roundFlags, hs']

theorem flagged_foldl_tradesInRound (w : Int) (tl : Timeline) (trades : Trades)
    (r : Int) (n : String) :
    Trades.flagged (tl.foldl (fun t e => tradesInRound w e.1 e.2 t) trades) r n
      = (Trades.flagged trades r n
          || tl.any (fun e => decide (e.1 = r) && roundFlags w e.2 n)) := by
  induction tl generalizing trades with
  | nil => simp
  | cons e rest ih =>
    rw [List.foldl_cons, ih, flagged_tradesInRound]
    by_cases hr : e.1 = r
    · have hr' : r = e.1 := hr.symm
      simp [hr, Bool.or_assoc]
    · have hr' : ¬ r = e.1 := fun h => hr h.symm
      simp [hr, hr', Bool.or_assoc]

theorem flagged_ComputeTrades (svc : AnalyticsService) (tl : Timeline) (r : Int) (n : String) :
    Trades.flagged (ComputeTrades svc tl) r n = true
      ↔ ∃ events, (r, events) ∈ tl ∧ roundFlags svc.tradeWindowMs events n = true := by
  unfold ComputeTrades
  rw [flagged_foldl_tradesInRound]
  have h0 : Trades.flagged ([] : Trades) r n = false := rfl
  rw [h0]
  simp only [Bool.false_or, List.any_eq_true, Bool.and_eq_true, decide_eq_true_eq]
  constructor
  · rintro ⟨⟨r', evs⟩, hmem, hr, hf⟩
    simp only at hr hf
    subst hr
    exact ⟨evs, hmem, hf⟩
  · rintro ⟨evs, hmem, hf⟩
    exact ⟨(r, evs), hmem, rfl, hf⟩

theorem goAdd_eq_add {a b : Int} (h : IsGoInt (a + b)) : goAdd a b = a + b := by
  unfold goAdd
  unfold IsGoInt at h
  omega

theorem scanTrade_iff (window : Int) (ev : KillEvent) (rest : List KillEvent)
    (hs : SortedByTime rest) :
    scanTrade window ev rest = true
      ↔ ∃ (j : Nat) (ej : KillEvent), rest[j]? = some ej ∧ ej.Time ≤ window ∧
          ej.VictimPUUID = ev.KillerPUUID ∧ ej.KillerTeam = ev.VictimTeam := by
  induction rest with
  | nil => simp [scanTrade]
  | cons next rest ih =>
    have hs' : (∀ b ∈ rest, next.Time ≤ b.Time) ∧ SortedByTime rest := by
      simpa [SortedByTime] using hs
    unfold scanTrade
    constructor
    · intro h
      by_cases ht : next.Time ≤ window
      · rw [if_pos ht] at h
        by_cases hc : next.VictimPUUID = ev.KillerPUUID ∧ next.KillerTeam = ev.VictimTeam
        · exact ⟨0, next, by simp, ht, hc.1, hc.2⟩
        · rw [if_neg hc] at h
          obtain ⟨j, ej, hj, hrest⟩ := (ih hs'.2).mp h
          exact ⟨j + 1, ej, by simpa using hj, hrest⟩
      · rw [if_neg ht] at h
        exact absurd h (by simp)
    · rintro ⟨j, ej, hj, hle, hv, hk⟩
      cases j with
      | zero =>
        have : next = ej := by simpa using hj
        subst this
        rw [if_pos hle, if_pos ⟨hv, hk⟩]
      | succ j =>
        have hj' : rest[j]? = some ej := by simpa using hj
        have hmem : ej ∈ rest := List.getElem?_mem hj'
        have ht : next.Time ≤ window := le_trans (hs'.1 ej hmem) hle
        rw [if_pos ht]
        by_cases hc : next.VictimPUUID = ev.KillerPUUID ∧ next.KillerTeam = ev.VictimTeam
        · rw [if_pos hc]
        · rw [if_neg hc]
          exact (ih hs'.2).mpr ⟨j, ej, hj', hle, hv, hk⟩

theorem roundFlags_iff (w : Int) (events : List KillEvent) (n : String)
    (hs : SortedByTime events) :
    roundFlags w events n = true ↔ AvengedIn w events n := by
  induction events with
  | nil => simp [roundFlags, AvengedIn]
  | cons ev rest ih =>
    have hs' : (∀ b ∈ rest, ev.Time ≤ b.Time) ∧ SortedByTime rest := by
      simpa [SortedByTime] using hs
    unfold roundFlags
    rw [Bool.or_eq_true, ih hs'.2, Bool.and_eq_true, Bool.and_eq_true, decide_eq_true_eq,
      decide_eq_true_eq, scanTrade_iff _ _ _ hs'.2]
    constructor
    · rintro (⟨⟨hv, hn⟩, j, ej, hj, hle, hvp, hkt⟩ | ⟨i, j, ei, ej, hij, hi, hj, hrest⟩)
      · exact ⟨0, j + 1, ev, ej, Nat.succ_pos j, by simp, by simpa using hj, hv, hn, hle, hvp, hkt⟩
      · exact ⟨i + 1, j + 1, ei, ej, Nat.succ_lt_succ hij, by simpa using hi,
          by simpa using hj, hrest⟩
    · rintro ⟨i, j, ei, ej, hij, hi, hj, hv, hn, hle, hvp, hkt⟩
      cases j with
      | zero => exact absurd hij (Nat.not_lt_zero i)
      | succ j =>
        have hj' : rest[j]? = some ej := by simpa using hj
        cases i with
        | zero =>
          have : ev = ei := by simpa using hi
          subst this
          exact Or.inl ⟨⟨hv, hn⟩, j, ej, hj', hle, hvp, hkt⟩
        | succ i =>
          have hi' : rest[i]? = some ei := by simpa using hi
          exact Or.inr ⟨i, j, ei, ej, Nat.lt_of_succ_lt_succ hij, hi', hj', hv, hn, hle, hvp, hkt⟩

theorem avengedIn_iff_exact (w : Int) (events : List KillEvent) (n : String)
    (hfit : ∀ ev ∈ events, IsGoInt (ev.Time + w)) :
    AvengedIn w events n ↔ AvengedInExact w events n := by
  constructor
  · rintro ⟨i, j, ei, ej, hij, hi, hj, hv, hn, hle, hrest⟩
    have hmem : ei ∈ events := List.getElem?_mem hi
    rw [goAdd_eq_add (hfit ei hmem)] at hle
    exact ⟨i, j, ei, ej, hij, hi, hj, hv, hn, hle, hrest⟩
  · rintro ⟨i, j, ei, ej, hij, hi, hj, hv, hn, hle, hrest⟩
    have hmem : ei ∈ events := List.getElem?_mem hi
    rw [← goAdd_eq_add (hfit ei hmem)] at hle
    exact ⟨i, j, ei, ej, hij, hi, hj, hv, hn, hle, hrest⟩

/-- C1: for a timeline whose rounds are sorted non-decreasing by time and any trade
window `w`, `ComputeTrades` flags the pair (round `r`, name `n`) exactly when round `r`
has an event `i` with victim name `n`, `n` non-empty, and a later event `j > i` with
`Time_j <= Time_i + w` whose victim is the killer of `i` and whose killer is on the
team of the victim of `i`.  The sum `Time_i + w` is the one the program computes, the
addition of Go's `int`; the second part restates the equivalence with the integer sum,
for timelines in which that sum fits in an `int` at every event. -/
theorem ComputeTrades_flags_iff (svc : AnalyticsService) (tl : Timeline)
    (hsorted : ∀ e ∈ tl, SortedByTime e.2) (r : Int) (n : String) :
    (Trades.flagged (ComputeTrades svc tl) r n = true
      ↔ ∃ events, (r, events) ∈ tl ∧ AvengedIn svc.tradeWindowMs events n) ∧
    ((∀ e ∈ tl, ∀ ev ∈ e.2, IsGoInt (ev.Time + svc.tradeWindowMs)) →
      (Trades.flagged (ComputeTrades svc tl) r n = true
        ↔ ∃ events, (r, events) ∈ tl ∧ AvengedInExact svc.tradeWindowMs events n)) := by
  have key : Trades.flagged (ComputeTrades svc tl) r n = true
      ↔ ∃ events, (r, events) ∈ tl ∧ AvengedIn svc.tradeWindowMs events n := by
    rw [flagged_ComputeTrades]
    constructor
    · rintro ⟨events, hmem, hf⟩
      exact ⟨events, hmem, (roundFlags_iff _ _ _ (hsorted _ hmem)).mp hf⟩
    · rintro ⟨events, hmem, hf⟩
      exact ⟨events, hmem, (roundFlags_iff _ _ _ (hsorted _ hmem)).mpr hf⟩
  refine ⟨key, fun hfit => ?_⟩
  rw [key]
  constructor
  · rintro ⟨events, hmem, hf⟩
    exact ⟨events, hmem, (avengedIn_iff_exact _ _ _ (hfit _ hmem)).mp hf⟩
  · rintro ⟨events, hmem, hf⟩
    exact ⟨events, hmem, (avengedIn_iff_exact _ _ _ (hfit _ hmem)).mpr hf⟩

/-- The theorem on the round `exampleTradeRound`, where `A` is flagged and no sum overflows. -/
theorem ComputeTrades_flags_iff_witness :
    (∀ e ∈ ([(1, exampleTradeRound)] : Timeline), SortedByTime e.2) ∧
    (∀ e ∈ ([(1, exampleTradeRound)] : Timeline), ∀ ev ∈ e.2,
      IsGoInt (ev.Time + exampleService.tradeWindowMs)) ∧
    Trades.flagged (ComputeTrades exampleService [(1, exampleTradeRound)]) 1 "A" = true ∧
    ∃ events, (1, events) ∈ ([(1, exampleTradeRound)] : Timeline) ∧
      AvengedInExact exampleService.tradeWindowMs events "A" :=
  ⟨by decide, by decide, by decide,
    ((ComputeTrades_flags_iff exampleService [(1, exampleTradeRound)] (by decide) 1 "A").2
      (by decide)).mp (by decide)⟩

/-- C2: the trade window is inclusive.  In a sorted round `r` of the timeline in which
the tracked player `A` dies once, at event `i` (time `t`), and the only later event whose
victim is the killer of `A` is event `j` (time `t2`), a kill by a teammate of `A`:
`A` is flagged traded when `t2 = t + w`, is not flagged when `t2 = t + w + 1`, and in
general is flagged exactly when `t2 <= t + w` (so with `w = 5000` at `t + 4000` and
`t + 5000` but not at `t + 6000`) as long as `t + w` fits in a Go `int`. -/
theorem ComputeTrades_window_inclusive (svc : AnalyticsService) (tl : Timeline) (r : Int)
    (events : List KillEvent) (i j : Nat) (ei ej : KillEvent)
    (hw : 0 ≤ svc.tradeWindowMs)
    (hmem : (r, events) ∈ tl) (hround : ∀ events', (r, events') ∈ tl → events' = events)
    (hsorted : SortedByTime events)
    (hi : events[i]? = some ei) (hj : events[j]? = some ej) (hij : i < j)
    (hti : IsGoInt ei.Time) (htj : IsGoInt ej.Time)
    (hA : ei.VictimName ≠ "")
    (hdie : ∀ (k : Nat) (ek : KillEvent), events[k]? = some ek →
      ek.VictimName = ei.VictimName → k = i)
    (honly : ∀ (k : Nat) (ek : KillEvent), i < k → events[k]? = some ek →
      ek.VictimPUUID = ei.KillerPUUID → k = j)
    (hvictim : ej.VictimPUUID = ei.KillerPUUID) (hteam : ej.KillerTeam = ei.VictimTeam) :
    (ej.Time = ei.Time + svc.tradeWindowMs →
        Trades.flagged (ComputeTrades svc tl) r ei.VictimName = true) ∧
    (ej.Time = ei.Time + svc.tradeWindowMs + 1 →
        Trades.flagged (ComputeTrades svc tl) r ei.VictimName = false) ∧
    (IsGoInt (ei.Time + svc.tradeWindowMs) →
        (Trades.flagged (ComputeTrades svc tl) r ei.VictimName = true
          ↔ ej.Time ≤ ei.Time + svc.tradeWindowMs)) := by
  have key : Trades.flagged (ComputeTrades svc tl) r ei.VictimName = true
      ↔ ej.Time ≤ goAdd ei.Time svc.tradeWindowMs := by
    rw [flagged_ComputeTrades]
    constructor
    · rintro ⟨events', hmem', hf⟩
      have := hround events' hmem'
      subst this
      obtain ⟨i', j', ei', ej', hij', hi', hj', hv, _, hle, hvp, _⟩ :=
        (roundFlags_iff _ _ _ hsorted).mp hf
      have e1 : i' = i := hdie i' ei' hi' hv
      subst e1
      have e2 : ei' = ei := by
        rw [hi] at hi'; exact (Option.some.inj hi').symm
      subst e2
      have e3 : j' = j := honly j' ej' hij' hj' hvp
      subst e3
      have e4 : ej' = ej := by
        rw [hj] at hj'; exact (Option.some.inj hj').symm
      subst e4
      exact hle
    · intro hle
      exact ⟨events, hmem, (roundFlags_iff _ _ _ hsorted).mpr
        ⟨i, j, ei, ej, hij, hi, hj, rfl, hA, hle, hvictim, hteam⟩⟩
  refine ⟨?_, ?_, ?_⟩
  · intro ht
    have hfit : IsGoInt (ei.Time + svc.tradeWindowMs) := by rw [← ht]; exact htj
    rw [key, goAdd_eq_add hfit, ht]
  · intro ht
    have hfit : IsGoInt (ei.Time + svc.tradeWindowMs) := by
      unfold IsGoInt at *
      omega
    have hnot : ¬ (Trades.flagged (ComputeTrades svc tl) r ei.VictimName = true) := by
      rw [key, goAdd_eq_add hfit, ht]
      omega
    simpa using hnot
  · intro hfit
    rw [key, goAdd_eq_add hfit]

/-- The theorem on the round `exampleTradeRound`: the avenging kill falls on the boundary,
1000 + 5000 ms. -/
theorem ComputeTrades_window_inclusive_witness :
    Trades.flagged (ComputeTrades exampleService [(1, exampleTradeRound)]) 1 "A" = true :=
  (ComputeTrades_window_inclusive exampleService [(1, exampleTradeRound)] 1 exampleTradeRound
    0 1
    { Round := 1, Time := 1000, KillerName := "", VictimName := "A", KillerTeam := "Red",
      VictimTeam := "Blue", KillerPUUID := "px", VictimPUUID := "pa", Assistants := [] }
    { Round := 1, Time := 6000, KillerName := "B", VictimName := "", KillerTeam := "Blue",
      VictimTeam := "Red", KillerPUUID := "pb", VictimPUUID := "px", Assistants := [] }
    (by decide) (by decide) (by intro events' h; simpa using h) (by decide) rfl rfl (by decide)
    (by decide) (by decide) (by decide)
    (by
      intro k ek hk hv
      match k, hk with
      | 0, _ => rfl
      | 1, hk =>
        have : ek = exampleTradeRound[1] := by simpa [exampleTradeRound] using hk.symm
        subst this
        exact absurd hv (by decide)
      | k + 2, hk => simp [exampleTradeRound] at hk)
    (by
      intro k ek hik hk _
      match k, hk with
      | 0, _ => exact absurd hik (by decide)
      | 1, _ => rfl
      | k + 2, hk => simp [exampleTradeRound] at hk)
    rfl rfl).1 (by decide)

/-! ## Clutches -/

/-- The test that `clutchesInRound` makes at the event `ev` with the alive sets `alive`. -/
theorem clutchesInRound_cons (ev : KillEvent) (rest : List KillEvent) (alive : Roster)
    (clutches : GoMap String Int) :
    clutchesInRound (ev :: rest) alive clutches
      = clutchesInRound rest (removeVictim alive ev)
          (if ev.KillerName ≠ "" ∧ aliveCount alive ev.KillerTeam = 1 ∧
              1 ≤ aliveCount alive ev.VictimTeam ∧
              aliveCount (removeVictim alive ev) ev.VictimTeam = 0
            then clutches.incr ev.KillerName else clutches) := by
  rw [clutchesInRound]
  by_cases hk : ev.KillerName = ""
  · have hneg : ¬ (ev.KillerName ≠ "" ∧ aliveCount alive ev.KillerTeam = 1 ∧
        1 ≤ aliveCount alive ev.VictimTeam ∧
        aliveCount (removeVictim alive ev) ev.VictimTeam = 0) := fun h => h.1 hk
    simp only [if_pos hk, if_neg hneg]
  · by_cases hc : aliveCount alive ev.VictimTeam > 0 ∧
        aliveCount (removeVictim alive ev) ev.VictimTeam = 0 ∧ aliveCount alive ev.KillerTeam = 1
    · have hpos : ev.KillerName ≠ "" ∧ aliveCount alive ev.KillerTeam = 1 ∧
          1 ≤ aliveCount alive ev.VictimTeam ∧
          aliveCount (removeVictim alive ev) ev.VictimTeam = 0 :=
        ⟨hk, hc.2.2, by omega, hc.2.1⟩
      simp only [if_neg hk, if_pos hc, if_pos hpos]
    · have hneg : ¬ (ev.KillerName ≠ "" ∧ aliveCount alive ev.KillerTeam = 1 ∧
          1 ≤ aliveCount alive ev.VictimTeam ∧
          aliveCount (removeVictim alive ev) ev.VictimTeam = 0) :=
        fun h => hc ⟨by omega, h.2.2.2, h.2.1⟩
      simp only [if_neg hk, if_neg hc, if_neg hneg]

theorem clutchAtFrom_head (start : Roster) (pre : List KillEvent) (ev : KillEvent)
    (rest : List KillEvent) (n : String) :
    clutchAtFrom start (pre ++ ev :: rest) pre.length n
      = decide (ev.KillerName = n ∧ n ≠ "" ∧
          aliveCount (pre.foldl removeVictim start) ev.KillerTeam = 1 ∧
          1 ≤ aliveCount (pre.foldl removeVictim start) ev.VictimTeam ∧
          aliveCount (removeVictim (pre.foldl removeVictim start) ev) ev.VictimTeam = 0) := by
  have hhead : (pre ++ ev :: rest)[pre.length]? = some ev := by
    rw [List.getElem?_append_right (le_refl _)]
    simp
  have htake : (pre ++ ev :: rest).take pre.length = pre := by simp
  simp only [clutchAtFrom, aliveFrom, hhead, htake]

theorem getD_clutchesInRound (start : Roster) (pre rest : List KillEvent)
    (clutches : GoMap String Int) (n : String) :
    GoMap.getD (clutchesInRound rest (pre.foldl removeVictim start) clutches) n 0
      = GoMap.getD clutches n 0 +
        (((List.range rest.length).countP
          (fun k => clutchAtFrom start (pre ++ rest) (pre.length + k) n) : Nat) : Int) := by
  induction rest generalizing pre clutches with
  | nil => simp [clutchesInRound]
  | cons ev rest ih =>
    rw [clutchesInRound_cons]
    have hfold : removeVictim (pre.foldl removeVictim start) ev
        = (pre ++ [ev]).foldl removeVictim start := by
      simp [List.foldl_append]
    rw [hfold, ih (pre ++ [ev])]
    rw [List.length_cons, List.range_succ_eq_map, List.countP_cons, List.countP_map]
    have hfun : ((fun k => clutchAtFrom start (pre ++ ev :: rest) (pre.length + k) n) ∘ Nat.succ)
        = (fun k => clutchAtFrom start (pre ++ [ev] ++ rest) ((pre ++ [ev]).length + k) n) := by
      funext k
      have happ : pre ++ [ev] ++ rest = pre ++ ev :: rest := by simp
      have hidx : (pre ++ [ev]).length + k = pre.length + (k + 1) := by
        simp; omega
      simp only [Function.comp, happ, hidx, Nat.succ_eq_add_one]
    rw [hfun, ← hfold, Nat.add_zero, clutchAtFrom_head]
    by_cases hc : ev.KillerName ≠ "" ∧ aliveCount (pre.foldl removeVictim start) ev.KillerTeam = 1 ∧
        1 ≤ aliveCount (pre.foldl removeVictim start) ev.VictimTeam ∧
        aliveCount (removeVictim (pre.foldl removeVictim start) ev) ev.VictimTeam = 0
    · rw [if_pos hc, GoMap.getD_incr]
      by_cases hn : n = ev.KillerName
      · subst hn
        have hd : decide (ev.KillerName = ev.KillerName ∧ ev.KillerName ≠ "" ∧
            aliveCount (pre.foldl removeVictim start) ev.KillerTeam = 1 ∧
            1 ≤ aliveCount (pre.foldl removeVictim start) ev.VictimTeam ∧
            aliveCount (removeVictim (pre.foldl removeVictim start) ev) ev.VictimTeam = 0)
            = true := by
          rw [decide_eq_true_eq]
          exact ⟨rfl, hc⟩
        rw [hd]
        simp only [if_true, if_pos rfl]
        push_cast
        ring
      · have hd : decide (ev.KillerName = n ∧ n ≠ "" ∧
            aliveCount (pre.foldl removeVictim start) ev.KillerTeam = 1 ∧
            1 ≤ aliveCount (pre.foldl removeVictim start) ev.VictimTeam ∧
            aliveCount (removeVictim (pre.foldl removeVictim start) ev) ev.VictimTeam = 0)
            = false := by
          rw [decide_eq_false_iff_not]
          rintro ⟨h, _⟩
          exact hn h.symm
        rw [hd, if_neg hn]
        simp
    · rw [if_neg hc]
      have hd : decide (ev.KillerName = n ∧ n ≠ "" ∧
          aliveCount (pre.foldl removeVictim start) ev.KillerTeam = 1 ∧
          1 ≤ aliveCount (pre.foldl removeVictim start) ev.VictimTeam ∧
          aliveCount (removeVictim (pre.foldl removeVictim start) ev) ev.VictimTeam = 0)
          = false := by
        rw [decide_eq_false_iff_not]
        rintro ⟨h1, h2, h3⟩
        exact hc ⟨by rw [h1]; exact h2, h3⟩
      rw [hd]
      simp

theorem getD_clutchesInRound_clone (teamMembers : Roster) (events : List KillEvent)
    (clutches : GoMap String Int) (n : String) :
    GoMap.getD (clutchesInRound events (CloneTeamMembers teamMembers) clutches) n 0
      = GoMap.getD clutches n 0 + (clutchKillsInRound teamMembers events n : Int) := by
  have h := getD_clutchesInRound (CloneTeamMembers teamMembers) [] events clutches n
  simp only [List.foldl_nil, List.nil_append, List.length_nil, Nat.zero_add] at h
  rw [h]
  rfl

theorem getD_foldl_clutchesInRound (teamMembers : Roster) (tl : Timeline)
    (clutches : GoMap String Int) (n : String) :
    GoMap.getD (tl.foldl
        (fun c e => clutchesInRound e.2 (CloneTeamMembers teamMembers) c) clutches) n 0
      = GoMap.getD clutches n 0 + (clutchKills teamMembers tl n : Int) := by
  induction tl generalizing clutches with
  | nil => simp [clutchKills]
  | cons e rest ih =>
    rw [List.foldl_cons, ih, getD_clutchesInRound_clone]
    simp only [clutchKills, List.map_cons, List.sum_cons, Nat.cast_add]
    ring

/-- C3: `ComputeClutches` credits the name `n` with exactly the number of events, over
all rounds, whose killer name is `n`, non-empty, and at which the liveness simulation
of the round (from the full roster, removing the victim of every earlier event, the
events with an untracked killer included) finds exactly one alive member in the
killer's team and at least one in the victim's team just before the event, and none in
the victim's team once the victim is removed. -/
theorem ComputeClutches_counts_clutch_kills (eventsByRound : Timeline) (teamMembers : Roster)
    (n : String) :
    GoMap.getD (ComputeClutches eventsByRound teamMembers) n 0
      = (clutchKills teamMembers eventsByRound n : Int) := by
  unfold ComputeClutches
  rw [getD_foldl_clutchesInRound]
  simp [GoMap.getD_nil]

theorem totalCredits_incr (m : GoMap String Int) (k : String) :
    totalCredits (m.incr k) = totalCredits m + 1 := by
  unfold GoMap.incr GoMap.getD
  induction m with
  | nil => simp [GoMap.set, GoMap.get?, totalCredits]
  | cons e rest ih =>
    obtain ⟨k₀, v₀⟩ := e
    by_cases h : k₀ = k
    · simp [GoMap.set, GoMap.get?, totalCredits, h]
      ring
    · simp only [GoMap.set, GoMap.get?, h, if_false]
      simp only [totalCredits, List.map_cons, List.sum_cons] at ih ⊢
      rw [ih]
      ring

theorem aliveCount_nonneg (alive : Roster) (t : String) : 0 ≤ aliveCount alive t := by
  unfold aliveCount
  exact Int.natCast_nonneg _

theorem aliveCount_removeVictim_le (alive : Roster) (ev : KillEvent) (t : String) :
    aliveCount (removeVictim alive ev) t ≤ aliveCount alive t := by
  unfold removeVictim
  cases hget : GoMap.get? alive ev.VictimTeam with
  | none => exact le_refl _
  | some members =>
    simp only
    unfold aliveCount
    rw [GoMap.getD_set]
    by_cases ht : t = ev.VictimTeam
    · subst ht
      rw [if_pos rfl]
      have hm : GoMap.getD alive ev.VictimTeam [] = members := by
        simp [GoMap.getD, hget]
      rw [hm]
      unfold GoMap.delete
      exact_mod_cast List.length_filter_le _ _
    · rw [if_neg ht]

theorem aliveCount_removeVictim_zero (alive : Roster) (ev : KillEvent) (t : String)
    (h : aliveCount alive t = 0) : aliveCount (removeVictim alive ev) t = 0 :=
  le_antisymm (h ▸ aliveCount_removeVictim_le alive ev t) (aliveCount_nonneg _ _)

/-- Once at most one team has alive members, a round with no same-team kill credits
no further clutch. -/
theorem totalCredits_clutchesInRound_of_single (T : String) (events : List KillEvent)
    (alive : Roster) (clutches : GoMap String Int)
    (hsingle : ∀ t, t ≠ T → aliveCount alive t = 0)
    (hopp : ∀ e ∈ events, e.KillerTeam ≠ e.VictimTeam) :
    totalCredits (clutchesInRound events alive clutches) = totalCredits clutches := by
  induction events generalizing alive clutches with
  | nil => simp [clutchesInRound]
  | cons ev rest ih =>
    rw [clutchesInRound_cons]
    have hne := hopp ev (List.mem_cons_self _ _)
    have hno : ¬ (ev.KillerName ≠ "" ∧ aliveCount alive ev.KillerTeam = 1 ∧
        1 ≤ aliveCount alive ev.VictimTeam ∧
        aliveCount (removeVictim alive ev) ev.VictimTeam = 0) := by
      rintro ⟨_, hk, hv, _⟩
      by_cases h1 : ev.KillerTeam = T
      · have h2 : ev.VictimTeam ≠ T := fun h => hne (h1.trans h.symm)
        have := hsingle _ h2
        omega
      · have := hsingle _ h1
        omega
    rw [if_neg hno]
    exact ih (removeVictim alive ev) clutches
      (fun t ht => aliveCount_removeVictim_zero alive ev t (hsingle t ht))
      (fun e he => hopp e (List.mem_cons_of_mem _ he))

/-- With alive members in at most two teams, a round with no same-team kill credits at
most one clutch. -/
theorem totalCredits_clutchesInRound_le (teamA teamB : String) (events : List KillEvent)
    (alive : Roster) (clutches : GoMap String Int)
    (htwo : ∀ t, t ≠ teamA → t ≠ teamB → aliveCount alive t = 0)
    (hopp : ∀ e ∈ events, e.KillerTeam ≠ e.VictimTeam) :
    totalCredits (clutchesInRound events alive clutches) ≤ totalCredits clutches + 1 := by
  induction events generalizing alive clutches with
  | nil => simp [clutchesInRound]
  | cons ev rest ih =>
    rw [clutchesInRound_cons]
    have hrest : ∀ e ∈ rest, e.KillerTeam ≠ e.VictimTeam :=
      fun e he => hopp e (List.mem_cons_of_mem _ he)
    by_cases hc : ev.KillerName ≠ "" ∧ aliveCount alive ev.KillerTeam = 1 ∧
        1 ≤ aliveCount alive ev.VictimTeam ∧
        aliveCount (removeVictim alive ev) ev.VictimTeam = 0
    · rw [if_pos hc]
      obtain ⟨_, _, hv, hafter⟩ := hc
      have hvAB : ev.VictimTeam = teamA ∨ ev.VictimTeam = teamB := by
        by_contra hcon
        push_neg at hcon
        have := htwo _ hcon.1 hcon.2
        omega
      have hsingle : ∃ T, ∀ t, t ≠ T → aliveCount (removeVictim alive ev) t = 0 := by
        rcases hvAB with hva | hvb
        · refine ⟨teamB, fun t ht => ?_⟩
          by_cases hta : t = teamA
          · rw [hta, ← hva]; exact hafter
          · exact aliveCount_removeVictim_zero alive ev t (htwo t hta ht)
        · refine ⟨teamA, fun t ht => ?_⟩
          by_cases htb : t = teamB
          · rw [htb, ← hvb]; exact hafter
          · exact aliveCount_removeVictim_zero alive ev t (htwo t ht htb)
      obtain ⟨T, hT⟩ := hsingle
      rw [totalCredits_clutchesInRound_of_single T rest _ _ hT hrest, totalCredits_incr]
    · rw [if_neg hc]
      exact ih (removeVictim alive ev) clutches
        (fun t hta htb => aliveCount_removeVictim_zero alive ev t (htwo t hta htb)) hrest

theorem mem_keys_CloneTeamMembers_aux (src : Roster) (init : Roster) (t : String)
    (h : t ∈ GoMap.keys (src.foldl
      (fun clone e => clone.set e.1 (e.2.foldl (fun members m => members.set m.1 ()) []))
      init)) :
    t ∈ GoMap.keys init ∨ t ∈ GoMap.keys src := by
  induction src generalizing init with
  | nil => exact Or.inl h
  | cons e rest ih =>
    rw [List.foldl_cons] at h
    rcases ih _ h with h1 | h1
    · rw [GoMap.mem_keys_set] at h1
      rcases h1 with h2 | h2
      · exact Or.inr (by simp [GoMap.keys, h2])
      · exact Or.inl h2
    · exact Or.inr (by
        simp only [GoMap.keys, List.map_cons, List.mem_cons]
        exact Or.inr h1)

theorem aliveCount_CloneTeamMembers_of_not_mem (src : Roster) (t : String)
    (h : t ∉ GoMap.keys src) : aliveCount (CloneTeamMembers src) t = 0 := by
  have hk : t ∉ GoMap.keys (CloneTeamMembers src) := by
    intro hmem
    rcases mem_keys_CloneTeamMembers_aux src [] t hmem with h1 | h1
    · simp [GoMap.keys] at h1
    · exact h h1
  have hnone := (GoMap.get?_eq_none_iff _ _).mpr hk
  simp [aliveCount, GoMap.getD, hnone]

/-- C4, as the code has it: on a roster with at most two team ids, a single round in
which no event has its killer and its victim on the same team earns at most one clutch
credit in total (so at most one per player). -/
theorem ComputeClutches_single_round_le_one (teamMembers : Roster) (teamA teamB : String)
    (round : Int) (events : List KillEvent)
    (hteams : ∀ t ∈ GoMap.keys teamMembers, t = teamA ∨ t = teamB)
    (hopp : ∀ e ∈ events, e.KillerTeam ≠ e.VictimTeam) :
    totalCredits (ComputeClutches [(round, events)] teamMembers) ≤ 1 := by
  unfold ComputeClutches
  simp only [List.foldl_cons, List.foldl_nil]
  have htwo : ∀ t, t ≠ teamA → t ≠ teamB → aliveCount (CloneTeamMembers teamMembers) t = 0 := by
    intro t hta htb
    apply aliveCount_CloneTeamMembers_of_not_mem
    intro hmem
    rcases hteams t hmem with h | h
    · exact hta h
    · exact htb h
  have h := totalCredits_clutchesInRound_le teamA teamB events _ [] htwo hopp
  simpa [totalCredits] using h

/-- The theorem on the duel of `exampleDuelRound`: two teams, one opposing kill. -/
theorem ComputeClutches_single_round_le_one_witness :
    (∀ t ∈ GoMap.keys exampleDuelRoster, t = "Red" ∨ t = "Blue") ∧
    (∀ e ∈ exampleDuelRound, e.KillerTeam ≠ e.VictimTeam) ∧
    totalCredits (ComputeClutches [(0, exampleDuelRound)] exampleDuelRoster) ≤ 1 :=
  ⟨by decide, by decide,
    ComputeClutches_single_round_le_one exampleDuelRoster "Red" "Blue" 0 exampleDuelRound
      (by decide) (by decide)⟩

/-- C4 fails as stated: a single round can earn two clutch credits, both for one player,
when the last survivor takes their own life after the deciding kill (two-team roster),
and also when the roster has a third team. -/
theorem ComputeClutches_single_round_two_credits :
    ¬ (totalCredits (ComputeClutches [(0, exampleSelfKillRound)] exampleDuelRoster) ≤ 1) ∧
    GoMap.getD (ComputeClutches [(0, exampleSelfKillRound)] exampleDuelRoster) "A" 0 = 2 ∧
    ¬ (totalCredits (ComputeClutches [(0, exampleThreeTeamRound)] exampleThreeTeamRoster) ≤ 1) := by
  decide

/-! ## Multi-kills -/

theorem getD_foldl_killsThisRound (events : List KillEvent) (kills : GoMap String Int)
    (p : String) :
    GoMap.getD (events.foldl
        (fun kills ev => if ev.KillerName = "" then kills else kills.incr ev.KillerName) kills) p 0
      = GoMap.getD kills p 0 + (if p = "" then 0 else (killsBy events p : Int)) := by
  induction events generalizing kills with
  | nil => simp [killsBy]
  | cons ev rest ih =>
    rw [List.foldl_cons, ih]
    by_cases hk : ev.KillerName = ""
    · rw [if_pos hk]
      by_cases hp : p = ""
      · simp [hp]
      · have hne : ¬ ev.KillerName = p := fun h => hp (h ▸ hk)
        simp [hp, killsBy, List.countP_cons, hne]
    · rw [if_neg hk, GoMap.getD_incr]
      by_cases hp : p = ev.KillerName
      · subst hp
        simp [hk, killsBy, List.countP_cons]
        ring
      · have hne : ¬ ev.KillerName = p := fun h => hp h.symm
        by_cases hp' : p = ""
        · subst hp'
          simp [hp]
        · simp [hp, hp', killsBy, List.countP_cons, hne]

theorem getD_killsThisRound (events : List KillEvent) (p : String) :
    GoMap.getD (killsThisRound events) p 0 = if p = "" then 0 else (killsBy events p : Int) := by
  unfold killsThisRound
  rw [getD_foldl_killsThisRound]
  simp [GoMap.getD_nil]

theorem nodup_keys_foldl_killsThisRound (events : List KillEvent) (kills : GoMap String Int)
    (h : (GoMap.keys kills).Nodup) :
    (GoMap.keys (events.foldl
        (fun kills ev => if ev.KillerName = "" then kills else kills.incr ev.KillerName)
        kills)).Nodup := by
  induction events generalizing kills with
  | nil => exact h
  | cons ev rest ih =>
    rw [List.foldl_cons]
    apply ih
    by_cases hk : ev.KillerName = ""
    · rw [if_pos hk]; exact h
    · rw [if_neg hk]; exact GoMap.nodup_keys_set _ _ _ h

theorem nodup_keys_killsThisRound (events : List KillEvent) :
    (GoMap.keys (killsThisRound events)).Nodup :=
  nodup_keys_foldl_killsThisRound events [] (by simp [GoMap.keys])

theorem multiKillBucket_bumpMulti (multi : GoMap String (GoMap Int Int)) (entry : String × Int)
    (p : String) (N : Int) :
    multiKillBucket (bumpMulti multi entry) p N
      = multiKillBucket multi p N
        + (if entry.1 = p ∧ entry.2 = N ∧ 2 ≤ N then 1 else 0) := by
  unfold bumpMulti multiKillBucket
  by_cases h2 : entry.2 < 2
  · rw [if_pos h2]
    have : ¬ (entry.1 = p ∧ entry.2 = N ∧ 2 ≤ N) := by
      rintro ⟨_, h, h'⟩
      omega
    simp [this]
  · rw [if_neg h2, GoMap.getD_set]
    by_cases hp : p = entry.1
    · subst hp
      rw [if_pos rfl, GoMap.getD_incr]
      by_cases hN : N = entry.2
      · subst hN
        have h2' : (2 : Int) ≤ entry.2 := by omega
        simp [h2']
      · have hN' : ¬ entry.2 = N := fun h => hN h.symm
        simp [hN, hN']
    · have hp' : ¬ entry.1 = p := fun h => hp h.symm
      simp [hp, hp']

theorem multiKillBucket_foldl_bumpMulti (entries : GoMap String Int)
    (multi : GoMap String (GoMap Int Int)) (p : String) (N : Int) :
    multiKillBucket (entries.foldl bumpMulti multi) p N
      = multiKillBucket multi p N
        + (entries.countP (fun e => decide (e.1 = p ∧ e.2 = N ∧ 2 ≤ N)) : Int) := by
  induction entries generalizing multi with
  | nil => simp
  | cons e rest ih =>
    rw [List.foldl_cons, ih, multiKillBucket_bumpMulti, List.countP_cons]
    by_cases h : e.1 = p ∧ e.2 = N ∧ 2 ≤ N
    · simp only [if_pos h, decide_eq_true h, if_true]
      push_cast
      ring
    · simp only [if_neg h, decide_eq_false h]
      simp

theorem countP_entry_of_nodup_keys (entries : GoMap String Int) (p : String) (N : Int)
    (hnd : (GoMap.keys entries).Nodup) (hN : 2 ≤ N) :
    entries.countP (fun e => decide (e.1 = p ∧ e.2 = N ∧ 2 ≤ N))
      = if GoMap.getD entries p 0 = N then 1 else 0 := by
  induction entries with
  | nil =>
    have : ¬ (0 : Int) = N := by omega
    simp [GoMap.getD, GoMap.get?, this]
  | cons e rest ih =>
    obtain ⟨k₀, v₀⟩ := e
    have hn : k₀ ∉ GoMap.keys rest ∧ (GoMap.keys rest).Nodup := by
      simpa [GoMap.keys] using hnd
    rw [List.countP_cons, ih hn.2]
    by_cases hk : k₀ = p
    · subst hk
      have hnone : GoMap.get? rest k₀ = none := (GoMap.get?_eq_none_iff _ _).mpr hn.1
      have h0 : ¬ (0 : Int) = N := by omega
      by_cases hv : v₀ = N
      · simp [GoMap.getD, GoMap.get?, hnone, hv, hN, h0]
      · simp [GoMap.getD, GoMap.get?, hnone, hv, h0]
    · simp [GoMap.getD, GoMap.get?, hk]

theorem multiKillBucket_round (events : List KillEvent) (multi : GoMap String (GoMap Int Int))
    (p : String) (N : Int) :
    multiKillBucket ((killsThisRound events).foldl bumpMulti multi) p N
      = multiKillBucket multi p N
        + (if p ≠ "" ∧ 2 ≤ N ∧ (killsBy events p : Int) = N then 1 else 0) := by
  rw [multiKillBucket_foldl_bumpMulti]
  by_cases hN : 2 ≤ N
  · rw [countP_entry_of_nodup_keys _ _ _ (nodup_keys_killsThisRound events) hN,
      getD_killsThisRound]
    by_cases hp : p = ""
    · have h0 : ¬ (0 : Int) = N := by omega
      simp [hp, h0]
    · by_cases hk : (killsBy events p : Int) = N
      · simp [hp, hN, hk]
      · simp [hp, hN, hk]
  · have : ∀ e : String × Int, decide (e.1 = p ∧ e.2 = N ∧ 2 ≤ N) = false := by
      intro e
      rw [decide_eq_false_iff_not]
      rintro ⟨_, _, h⟩
      exact hN h
    simp [this, hN]

theorem multiKillBucket_foldl_rounds (tl : Timeline) (multi : GoMap String (GoMap Int Int))
    (p : String) (N : Int) :
    multiKillBucket (tl.foldl (fun multi e => (killsThisRound e.2).foldl bumpMulti multi) multi) p N
      = multiKillBucket multi p N
        + (if p ≠ "" ∧ 2 ≤ N then (roundsWithKills tl p N : Int) else 0) := by
  induction tl generalizing multi with
  | nil => simp [roundsWithKills]
  | cons e rest ih =>
    rw [List.foldl_cons, ih, multiKillBucket_round]
    by_cases hpN : p ≠ "" ∧ 2 ≤ N
    · rw [if_pos hpN, if_pos hpN]
      by_cases hk : (killsBy e.2 p : Int) = N
      · rw [if_pos ⟨hpN.1, hpN.2, hk⟩]
        simp only [roundsWithKills, List.countP_cons, decide_eq_true hk, if_true]
        push_cast
        ring
      · rw [if_neg (fun h => hk h.2.2)]
        simp only [roundsWithKills, List.countP_cons, decide_eq_false hk]
        simp
    · rw [if_neg hpN, if_neg hpN, if_neg (fun h => hpN ⟨h.1, h.2.1⟩)]
      ring

/-- C5: for a non-empty player name `p` and `N >= 2`, the bucket
`ComputeMultiKills(timeline)[p][N]` is the number of rounds in which exactly `N` events
have killer name `p` (so a round with exactly `N` kills by `p` raises bucket `N` and no
other); every bucket below 2 and every bucket of the empty name is zero. -/
theorem ComputeMultiKills_bucket (eventsByRound : Timeline) (p : String) (N : Int) :
    multiKillBucket (ComputeMultiKills eventsByRound) p N
      = if p ≠ "" ∧ 2 ≤ N then (roundsWithKills eventsByRound p N : Int) else 0 := by
  unfold ComputeMultiKills
  rw [multiKillBucket_foldl_rounds]
  simp [multiKillBucket, GoMap.getD_nil]

/-! ## First blood -/

theorem firstBloodStep_FirstKills (m : MatchData) (e : Int × List KillEvent) (p : String) :
    GoMap.getD (firstBloodStep m e).FirstKills p 0
      = GoMap.getD m.FirstKills p 0 +
        (if p ≠ "" ∧ (match e.2.head? with
            | some firstKill => decide (firstKill.KillerName = p)
            | none => false) = true then 1 else 0) := by
  obtain ⟨r, events⟩ := e
  cases events with
  | nil => simp [firstBloodStep]
  | cons ev rest =>
    simp only [firstBloodStep, List.head?_cons]
    by_cases hk : ev.KillerName = "" <;> by_cases hv : ev.VictimName = ""
    all_goals
      by_cases hp : p = ev.KillerName
      · subst hp
        simp [hk, hv, GoMap.getD_incr]
      · have hp' : ¬ ev.KillerName = p := fun h => hp h.symm
        simp [hk, hv, hp, hp', GoMap.getD_incr]
        try (intro h h'; exact h h'.symm)

theorem firstBloodStep_FirstDeaths (m : MatchData) (e : Int × List KillEvent) (p : String) :
    GoMap.getD (firstBloodStep m e).FirstDeaths p 0
      = GoMap.getD m.FirstDeaths p 0 +
        (if p ≠ "" ∧ (match e.2.head? with
            | some firstKill => decide (firstKill.VictimName = p)
            | none => false) = true then 1 else 0) := by
  obtain ⟨r, events⟩ := e
  cases events with
  | nil => simp [firstBloodStep]
  | cons ev rest =>
    simp only [firstBloodStep, List.head?_cons]
    by_cases hk : ev.KillerName = "" <;> by_cases hv : ev.VictimName = ""
    all_goals
      by_cases hp : p = ev.VictimName
      · subst hp
        simp [hk, hv, GoMap.getD_incr]
      · have hp' : ¬ ev.VictimName = p := fun h => hp h.symm
        simp [hk, hv, hp, hp', GoMap.getD_incr]
        try (intro h h'; exact h h'.symm)

theorem foldl_firstBloodStep (tl : Timeline) (m : MatchData) (p : String) :
    GoMap.getD (tl.foldl firstBloodStep m).FirstKills p 0
        = GoMap.getD m.FirstKills p 0 + (if p ≠ "" then (firstKillRounds tl p : Int) else 0) ∧
    GoMap.getD (tl.foldl firstBloodStep m).FirstDeaths p 0
        = GoMap.getD m.FirstDeaths p 0 + (if p ≠ "" then (firstDeathRounds tl p : Int) else 0) := by
  induction tl generalizing m with
  | nil => simp [firstKillRounds, firstDeathRounds]
  | cons e rest ih =>
    rw [List.foldl_cons]
    obtain ⟨h1, h2⟩ := ih (firstBloodStep m e)
    rw [h1, h2, firstBloodStep_FirstKills, firstBloodStep_FirstDeaths]
    by_cases hp : p = ""
    · simp [hp]
    · constructor
      · simp only [firstKillRounds, List.countP_cons, ne_eq, hp, not_false_eq_true, true_and,
          if_true]
        by_cases hc : (match e.2.head? with
            | some firstKill => decide (firstKill.KillerName = p)
            | none => false) = true
        · simp only [hc, if_true]
          push_cast
          ring
        · simp only [hc, if_false]
          simp
      · simp only [firstDeathRounds, List.countP_cons, ne_eq, hp, not_false_eq_true, true_and,
          if_true]
        by_cases hc : (match e.2.head? with
            | some firstKill => decide (firstKill.VictimName = p)
            | none => false) = true
        · simp only [hc, if_true]
          push_cast
          ring
        · simp only [hc, if_false]
          simp

/-- C6: after `CalculateFirstKillsAndDeaths` on a record whose two first-blood maps are
empty, `FirstKills[p]` of a non-empty name `p` is the number of rounds with at least one
event whose first event has killer name `p`, and `FirstDeaths[p]` the number of those
whose first event has victim name `p`; the empty name is never credited, so rounds
without events and untracked first killers or victims contribute nothing. -/
theorem CalculateFirstKillsAndDeaths_counts (eventsByRound : Timeline) (mtch : MatchData)
    (p : String) :
    GoMap.getD (CalculateFirstKillsAndDeaths eventsByRound
        { mtch with FirstKills := [], FirstDeaths := [] }).FirstKills p 0
      = (if p ≠ "" then (firstKillRounds eventsByRound p : Int) else 0) ∧
    GoMap.getD (CalculateFirstKillsAndDeaths eventsByRound
        { mtch with FirstKills := [], FirstDeaths := [] }).FirstDeaths p 0
      = (if p ≠ "" then (firstDeathRounds eventsByRound p : Int) else 0) := by
  unfold CalculateFirstKillsAndDeaths
  obtain ⟨h1, h2⟩ := foldl_firstBloodStep eventsByRound
    { mtch with FirstKills := [], FirstDeaths := [] } p
  rw [h1, h2]
  simp [GoMap.getD_nil]

/-! ## KAST -/

theorem foldl_hasKill (events : List KillEvent) (p : String) (flag : Bool) :
    events.foldl (fun flag ev => if ev.KillerName = p then true else flag) flag
      = (flag || events.any (fun ev => decide (ev.KillerName = p))) := by
  induction events generalizing flag with
  | nil => simp
  | cons ev rest ih =>
    rw [List.foldl_cons, ih]
    by_cases h : ev.KillerName = p <;> simp [h]

theorem hasKill_eq_any (events : List KillEvent) (p : String) :
    hasKill events p = events.any (fun ev => decide (ev.KillerName = p)) := by
  unfold hasKill
  rw [foldl_hasKill]
  simp

theorem foldl_assistants_flag (assistants : List String) (p : String) (flag : Bool) :
    assistants.foldl (fun f assistant => if assistant = p then true else f) flag
      = (flag || decide (p ∈ assistants)) := by
  induction assistants generalizing flag with
  | nil => simp
  | cons a rest ih =>
    rw [List.foldl_cons, ih]
    by_cases h : a = p
    · simp [h]
    · have h' : ¬ p = a := fun e => h e.symm
      simp [h, h']

theorem foldl_hasAssist (events : List KillEvent) (p : String) (flag : Bool) :
    events.foldl
        (fun flag ev =>
          ev.Assistants.foldl (fun f assistant => if assistant = p then true else f) flag)
        flag
      = (flag || events.any (fun ev => decide (p ∈ ev.Assistants))) := by
  induction events generalizing flag with
  | nil => simp
  | cons ev rest ih =>
    rw [List.foldl_cons, ih, foldl_assistants_flag]
    simp [Bool.or_assoc]

theorem hasAssist_eq_any (events : List KillEvent) (p : String) :
    hasAssist events p = events.any (fun ev => decide (p ∈ ev.Assistants)) := by
  unfold hasAssist
  rw [foldl_hasAssist]
  simp

theorem getD_foldl_assistants_survived (assistants : List String) (s : GoMap String Bool)
    (p : String) (hp : p ≠ "") :
    GoMap.getD (assistants.foldl
        (fun s assistant => if assistant ≠ "" then s.set assistant true else s) s) p false
      = (decide (p ∈ assistants) || GoMap.getD s p false) := by
  induction assistants generalizing s with
  | nil => simp
  | cons a rest ih =>
    rw [List.foldl_cons, ih]
    by_cases ha : a = ""
    · subst ha
      simp [hp]
    · by_cases hpa : p = a
      · subst hpa
        simp [ha, GoMap.getD_set_self]
      · simp [ha, hpa, GoMap.getD_set_ne _ _ _ hpa]

/-- What one event writes to the entry of a tracked name `p` of `survivedPlayers`. -/
theorem getD_survivedStep (s : GoMap String Bool) (ev : KillEvent) (p : String) (hp : p ≠ "") :
    GoMap.getD (survivedStep s ev) p false
      = (decide (p ∈ ev.Assistants)
          || (if ev.VictimName = p then false
              else if ev.KillerName = p then true else GoMap.getD s p false)) := by
  unfold survivedStep
  simp only
  rw [getD_foldl_assistants_survived _ _ _ hp]
  congr 1
  by_cases hv : ev.VictimName = p
  · subst hv
    simp [hp, GoMap.getD_set_self]
  · have hv' : p ≠ ev.VictimName := fun e => hv e.symm
    have hvs : GoMap.getD
        (if ev.VictimName ≠ "" then
          GoMap.set (if ev.KillerName ≠ "" then GoMap.set s ev.KillerName true else s)
            ev.VictimName false
         else (if ev.KillerName ≠ "" then GoMap.set s ev.KillerName true else s)) p false
        = GoMap.getD (if ev.KillerName ≠ "" then GoMap.set s ev.KillerName true else s) p false := by
      by_cases hve : ev.VictimName = ""
      · simp [hve]
      · simp [hve, GoMap.getD_set_ne _ _ _ hv']
    rw [if_neg hv, hvs]
    by_cases hk : ev.KillerName = p
    · subst hk
      simp [hp, GoMap.getD_set_self]
    · have hk' : p ≠ ev.KillerName := fun e => hk e.symm
      by_cases hke : ev.KillerName = ""
      · simp [hke, hk]
        intro h
        exact absurd h.symm hp
      · simp [hke, hk, GoMap.getD_set_ne _ _ _ hk']

theorem getD_survivedInit_aux (playerData : GoMap String PlayerMatchStats)
    (s : GoMap String Bool) (p : String)
    (h : p ∈ GoMap.keys playerData ∨ GoMap.getD s p false = true) :
    GoMap.getD (playerData.foldl (fun survived e => survived.set e.1 true) s) p false = true := by
  induction playerData generalizing s with
  | nil =>
    rcases h with h | h
    · simp [GoMap.keys] at h
    · simpa using h
  | cons e rest ih =>
    rw [List.foldl_cons]
    apply ih
    by_cases hp : p = e.1
    · right
      rw [hp, GoMap.getD_set_self]
    · rcases h with h | h
      · left
        simp only [GoMap.keys, List.map_cons, List.mem_cons] at h
        rcases h with h | h
        · exact absurd h hp
        · exact h
      · right
        rw [GoMap.getD_set_ne _ _ _ hp]
        exact h

theorem getD_survivedInit (playerData : GoMap String PlayerMatchStats) (p : String)
    (h : p ∈ GoMap.keys playerData) :
    GoMap.getD (survivedInit playerData) p false = true :=
  getD_survivedInit_aux playerData [] p (Or.inl h)

/-- The survivor flag adds nothing to the kill and assist flags beyond "victim of no event". -/
theorem survived_or_flags (events : List KillEvent) (s : GoMap String Bool) (p : String)
    (hp : p ≠ "") :
    (events.any (fun ev => decide (ev.KillerName = p))
        || events.any (fun ev => decide (p ∈ ev.Assistants))
        || GoMap.getD (events.foldl survivedStep s) p false)
      = (events.any (fun ev => decide (ev.KillerName = p))
        || events.any (fun ev => decide (p ∈ ev.Assistants))
        || (GoMap.getD s p false && events.all (fun ev => decide (ev.VictimName ≠ p)))) := by
  induction events generalizing s with
  | nil => simp
  | cons ev rest ih =>
    rw [List.foldl_cons]
    have h := ih (survivedStep s ev)
    rw [getD_survivedStep s ev p hp] at h
    simp only [List.any_cons, List.all_cons]
    by_cases hk : ev.KillerName = p
    · simp [hk]
    · by_cases ha : p ∈ ev.Assistants
      · simp [ha]
      · by_cases hv : ev.VictimName = p
        · simpa [hk, ha, hv] using h
        · simpa [hk, ha, hv] using h

theorem getD_foldl_kastRound (playerData : GoMap String PlayerMatchStats)
    (cond : String → Bool) (kast : GoMap String Int) (p : String) :
    GoMap.getD (playerData.foldl (fun kast e => if cond e.1 = true then kast.incr e.1 else kast)
        kast) p 0
      = GoMap.getD kast p 0
        + (if cond p = true then ((GoMap.keys playerData).count p : Int) else 0) := by
  induction playerData generalizing kast with
  | nil => simp [GoMap.keys]
  | cons e rest ih =>
    rw [List.foldl_cons, ih]
    have hkeys : GoMap.keys (e :: rest) = e.1 :: GoMap.keys rest := rfl
    rw [hkeys, List.count_cons]
    by_cases hp : e.1 = p
    · subst hp
      by_cases hc : cond e.1 = true
      · simp only [hc, if_true, GoMap.getD_incr, beq_self_eq_true]
        push_cast
        ring
      · simp [hc]
    · have hp' : ¬ p = e.1 := fun h => hp h.symm
      by_cases hc : cond e.1 = true
      · simp [hc, GoMap.getD_incr, hp, hp']
      · simp [hc, hp]

theorem getD_kastRound (trades : Trades) (playerData : GoMap String PlayerMatchStats)
    (round : Int) (events : List KillEvent) (kast : GoMap String Int) (p : String)
    (hmem : p ∈ GoMap.keys playerData) (hne : p ≠ "")
    (hnd : (GoMap.keys playerData).Nodup) :
    GoMap.getD (kastRound trades playerData round events kast) p 0
      = GoMap.getD kast p 0 + (if kastCondition trades round events p = true then 1 else 0) := by
  have hfold : kastRound trades playerData round events kast
      = playerData.foldl
          (fun kast e =>
            if (fun name => hasKill events name || hasAssist events name
                  || GoMap.getD (survivedPlayers playerData events) name false
                  || Trades.flagged trades round name) e.1 = true
            then kast.incr e.1 else kast)
          kast := rfl
  have hcount := getD_foldl_kastRound playerData
    (fun name => hasKill events name || hasAssist events name
      || GoMap.getD (survivedPlayers playerData events) name false
      || Trades.flagged trades round name) kast p
  rw [hfold, hcount, List.count_eq_one_of_mem hnd hmem]
  have hcond : (hasKill events p || hasAssist events p
        || GoMap.getD (survivedPlayers playerData events) p false
        || Trades.flagged trades round p)
      = kastCondition trades round events p := by
    unfold kastCondition survivedPlayers
    rw [hasKill_eq_any, hasAssist_eq_any, survived_or_flags events _ p hne,
      getD_survivedInit playerData p hmem, Bool.true_and]
  simp only [hcond]
  simp

/-- C7: for a tracked player `p` of `PlayerData` (a non-empty name; the keys of a map are
distinct), `CalculateKAST` adds to `KASTRounds[p]` exactly one for every round of the
timeline in which `p` is the killer of some event, or an assistant of some event, or the
victim of no event, or flagged traded, and nothing for the other rounds; a round in
which `p` has a kill always meets the condition. -/
theorem CalculateKAST_credits (eventsByRound : Timeline) (trades : Trades) (mtch : MatchData)
    (p : String) (hmem : p ∈ GoMap.keys mtch.PlayerData) (hne : p ≠ "")
    (hnd : (GoMap.keys mtch.PlayerData).Nodup) :
    GoMap.getD (CalculateKAST eventsByRound trades mtch).KASTRounds p 0
        = GoMap.getD mtch.KASTRounds p 0 + (kastCredits eventsByRound trades p : Int) ∧
    (∀ (round : Int) (events : List KillEvent) (ev : KillEvent),
        ev ∈ events → ev.KillerName = p → kastCondition trades round events p = true) := by
  constructor
  · unfold CalculateKAST
    simp only
    generalize mtch.KASTRounds = kast
    induction eventsByRound generalizing kast with
    | nil => simp [kastCredits]
    | cons e rest ih =>
      rw [List.foldl_cons, ih, getD_kastRound trades _ _ _ _ p hmem hne hnd]
      simp only [kastCredits, List.countP_cons]
      by_cases hc : kastCondition trades e.1 e.2 p = true
      · simp only [hc, if_true]
        push_cast
        ring
      · simp only [hc, if_false]
        simp
  · intro round events ev hev hk
    unfold kastCondition
    have : events.any (fun ev => decide (ev.KillerName = p)) = true := by
      rw [List.any_eq_true]
      exact ⟨ev, hev, by simpa using hk⟩
    simp [this]

/-- The theorem for the tracked player `A` of `exampleMatch` on the round `exampleTradeRound`. -/
theorem CalculateKAST_credits_witness :
    "A" ∈ GoMap.keys exampleMatch.PlayerData ∧ (GoMap.keys exampleMatch.PlayerData).Nodup ∧
    GoMap.getD (CalculateKAST [(1, exampleTradeRound)]
        (ComputeTrades exampleService [(1, exampleTradeRound)]) exampleMatch).KASTRounds "A" 0
      = GoMap.getD exampleMatch.KASTRounds "A" 0
        + (kastCredits [(1, exampleTradeRound)]
            (ComputeTrades exampleService [(1, exampleTradeRound)]) "A" : Int) :=
  ⟨by decide, by decide,
    (CalculateKAST_credits [(1, exampleTradeRound)]
      (ComputeTrades exampleService [(1, exampleTradeRound)]) exampleMatch "A"
      (by decide) (by decide) (by decide)).1⟩

/-! ## Kill timeline -/

theorem pairwise_lessByTime_iff (l : List KillEvent) :
    l.Pairwise (fun a b => lessByTime b a = false) ↔ SortedByTime l := by
  unfold SortedByTime lessByTime
  constructor
  · intro h
    exact h.imp (fun hab => by simpa using hab)
  · intro h
    exact h.imp (fun hab => by simpa using hab)

theorem sortsBy_stableSort : SortsBy stableSort lessByTime := by
  intro l
  exact ⟨List.perm_insertionSort _ l, List.sorted_insertionSort (notAfter lessByTime) l⟩

theorem sortsBy_tieReversingSort : SortsBy tieReversingSort lessByTime := by
  intro l
  exact ⟨(List.perm_insertionSort _ l.reverse).trans (List.reverse_perm l),
    List.sorted_insertionSort (notAfter lessByTime) l.reverse⟩

theorem mem_BuildKillEvents (sortSlice : SortSlice)
    (kills : List V4KillEventResponse) (names : GoMap String String) (e : Int × List KillEvent)
    (h : e ∈ BuildKillEvents sortSlice kills names) :
    ∃ events, (e.1, events) ∈ groupKillEvents kills names ∧ e.2 = sortSlice lessByTime events := by
  unfold BuildKillEvents at h
  rw [List.mem_map] at h
  obtain ⟨⟨r, events⟩, hmem, he⟩ := h
  subst he
  exact ⟨events, hmem, rfl⟩

/-- C9: every round of the timeline returned by `BuildKillEvents` is sorted
non-decreasing by in-round time, for every payload, given that `sort.Slice` does what
its documentation promises for the comparison by time. -/
theorem BuildKillEvents_sorted (sortSlice : SortSlice)
    (hsort : SortsBy sortSlice lessByTime)
    (kills : List V4KillEventResponse) (stackNamesByPUUID : GoMap String String) :
    ∀ e ∈ BuildKillEvents sortSlice kills stackNamesByPUUID, SortedByTime e.2 := by
  intro e he
  obtain ⟨events, _, h2⟩ := mem_BuildKillEvents sortSlice kills stackNamesByPUUID e he
  rw [h2, ← pairwise_lessByTime_iff]
  exact (hsort events).2

/-- The theorem with insertion sort as `sort.Slice`, on the payload `exampleTiedKills`. -/
theorem BuildKillEvents_sorted_witness :
    SortsBy stableSort lessByTime ∧
    ∀ e ∈ BuildKillEvents stableSort exampleTiedKills [], SortedByTime e.2 :=
  ⟨sortsBy_stableSort,
    BuildKillEvents_sorted stableSort sortsBy_stableSort exampleTiedKills []⟩

theorem getD_foldl_groupKillEvents (kills : List V4KillEventResponse)
    (names : GoMap String String) (m : Timeline) (r : Int) :
    GoMap.getD (kills.foldl
        (fun eventsByRound kill =>
          GoMap.set eventsByRound kill.Round
            (GoMap.getD eventsByRound kill.Round [] ++ [toKillEvent names kill]))
        m) r []
      = GoMap.getD m r [] ++ roundPayload kills names r := by
  induction kills generalizing m with
  | nil => simp [roundPayload]
  | cons kill rest ih =>
    rw [List.foldl_cons, ih, GoMap.getD_set]
    by_cases hr : r = kill.Round
    · subst hr
      simp [roundPayload]
    · have hr' : ¬ kill.Round = r := fun h => hr h.symm
      simp [roundPayload, hr, hr']

theorem getD_groupKillEvents (kills : List V4KillEventResponse) (names : GoMap String String)
    (r : Int) :
    GoMap.getD (groupKillEvents kills names) r [] = roundPayload kills names r := by
  unfold groupKillEvents
  rw [getD_foldl_groupKillEvents]
  simp [GoMap.getD_nil]

theorem get?_map_values {κ ν μ : Type} [DecidableEq κ] (m : GoMap κ ν) (f : ν → μ) (k : κ) :
    GoMap.get? (m.map (fun e => (e.1, f e.2))) k = (GoMap.get? m k).map f := by
  induction m with
  | nil => simp [GoMap.get?]
  | cons e rest ih =>
    obtain ⟨k₀, v₀⟩ := e
    by_cases h : k₀ = k
    · simp [GoMap.get?, h]
    · simp only [List.map_cons, GoMap.get?, h, if_false]
      exact ih

/-- The round `r` of the timeline is `sort.Slice` applied to the payload events of the
round, or empty when the payload has no event of round `r`. -/
theorem getD_BuildKillEvents (sortSlice : SortSlice)
    (kills : List V4KillEventResponse) (names : GoMap String String) (r : Int) :
    GoMap.getD (BuildKillEvents sortSlice kills names) r []
        = sortSlice lessByTime (roundPayload kills names r)
      ∨ (GoMap.getD (BuildKillEvents sortSlice kills names) r [] = []
          ∧ roundPayload kills names r = []) := by
  have hg := getD_groupKillEvents kills names r
  unfold BuildKillEvents
  unfold GoMap.getD at hg ⊢
  rw [get?_map_values]
  cases hget : GoMap.get? (groupKillEvents kills names) r with
  | none =>
    right
    rw [hget] at hg
    exact ⟨rfl, by simpa using hg.symm⟩
  | some events =>
    left
    rw [hget] at hg
    simp only [Option.getD_some] at hg
    simp [hg]

theorem perm_getD_BuildKillEvents (sortSlice : SortSlice)
    (hsort : SortsBy sortSlice lessByTime)
    (kills : List V4KillEventResponse) (names : GoMap String String) (r : Int) :
    (GoMap.getD (BuildKillEvents sortSlice kills names) r []).Perm (roundPayload kills names r) := by
  rcases getD_BuildKillEvents sortSlice kills names r with h | ⟨h1, h2⟩
  · rw [h]; exact (hsort _).1
  · rw [h1, h2]

theorem sorted_getD_BuildKillEvents (sortSlice : SortSlice)
    (hsort : SortsBy sortSlice lessByTime)
    (kills : List V4KillEventResponse) (names : GoMap String String) (r : Int) :
    SortedByTime (GoMap.getD (BuildKillEvents sortSlice kills names) r []) := by
  rcases getD_BuildKillEvents sortSlice kills names r with h | ⟨h1, _⟩
  · rw [h, ← pairwise_lessByTime_iff]; exact (hsort _).2
  · rw [h1]; exact List.Pairwise.nil

/-- C10, as the code has it: with a `sort.Slice` that does what its documentation
promises, each round of the timeline is a rearrangement of the payload events of that
round in which events of different in-round times appear in time order, and its first
event has the least time of the round.  The order among events of equal time is left
to `sort.Slice`. -/
theorem BuildKillEvents_orders_by_time (sortSlice : SortSlice)
    (hsort : SortsBy sortSlice lessByTime)
    (kills : List V4KillEventResponse) (stackNamesByPUUID : GoMap String String) (r : Int) :
    (GoMap.getD (BuildKillEvents sortSlice kills stackNamesByPUUID) r []).Perm
        (roundPayload kills stackNamesByPUUID r) ∧
    (∀ (i j : Nat) (ei ej : KillEvent),
        (GoMap.getD (BuildKillEvents sortSlice kills stackNamesByPUUID) r [])[i]? = some ei →
        (GoMap.getD (BuildKillEvents sortSlice kills stackNamesByPUUID) r [])[j]? = some ej →
        ei.Time < ej.Time → i < j) ∧
    (∀ first : KillEvent,
        (GoMap.getD (BuildKillEvents sortSlice kills stackNamesByPUUID) r []).head? = some first →
        ∀ e ∈ roundPayload kills stackNamesByPUUID r, first.Time ≤ e.Time) := by
  have hperm := perm_getD_BuildKillEvents sortSlice hsort kills stackNamesByPUUID r
  have hsorted := sorted_getD_BuildKillEvents sortSlice hsort kills stackNamesByPUUID r
  generalize GoMap.getD (BuildKillEvents sortSlice kills stackNamesByPUUID) r [] = out at hperm hsorted
  refine ⟨hperm, ?_, ?_⟩
  · intro i j ei ej hi hj hlt
    by_contra hij
    have hji : j ≤ i := Nat.le_of_not_lt hij
    rcases Nat.eq_or_lt_of_le hji with heq | hlt'
    · subst heq
      rw [hi] at hj
      have : ei = ej := Option.some.inj hj
      subst this
      exact lt_irrefl _ hlt
    · have hjlen : j < out.length := (List.getElem?_eq_some_iff.mp hj).1
      have hilen : i < out.length := (List.getElem?_eq_some_iff.mp hi).1
      have hle := List.pairwise_iff_getElem.mp hsorted j i hjlen hilen hlt'
      have e1 : out[j] = ej := (List.getElem?_eq_some_iff.mp hj).2
      have e2 : out[i] = ei := (List.getElem?_eq_some_iff.mp hi).2
      rw [e1, e2] at hle
      omega
  · intro first hfirst e he
    have hmem : e ∈ out := hperm.mem_iff.mpr he
    cases out with
    | nil => simp at hfirst
    | cons a rest =>
      have ha : a = first := by simpa using hfirst
      subst ha
      have hs : (∀ b ∈ rest, a.Time ≤ b.Time) ∧ SortedByTime rest := by
        simpa [SortedByTime] using hsorted
      rcases List.mem_cons.mp hmem with h | h
      · rw [h]
      · exact hs.1 e h

/-- The theorem with insertion sort as `sort.Slice`, on round 1 of `exampleTiedKills`. -/
theorem BuildKillEvents_orders_by_time_witness :
    SortsBy stableSort lessByTime ∧
    (GoMap.getD (BuildKillEvents stableSort exampleTiedKills []) 1 []).Perm
        (roundPayload exampleTiedKills [] 1) :=
  ⟨sortsBy_stableSort,
    (BuildKillEvents_orders_by_time stableSort sortsBy_stableSort
      exampleTiedKills [] 1).1⟩

/-- C10 fails as stated: `sort.Slice` promises no order among equal elements.  With a
sort that meets its contract, the thirteen kills of `exampleTiedKills` come out with
the events of 1000 ms in an order other than the payload's, and the first event of the
round is not the earliest payload event of least time (`v1`). -/
theorem BuildKillEvents_ties_not_in_payload_order :
    SortsBy tieReversingSort lessByTime ∧
    ¬ TiesInPayloadOrder
        (GoMap.getD (BuildKillEvents tieReversingSort exampleTiedKills []) 1 [])
        (roundPayload exampleTiedKills [] 1) ∧
    ((GoMap.getD (BuildKillEvents tieReversingSort exampleTiedKills []) 1 []).head?.map
        (fun ev => ev.VictimPUUID)) = some "v12" := by
  refine ⟨sortsBy_tieReversingSort, ?_, by decide⟩
  intro h
  exact absurd (h 1000) (by decide)

/-! ## Match processing -/

/-- C8 fails on the code: `CalculateKAST` ranges over the rounds of the timeline, and a
round without kill events is not in the timeline.  In `exampleQuietRoundMatch` the
tracked player `A` dies in no round, the match has two rounds, and `KASTRounds[A]` is 1;
in a match of one round and no kill, `KASTRounds[A]` is 0, whatever `sort.Slice` and the
range order do. -/
theorem ProcessMatchDetails_skips_rounds_without_kills :
    (ProcessMatchDetails stableSort RangeOrder.listOrder exampleService
        (ApiMatch.v4 exampleQuietRoundMatch) 1).map
      (fun m => (GoMap.getD m.KASTRounds "A" 0, m.RoundsPlayed, GoMap.keys m.PlayerData))
      = some (1, 2, ["A"]) ∧
    ∀ (sortSlice : SortSlice) (order : RangeOrder),
      (ProcessMatchDetails sortSlice order exampleService (ApiMatch.v4 exampleNoKillMatch) 1).map
        (fun m => (GoMap.getD m.KASTRounds "A" 0, m.RoundsPlayed, GoMap.keys m.PlayerData))
        = some (0, 1, ["A"]) := by
  refine ⟨by decide, ?_⟩
  intro sortSlice order
  rfl

/-! ## Side attribution -/

theorem plantTeam_eq_some_iff (round : V4Round) (team : String) :
    plantTeam round = some team ↔ HasPlant round team := by
  unfold plantTeam HasPlant
  cases hp : round.Plant with
  | none => simp
  | some t =>
    by_cases ht : t = ""
    · subst ht
      simp
      intro h
      exact h.symm
    · simp only [ne_eq, ht, not_false_eq_true, if_true, Option.some.injEq]
      constructor
      · intro h; subst h; exact ⟨rfl, ht⟩
      · intro h; exact h.1

theorem plantTeam_eq_none_iff (round : V4Round) : plantTeam round = none ↔ NoPlant round := by
  unfold NoPlant
  constructor
  · intro h team hp
    rw [← plantTeam_eq_some_iff, h] at hp
    exact absurd hp (by simp)
  · intro h
    cases hp : plantTeam round with
    | none => rfl
    | some team => exact absurd ((plantTeam_eq_some_iff round team).mp hp) (h team)

/-- C14: `InferInitialAttackingTeam` returns the planter's team of the earliest round, in
list order, that has a plant with a non-empty planter team, and it returns the empty
string exactly when no round has such a plant. -/
theorem InferInitialAttackingTeam_earliest_plant (rounds : List V4Round) :
    (∀ (pre post : List V4Round) (round : V4Round) (team : String),
        rounds = pre ++ round :: post → (∀ r ∈ pre, NoPlant r) → HasPlant round team →
        InferInitialAttackingTeam rounds = team) ∧
    (InferInitialAttackingTeam rounds = "" ↔ ∀ r ∈ rounds, NoPlant r) := by
  constructor
  · intro pre post round team hsplit hpre hplant
    subst hsplit
    induction pre with
    | nil =>
      simp only [List.nil_append, InferInitialAttackingTeam,
        (plantTeam_eq_some_iff round team).mpr hplant]
    | cons r pre ih =>
      have hr : plantTeam r = none :=
        (plantTeam_eq_none_iff r).mpr (hpre r (List.mem_cons_self _ _))
      simp only [List.cons_append, InferInitialAttackingTeam, hr]
      exact ih (fun r' hr' => hpre r' (List.mem_cons_of_mem _ hr'))
  · induction rounds with
    | nil => simp [InferInitialAttackingTeam]
    | cons r rest ih =>
      cases hp : plantTeam r with
      | none =>
        simp only [InferInitialAttackingTeam, hp, ih, List.mem_cons, forall_eq_or_imp,
          (plantTeam_eq_none_iff r).mp hp, true_and]
      | some team =>
        have hplant := (plantTeam_eq_some_iff r team).mp hp
        simp only [InferInitialAttackingTeam, hp, List.mem_cons, forall_eq_or_imp]
        constructor
        · intro h
          exact absurd h hplant.2
        · intro h
          exact absurd hplant (h.1 team)

/-- C15: for a round index `idx` and non-empty team ids, `SideByRoundIndex` returns the
first team for the indices 0 to 11 (indeed for every `idx < 12`), the second team for 12
to 23, and from 24 on the first team when `idx - 24` is even and the second when it is
odd: 24 gives the first, 25 the second, alternating every round. -/
theorem SideByRoundIndex_schedule (idx : Int) (firstAttack secondTeam : String)
    (hfirst : firstAttack ≠ "") (hsecond : secondTeam ≠ "") :
    (idx < 12 → SideByRoundIndex idx firstAttack secondTeam = firstAttack) ∧
    (12 ≤ idx → idx < 24 → SideByRoundIndex idx firstAttack secondTeam = secondTeam) ∧
    (24 ≤ idx → (idx - 24) % 2 = 0 →
      SideByRoundIndex idx firstAttack secondTeam = firstAttack) ∧
    (24 ≤ idx → (idx - 24) % 2 = 1 →
      SideByRoundIndex idx firstAttack secondTeam = secondTeam) := by
  have hne : ¬ (firstAttack = "" ∨ secondTeam = "") := by
    rintro (h | h)
    · exact hfirst h
    · exact hsecond h
  have htmod : 24 ≤ idx → Int.tmod (idx - 24) 2 = (idx - 24) % 2 := by
    intro h
    exact Int.tmod_eq_emod (by omega) (by decide)
  refine ⟨?_, ?_, ?_, ?_⟩
  · intro h
    simp only [SideByRoundIndex, if_neg hne, if_pos h]
  · intro h1 h2
    have h3 : ¬ idx < 12 := by omega
    simp only [SideByRoundIndex, if_neg hne, if_neg h3, if_pos h2]
  · intro h1 h2
    have h3 : ¬ idx < 12 := by omega
    have h4 : ¬ idx < 24 := by omega
    simp only [SideByRoundIndex, if_neg hne, if_neg h3, if_neg h4, htmod h1, h2, if_true]
  · intro h1 h2
    have h3 : ¬ idx < 12 := by omega
    have h4 : ¬ idx < 24 := by omega
    have h5 : ¬ ((idx - 24) % 2 = 0) := by omega
    simp only [SideByRoundIndex, if_neg hne, if_neg h3, if_neg h4, htmod h1, if_neg h5]

/-- The theorem at the indices 5, 12, 24 and 25 for the teams Blue and Red. -/
theorem SideByRoundIndex_schedule_witness :
    SideByRoundIndex 5 "Blue" "Red" = "Blue" ∧ SideByRoundIndex 12 "Blue" "Red" = "Red" ∧
    SideByRoundIndex 24 "Blue" "Red" = "Blue" ∧ SideByRoundIndex 25 "Blue" "Red" = "Red" :=
  ⟨(SideByRoundIndex_schedule 5 "Blue" "Red" (by decide) (by decide)).1 (by decide),
   (SideByRoundIndex_schedule 12 "Blue" "Red" (by decide) (by decide)).2.1
      (by decide) (by decide),
   (SideByRoundIndex_schedule 24 "Blue" "Red" (by decide) (by decide)).2.2.1
      (by decide) (by decide),
   (SideByRoundIndex_schedule 25 "Blue" "Red" (by decide) (by decide)).2.2.2
      (by decide) (by decide)⟩

theorem getD_foldl_attacking_of_not_mem (rounds : List V4Round) (n : Nat)
    (m : GoMap Int String) (firstAttack secondTeam : String) (id : Int)
    (hid : id ∉ rounds.map (fun r => r.ID)) :
    GoMap.getD ((rounds.enumFrom n).foldl
        (fun attackingByRound ir =>
          GoMap.set attackingByRound ir.2.ID
            (match plantTeam ir.2 with
              | some team => team
              | none => SideByRoundIndex (ir.1 : Int) firstAttack secondTeam))
        m) id ""
      = GoMap.getD m id "" := by
  induction rounds generalizing n m with
  | nil => rfl
  | cons r rest ih =>
    have h1 : id ≠ r.ID := fun h => hid (by simp [h])
    have h2 : id ∉ rest.map (fun r => r.ID) := fun h => hid (by simp [h])
    rw [List.enumFrom_cons, List.foldl_cons, ih _ _ h2, GoMap.getD_set_ne _ _ _ h1]

theorem getD_foldl_attacking (rounds : List V4Round) (n : Nat)
    (m : GoMap Int String) (firstAttack secondTeam : String)
    (hnd : (rounds.map (fun r => r.ID)).Nodup) (i : Nat) (round : V4Round)
    (hi : rounds[i]? = some round) :
    GoMap.getD ((rounds.enumFrom n).foldl
        (fun attackingByRound ir =>
          GoMap.set attackingByRound ir.2.ID
            (match plantTeam ir.2 with
              | some team => team
              | none => SideByRoundIndex (ir.1 : Int) firstAttack secondTeam))
        m) round.ID ""
      = (match plantTeam round with
          | some team => team
          | none => SideByRoundIndex ((n + i : Nat) : Int) firstAttack secondTeam) := by
  induction rounds generalizing n m i with
  | nil => simp at hi
  | cons r rest ih =>
    have hnd' : r.ID ∉ rest.map (fun r => r.ID) ∧ (rest.map (fun r => r.ID)).Nodup := by
      simpa using hnd
    rw [List.enumFrom_cons, List.foldl_cons]
    cases i with
    | zero =>
      have hr : r = round := by simpa using hi
      subst hr
      rw [getD_foldl_attacking_of_not_mem _ _ _ _ _ _ hnd'.1, GoMap.getD_set_self]
      rfl
    | succ i =>
      have hi' : rest[i]? = some round := by simpa using hi
      rw [ih (n + 1) _ hnd'.2 i hi']
      have : n + 1 + i = n + (i + 1) := by omega
      rw [this]

/-- C16: for a round list with distinct round ids and any two team ids,
`BuildAttackingTeamByRound` maps the id of each round to the planter's team when the
round has a plant with a non-empty planter team, and otherwise to `SideByRoundIndex` at
the position of the round in the list. -/
theorem BuildAttackingTeamByRound_lookup (rounds : List V4Round)
    (firstAttack secondTeam : String) (hnd : (rounds.map (fun r => r.ID)).Nodup)
    (i : Nat) (round : V4Round) (hi : rounds[i]? = some round) :
    (∀ team, HasPlant round team →
      GoMap.getD (BuildAttackingTeamByRound rounds firstAttack secondTeam) round.ID "" = team) ∧
    (NoPlant round →
      GoMap.getD (BuildAttackingTeamByRound rounds firstAttack secondTeam) round.ID ""
        = SideByRoundIndex (i : Int) firstAttack secondTeam) := by
  have h := getD_foldl_attacking rounds 0 [] firstAttack secondTeam hnd i round hi
  rw [Nat.zero_add] at h
  constructor
  · intro team hplant
    rw [(plantTeam_eq_some_iff round team).mpr hplant] at h
    exact h
  · intro hno
    rw [(plantTeam_eq_none_iff round).mpr hno] at h
    exact h

/-- The theorem on `exampleThirteenRounds`: round 0 has the planter's team, round 12 the
team of the index schedule. -/
theorem BuildAttackingTeamByRound_lookup_witness :
    (exampleThirteenRounds.map (fun r => r.ID)).Nodup ∧
    GoMap.getD (BuildAttackingTeamByRound exampleThirteenRounds "Blue" "Red") 0 "" = "Blue" ∧
    GoMap.getD (BuildAttackingTeamByRound exampleThirteenRounds "Blue" "Red") 12 ""
      = SideByRoundIndex 12 "Blue" "Red" :=
  ⟨by decide,
    (BuildAttackingTeamByRound_lookup exampleThirteenRounds "Blue" "Red" (by decide) 0
      (examplePlantRound 0 "Blue") rfl).1 "Blue" ⟨rfl, by decide⟩,
    (BuildAttackingTeamByRound_lookup exampleThirteenRounds "Blue" "Red" (by decide) 12
      (exampleRound 12) rfl).2 (by
        intro team h
        exact Option.noConfusion h.1)⟩

/-! ## Kill timeline: the events of a round -/

theorem GoMap.mem_set {κ ν : Type} [DecidableEq κ] (m : GoMap κ ν) (k : κ) (v : ν)
    (e : κ × ν) (h : e ∈ GoMap.set m k v) : e = (k, v) ∨ e ∈ m := by
  induction m with
  | nil =>
    left
    simpa [GoMap.set] using h
  | cons e₀ rest ih =>
    obtain ⟨k₀, v₀⟩ := e₀
    by_cases hk : k₀ = k
    · simp only [GoMap.set, hk, if_true, List.mem_cons] at h
      rcases h with h | h
      · exact Or.inl h
      · exact Or.inr (List.mem_cons_of_mem _ h)
    · simp only [GoMap.set, hk, if_false, List.mem_cons] at h
      rcases h with h | h
      · exact Or.inr (by rw [h]; exact List.mem_cons_self _ _)
      · rcases ih h with h' | h'
        · exact Or.inl h'
        · exact Or.inr (List.mem_cons_of_mem _ h')

theorem GoMap.mem_of_get? {κ ν : Type} [DecidableEq κ] (m : GoMap κ ν) (k : κ) (v : ν)
    (h : GoMap.get? m k = some v) : (k, v) ∈ m := by
  induction m with
  | nil => simp [GoMap.get?] at h
  | cons e₀ rest ih =>
    obtain ⟨k₀, v₀⟩ := e₀
    by_cases hk : k₀ = k
    · simp only [GoMap.get?, hk, if_true, Option.some.injEq] at h
      rw [hk, h]
      exact List.mem_cons_self _ _
    · simp only [GoMap.get?, hk, if_false] at h
      exact List.mem_cons_of_mem _ (ih h)

/-- Every event that the first loop of `BuildKillEvents` stores under a key was converted
from a raw kill of that round. -/
theorem mem_foldl_groupKillEvents (kills : List V4KillEventResponse)
    (names : GoMap String String) (m : Timeline)
    (hm : ∀ e ∈ m, ∀ ev ∈ e.2, ∃ kill, kill.Round = e.1 ∧ ev = toKillEvent names kill) :
    ∀ e ∈ kills.foldl
        (fun eventsByRound kill =>
          GoMap.set eventsByRound kill.Round
            (GoMap.getD eventsByRound kill.Round [] ++ [toKillEvent names kill]))
        m,
      ∀ ev ∈ e.2, ∃ kill, kill.Round = e.1 ∧ ev = toKillEvent names kill := by
  induction kills generalizing m with
  | nil => exact hm
  | cons kill rest ih =>
    rw [List.foldl_cons]
    apply ih
    intro e he ev hev
    rcases GoMap.mem_set _ _ _ _ he with h | h
    · subst h
      rcases List.mem_append.mp hev with h1 | h1
      · unfold GoMap.getD at h1
        cases hget : GoMap.get? m kill.Round with
        | none => simp [hget] at h1
        | some events =>
          rw [hget] at h1
          exact hm (kill.Round, events) (GoMap.mem_of_get? _ _ _ hget) ev h1
      · have : ev = toKillEvent names kill := by simpa using h1
        exact ⟨kill, rfl, this⟩
    · exact hm e h ev hev

theorem mem_groupKillEvents (kills : List V4KillEventResponse) (names : GoMap String String) :
    ∀ e ∈ groupKillEvents kills names,
      ∀ ev ∈ e.2, ∃ kill, kill.Round = e.1 ∧ ev = toKillEvent names kill :=
  mem_foldl_groupKillEvents kills names [] (by simp)

/-- C11: for every payload and round id `r`, with a `sort.Slice` that does what its
documentation promises, the sequence `BuildKillEvents(kills)[r]` is a rearrangement of
the converted raw events whose `Round` is `r`, so that no event is dropped or duplicated,
whether its players are tracked or not; every event stored under a key has that key as
its `Round`; and the killer and victim names of every stored event are the names found
under its PUUIDs, the empty string when there is none. -/
theorem BuildKillEvents_round_events (sortSlice : SortSlice)
    (hsort : SortsBy sortSlice lessByTime)
    (kills : List V4KillEventResponse) (stackNamesByPUUID : GoMap String String) (r : Int) :
    (GoMap.getD (BuildKillEvents sortSlice kills stackNamesByPUUID) r []).Perm
        ((kills.filter (fun kill => decide (kill.Round = r))).map
          (toKillEvent stackNamesByPUUID)) ∧
    (∀ e ∈ BuildKillEvents sortSlice kills stackNamesByPUUID, ∀ ev ∈ e.2,
        ev.Round = e.1 ∧
        ev.KillerName = GoMap.getD stackNamesByPUUID ev.KillerPUUID "" ∧
        ev.VictimName = GoMap.getD stackNamesByPUUID ev.VictimPUUID "") := by
  refine ⟨perm_getD_BuildKillEvents sortSlice hsort kills stackNamesByPUUID r, ?_⟩
  intro e he ev hev
  obtain ⟨events, hmem, h2⟩ := mem_BuildKillEvents sortSlice kills stackNamesByPUUID e he
  rw [h2] at hev
  have hev' : ev ∈ events := (hsort events).1.mem_iff.mp hev
  obtain ⟨kill, hround, hkill⟩ :=
    mem_groupKillEvents kills stackNamesByPUUID (e.1, events) hmem ev hev'
  subst hkill
  exact ⟨hround, rfl, rfl⟩

/-- The theorem with insertion sort as `sort.Slice`, on round 1 of `exampleTiedKills`, whose
thirteen events all have untracked players. -/
theorem BuildKillEvents_round_events_witness :
    SortsBy stableSort lessByTime ∧
    (GoMap.getD (BuildKillEvents stableSort exampleTiedKills []) 1 []).length = 13 ∧
    (GoMap.getD (BuildKillEvents stableSort exampleTiedKills []) 1 []).Perm
        ((exampleTiedKills.filter (fun kill => decide (kill.Round = 1))).map (toKillEvent [])) :=
  ⟨sortsBy_stableSort, by decide,
    (BuildKillEvents_round_events stableSort sortsBy_stableSort exampleTiedKills [] 1).1⟩

/-! ## Side attribution: kills -/

theorem foldl_preserves {α β γ : Type} (proj : α → γ) (f : α → β → α)
    (h : ∀ a b, proj (f a b) = proj a) (l : List β) (a : α) :
    proj (l.foldl f a) = proj a := by
  induction l generalizing a with
  | nil => rfl
  | cons b rest ih => rw [List.foldl_cons, ih, h]

theorem sideDamage_kill_maps (attackingTeam : String) (names : GoMap String String)
    (m : MatchData) (stat : V4RoundStatsEntry) :
    (sideDamage attackingTeam names m stat).AttackKills = m.AttackKills ∧
    (sideDamage attackingTeam names m stat).DefenseKills = m.DefenseKills ∧
    (sideDamage attackingTeam names m stat).AttackDeaths = m.AttackDeaths ∧
    (sideDamage attackingTeam names m stat).DefenseDeaths = m.DefenseDeaths := by
  unfold sideDamage
  simp only
  split
  · exact ⟨rfl, rfl, rfl, rfl⟩
  · split <;> exact ⟨rfl, rfl, rfl, rfl⟩

theorem sideKill_damage_maps (attackingByRound : GoMap Int String)
    (names : GoMap String String) (m : MatchData) (kill : V4KillEventResponse) :
    (sideKill attackingByRound names m kill).AttackDamage = m.AttackDamage ∧
    (sideKill attackingByRound names m kill).DefenseDamage = m.DefenseDamage ∧
    (sideKill attackingByRound names m kill).AttackRounds = m.AttackRounds ∧
    (sideKill attackingByRound names m kill).DefenseRounds = m.DefenseRounds := by
  unfold sideKill
  simp only
  split
  · exact ⟨rfl, rfl, rfl, rfl⟩
  · split <;> exact ⟨rfl, rfl, rfl, rfl⟩

/-- The record after the two loops of `CalculateSideStats`, when both teams are found. -/
theorem CalculateSideStats_of_sides (order : RangeOrder) (rounds : List V4Round)
    (kills : List V4KillEventResponse) (mtch : MatchData) (names : GoMap String String)
    (hfirst : InferInitialAttackingTeam rounds ≠ "")
    (hsecond : PickSecondTeam order mtch.PlayerTeams ≠ "") :
    CalculateSideStats order rounds kills mtch names
      = rounds.foldl
          (fun m round =>
            round.Stats.foldl
              (sideDamage
                (GoMap.getD (BuildAttackingTeamByRound rounds (InferInitialAttackingTeam rounds)
                  (PickSecondTeam order mtch.PlayerTeams)) round.ID "") names) m)
          (kills.foldl
            (sideKill (BuildAttackingTeamByRound rounds (InferInitialAttackingTeam rounds)
              (PickSecondTeam order mtch.PlayerTeams)) names) mtch) := by
  unfold CalculateSideStats
  simp only [if_neg hfirst, if_neg hsecond]

theorem sideKill_kill_total (attackingByRound : GoMap Int String)
    (names : GoMap String String) (m : MatchData) (kill : V4KillEventResponse) :
    totalCredits (sideKill attackingByRound names m kill).AttackKills
        + totalCredits (sideKill attackingByRound names m kill).DefenseKills
      = totalCredits m.AttackKills + totalCredits m.DefenseKills
        + (if GoMap.getD names kill.Killer.PUUID "" ≠ ""
              ∧ GoMap.getD names kill.Victim.PUUID "" ≠ "" then 1 else 0) := by
  unfold sideKill
  simp only
  by_cases hskip : GoMap.getD names kill.Killer.PUUID "" = ""
      ∨ GoMap.getD names kill.Victim.PUUID "" = ""
  · have hno : ¬ (GoMap.getD names kill.Killer.PUUID "" ≠ ""
        ∧ GoMap.getD names kill.Victim.PUUID "" ≠ "") := by
      rintro ⟨h1, h2⟩
      rcases hskip with h | h
      · exact h1 h
      · exact h2 h
    rw [if_pos hskip, if_neg hno]
    ring
  · have hyes : GoMap.getD names kill.Killer.PUUID "" ≠ ""
        ∧ GoMap.getD names kill.Victim.PUUID "" ≠ "" :=
      ⟨fun h => hskip (Or.inl h), fun h => hskip (Or.inr h)⟩
    rw [if_neg hskip, if_pos hyes]
    split
    · simp only [totalCredits_incr]
      ring
    · simp only [totalCredits_incr]
      ring

theorem foldl_sideKill_kill_total (attackingByRound : GoMap Int String)
    (names : GoMap String String) (kills : List V4KillEventResponse) (m : MatchData) :
    totalCredits (kills.foldl (sideKill attackingByRound names) m).AttackKills
        + totalCredits (kills.foldl (sideKill attackingByRound names) m).DefenseKills
      = totalCredits m.AttackKills + totalCredits m.DefenseKills
        + (bothTrackedKills names kills : Int) := by
  induction kills generalizing m with
  | nil => simp [bothTrackedKills]
  | cons kill rest ih =>
    rw [List.foldl_cons, ih, sideKill_kill_total]
    simp only [bothTrackedKills, List.countP_cons]
    by_cases h : GoMap.getD names kill.Killer.PUUID "" ≠ ""
        ∧ GoMap.getD names kill.Victim.PUUID "" ≠ ""
    · simp only [if_pos h, decide_eq_true h, if_true]
      push_cast
      ring
    · simp only [if_neg h, decide_eq_false h]
      simp

/-- C12, as the code has it: when side attribution runs (a round has a plant and a second
team is found), the sum over all players of `AttackKills` plus the sum of `DefenseKills`
grows by the number of kill events whose killer and victim are both tracked players;
each such kill is credited to exactly one of the two maps, and a kill with an untracked
victim is credited to neither. -/
theorem CalculateSideStats_kill_total (order : RangeOrder) (rounds : List V4Round)
    (kills : List V4KillEventResponse) (mtch : MatchData)
    (stackNamesByPUUID : GoMap String String)
    (hfirst : InferInitialAttackingTeam rounds ≠ "")
    (hsecond : PickSecondTeam order mtch.PlayerTeams ≠ "") :
    totalCredits (CalculateSideStats order rounds kills mtch stackNamesByPUUID).AttackKills
        + totalCredits (CalculateSideStats order rounds kills mtch stackNamesByPUUID).DefenseKills
      = totalCredits mtch.AttackKills + totalCredits mtch.DefenseKills
        + (bothTrackedKills stackNamesByPUUID kills : Int) := by
  rw [CalculateSideStats_of_sides order rounds kills mtch stackNamesByPUUID hfirst hsecond]
  have hAK := foldl_preserves (fun m : MatchData => m.AttackKills)
    (fun m (round : V4Round) =>
      round.Stats.foldl
        (sideDamage
          (GoMap.getD (BuildAttackingTeamByRound rounds (InferInitialAttackingTeam rounds)
            (PickSecondTeam order mtch.PlayerTeams)) round.ID "") stackNamesByPUUID) m)
    (fun m round => foldl_preserves (fun m : MatchData => m.AttackKills) _
      (fun m stat => (sideDamage_kill_maps _ _ m stat).1) round.Stats m)
  have hDK := foldl_preserves (fun m : MatchData => m.DefenseKills)
    (fun m (round : V4Round) =>
      round.Stats.foldl
        (sideDamage
          (GoMap.getD (BuildAttackingTeamByRound rounds (InferInitialAttackingTeam rounds)
            (PickSecondTeam order mtch.PlayerTeams)) round.ID "") stackNamesByPUUID) m)
    (fun m round => foldl_preserves (fun m : MatchData => m.DefenseKills) _
      (fun m stat => (sideDamage_kill_maps _ _ m stat).2.1) round.Stats m)
  simp only at hAK hDK
  rw [hAK, hDK]
  exact foldl_sideKill_kill_total _ _ kills mtch

/-- The theorem on `exampleSideMatch`: of its two kills, one has both players tracked. -/
theorem CalculateSideStats_kill_total_witness :
    InferInitialAttackingTeam exampleSideMatch.Rounds ≠ "" ∧
    PickSecondTeam RangeOrder.listOrder exampleSideRecord.PlayerTeams ≠ "" ∧
    totalCredits (CalculateSideStats RangeOrder.listOrder exampleSideMatch.Rounds
          exampleSideMatch.Kills exampleSideRecord exampleSideNames).AttackKills
        + totalCredits (CalculateSideStats RangeOrder.listOrder exampleSideMatch.Rounds
          exampleSideMatch.Kills exampleSideRecord exampleSideNames).DefenseKills
      = totalCredits exampleSideRecord.AttackKills + totalCredits exampleSideRecord.DefenseKills
        + (bothTrackedKills exampleSideNames exampleSideMatch.Kills : Int) :=
  ⟨by decide, by decide,
    CalculateSideStats_kill_total RangeOrder.listOrder exampleSideMatch.Rounds
      exampleSideMatch.Kills exampleSideRecord exampleSideNames (by decide) (by decide)⟩

/-- C12 fails as stated: in `exampleSideMatch` side attribution runs (Blue plants, the
tracked players are on two teams, every damage entry of `A` is credited to a side) and
two kills have a tracked killer, but the kill of the untracked player by `A` is credited
to no side map: the attack and defense kills of the record add up to 1. -/
theorem ProcessMatchDetails_untracked_victim_not_credited :
    InferInitialAttackingTeam exampleSideMatch.Rounds ≠ "" ∧
    (ProcessMatchDetails stableSort RangeOrder.listOrder exampleService
        (ApiMatch.v4 exampleSideMatch) 2).map
      (fun m => PickSecondTeam RangeOrder.listOrder m.PlayerTeams) = some "Blue" ∧
    (ProcessMatchDetails stableSort RangeOrder.listOrder exampleService
        (ApiMatch.v4 exampleSideMatch) 2).map
      (fun m => GoMap.getD m.AttackRounds "A" 0 + GoMap.getD m.DefenseRounds "A" 0) = some 2 ∧
    trackedKillerKills exampleSideNames exampleSideMatch.Kills = 2 ∧
    (ProcessMatchDetails stableSort RangeOrder.listOrder exampleService
        (ApiMatch.v4 exampleSideMatch) 2).map
      (fun m => totalCredits m.AttackKills + totalCredits m.DefenseKills) = some 1 ∧
    (ProcessMatchDetails stableSort RangeOrder.listOrder exampleService
        (ApiMatch.v4 exampleSideMatch) 2).map
      (fun m => GoMap.getD m.AttackKills "A" 0 + GoMap.getD m.DefenseKills "A" 0) = some 0 := by
  decide

/-! ## Side attribution: damage -/

theorem sideCounters_sideDamage (attackingTeam : String) (names : GoMap String String)
    (m : MatchData) (stat : V4RoundStatsEntry) (p : String) (hp : p ≠ "") :
    sideCounters (sideDamage attackingTeam names m stat) p
      = if GoMap.getD names stat.Player.PUUID "" = p then
          creditEntry (sideCounters m p)
            (decide (stat.Player.Team = attackingTeam), stat.Stats.Damage)
        else sideCounters m p := by
  unfold sideDamage
  simp only
  by_cases hn : GoMap.getD names stat.Player.PUUID "" = ""
  · have hne : ¬ GoMap.getD names stat.Player.PUUID "" = p := fun h => hp (h ▸ hn)
    rw [if_pos hn, if_neg hne]
  · rw [if_neg hn]
    by_cases hq : GoMap.getD names stat.Player.PUUID "" = p
    · rw [if_pos hq]
      by_cases ht : stat.Player.Team = attackingTeam
      · simp [sideCounters, creditEntry, ht, hq, GoMap.getD_set_self, GoMap.getD_incr]
      · simp [sideCounters, creditEntry, ht, hq, GoMap.getD_set_self, GoMap.getD_incr]
    · rw [if_neg hq]
      have hq' : p ≠ GoMap.getD names stat.Player.PUUID "" := fun h => hq h.symm
      by_cases ht : stat.Player.Team = attackingTeam
      · simp [sideCounters, ht, GoMap.getD_set_ne _ _ _ hq', GoMap.getD_incr, hq']
      · simp [sideCounters, ht, GoMap.getD_set_ne _ _ _ hq', GoMap.getD_incr, hq']

theorem sideCounters_foldl_sideDamage (attackingTeam : String) (names : GoMap String String)
    (stats : List V4RoundStatsEntry) (m : MatchData) (p : String) (hp : p ≠ "") :
    sideCounters (stats.foldl (sideDamage attackingTeam names) m) p
      = ((stats.filter (fun stat => decide (GoMap.getD names stat.Player.PUUID "" = p))).map
          (fun stat => (decide (stat.Player.Team = attackingTeam), stat.Stats.Damage))).foldl
          creditEntry (sideCounters m p) := by
  induction stats generalizing m with
  | nil => rfl
  | cons stat rest ih =>
    rw [List.foldl_cons, ih, sideCounters_sideDamage _ _ _ _ _ hp]
    by_cases hq : GoMap.getD names stat.Player.PUUID "" = p
    · simp [hq]
    · simp [hq]

theorem sideCounters_foldl_rounds (attackingByRound : GoMap Int String)
    (names : GoMap String String) (rounds : List V4Round) (m : MatchData) (p : String)
    (hp : p ≠ "") :
    sideCounters (rounds.foldl
        (fun m round =>
          round.Stats.foldl (sideDamage (GoMap.getD attackingByRound round.ID "") names) m) m) p
      = (damageEntries attackingByRound names rounds p).foldl creditEntry (sideCounters m p) := by
  induction rounds generalizing m with
  | nil => rfl
  | cons round rest ih =>
    rw [List.foldl_cons, ih, sideCounters_foldl_sideDamage _ _ _ _ _ hp]
    simp [damageEntries, List.foldl_append]

theorem goAdd_eq_wrap64 (a b : Int) : goAdd a b = wrap64 (a + b) := rfl

theorem wrap64_of_isGoInt {x : Int} (h : IsGoInt x) : wrap64 x = x := by
  unfold wrap64
  unfold IsGoInt at h
  omega

theorem wrap64_wrap64_add (x y : Int) : wrap64 (wrap64 x + y) = wrap64 (x + y) := by
  unfold wrap64
  omega

theorem wrap64_add_wrap64 (x y : Int) : wrap64 (wrap64 x + wrap64 y) = wrap64 (x + y) := by
  unfold wrap64
  omega

theorem foldl_goAdd_wrap64 (l : List Int) (x : Int) :
    l.foldl goAdd (wrap64 x) = wrap64 (x + l.sum) := by
  induction l generalizing x with
  | nil => simp
  | cons a rest ih =>
    rw [List.foldl_cons, goAdd_eq_wrap64, wrap64_wrap64_add, ih, List.sum_cons, add_assoc]

theorem goSum_eq_wrap64 (l : List Int) : goSum l = wrap64 l.sum := by
  have h := foldl_goAdd_wrap64 l 0
  have h0 : wrap64 0 = 0 := by decide
  rw [h0, zero_add] at h
  exact h

theorem sum_attack_add_sum_defense (entries : List (Bool × Int)) :
    (attackDamages entries).sum + (defenseDamages entries).sum
      = (entries.map (fun e => e.2)).sum := by
  induction entries with
  | nil => rfl
  | cons e rest ih =>
    obtain ⟨b, d⟩ := e
    cases b
    · simp only [attackDamages, defenseDamages, List.filter_cons, Bool.not_false, if_true,
        List.map_cons, List.sum_cons] at ih ⊢
      simp only [Bool.false_eq_true, if_false]
      omega
    · simp only [attackDamages, defenseDamages, List.filter_cons, Bool.not_true, if_true,
        List.map_cons, List.sum_cons] at ih ⊢
      simp only [Bool.false_eq_true, if_false]
      omega

theorem length_attack_add_length_defense (entries : List (Bool × Int)) :
    ((attackDamages entries).length : Int) + ((defenseDamages entries).length : Int)
      = (entries.length : Int) := by
  induction entries with
  | nil => rfl
  | cons e rest ih =>
    obtain ⟨b, d⟩ := e
    cases b
    · simp only [attackDamages, defenseDamages, List.filter_cons, Bool.not_false, if_true,
        List.map_cons, List.length_cons, List.length_map] at ih ⊢
      simp only [Bool.false_eq_true, if_false]
      push_cast
      omega
    · simp only [attackDamages, defenseDamages, List.filter_cons, Bool.not_true, if_true,
        List.map_cons, List.length_cons, List.length_map] at ih ⊢
      simp only [Bool.false_eq_true, if_false]
      push_cast
      omega

theorem foldl_creditEntry (entries : List (Bool × Int)) (c : SideCounters) :
    entries.foldl creditEntry c
      = { attackDamage := (attackDamages entries).foldl goAdd c.attackDamage
          defenseDamage := (defenseDamages entries).foldl goAdd c.defenseDamage
          attackRounds := c.attackRounds + ((attackDamages entries).length : Int)
          defenseRounds := c.defenseRounds + ((defenseDamages entries).length : Int) } := by
  induction entries generalizing c with
  | nil => simp [attackDamages, defenseDamages]
  | cons e rest ih =>
    obtain ⟨b, d⟩ := e
    rw [List.foldl_cons, ih]
    cases b
    · simp [creditEntry, attackDamages, defenseDamages]
      omega
    · simp [creditEntry, attackDamages, defenseDamages]
      omega

theorem sum_nonneg_of_forall (l : List Int) (h : ∀ x ∈ l, 0 ≤ x) : 0 ≤ l.sum := by
  induction l with
  | nil => simp
  | cons a rest ih =>
    rw [List.sum_cons]
    have h1 := h a (List.mem_cons_self _ _)
    have h2 := ih (fun x hx => h x (List.mem_cons_of_mem _ hx))
    omega

theorem sideCounters_foldl_sideKill (attackingByRound : GoMap Int String)
    (names : GoMap String String) (kills : List V4KillEventResponse) (m : MatchData)
    (p : String) :
    sideCounters (kills.foldl (sideKill attackingByRound names) m) p = sideCounters m p := by
  apply foldl_preserves (fun m : MatchData => sideCounters m p)
  intro a kill
  obtain ⟨h1, h2, h3, h4⟩ := sideKill_damage_maps attackingByRound names a kill
  simp only [sideCounters, h1, h2, h3, h4]

theorem sideCounters_CalculateSideStats (order : RangeOrder) (rounds : List V4Round)
    (kills : List V4KillEventResponse) (mtch : MatchData) (names : GoMap String String)
    (p : String) (hfirst : InferInitialAttackingTeam rounds ≠ "")
    (hsecond : PickSecondTeam order mtch.PlayerTeams ≠ "") (hp : p ≠ "") :
    sideCounters (CalculateSideStats order rounds kills (withEmptyDamage mtch) names) p
      = { attackDamage :=
            goSum (attackDamages (damageEntries (attackingTeams order rounds mtch) names rounds p))
          defenseDamage :=
            goSum (defenseDamages (damageEntries (attackingTeams order rounds mtch) names rounds p))
          attackRounds :=
            ((attackDamages
              (damageEntries (attackingTeams order rounds mtch) names rounds p)).length : Int)
          defenseRounds :=
            ((defenseDamages
              (damageEntries (attackingTeams order rounds mtch) names rounds p)).length : Int) } := by
  have hsecond' : PickSecondTeam order (withEmptyDamage mtch).PlayerTeams ≠ "" := hsecond
  rw [CalculateSideStats_of_sides order rounds kills (withEmptyDamage mtch) names hfirst hsecond']
  have hteams : BuildAttackingTeamByRound rounds (InferInitialAttackingTeam rounds)
      (PickSecondTeam order (withEmptyDamage mtch).PlayerTeams)
      = attackingTeams order rounds mtch := rfl
  rw [hteams, sideCounters_foldl_rounds _ _ _ _ _ hp, sideCounters_foldl_sideKill,
    foldl_creditEntry]
  simp [sideCounters, withEmptyDamage, GoMap.getD_nil, goSum]

/-- C18: when side attribution runs, every per-round damage entry of a tracked player `p`
is credited to exactly one side, the attack side exactly when the entry's team is the
attacking team of its round.  From empty side maps, `AttackDamage[p]` and
`DefenseDamage[p]` are the sums of the damage of the attack and of the defense entries
of `p`, `AttackRounds[p]` and `DefenseRounds[p]` their numbers; so
`AttackDamage[p] + DefenseDamage[p]` is the sum of the damage of all entries of `p` and
`AttackRounds[p] + DefenseRounds[p]` their number.  The sums of damage are those of the
program, in Go's `int`; the last part states the equality of integers for damage that
is not negative and adds up to less than `2 ^ 63`. -/
theorem CalculateSideStats_damage_split (order : RangeOrder) (rounds : List V4Round)
    (kills : List V4KillEventResponse) (mtch : MatchData)
    (stackNamesByPUUID : GoMap String String) (p : String)
    (hfirst : InferInitialAttackingTeam rounds ≠ "")
    (hsecond : PickSecondTeam order mtch.PlayerTeams ≠ "") (hp : p ≠ "") :
    sideCounters (CalculateSideStats order rounds kills (withEmptyDamage mtch) stackNamesByPUUID) p
      = { attackDamage := goSum (attackDamages
            (damageEntries (attackingTeams order rounds mtch) stackNamesByPUUID rounds p))
          defenseDamage := goSum (defenseDamages
            (damageEntries (attackingTeams order rounds mtch) stackNamesByPUUID rounds p))
          attackRounds := ((attackDamages
            (damageEntries (attackingTeams order rounds mtch) stackNamesByPUUID rounds p)).length
              : Int)
          defenseRounds := ((defenseDamages
            (damageEntries (attackingTeams order rounds mtch) stackNamesByPUUID rounds p)).length
              : Int) } ∧
    goAdd
        (GoMap.getD (CalculateSideStats order rounds kills (withEmptyDamage mtch)
          stackNamesByPUUID).AttackDamage p 0)
        (GoMap.getD (CalculateSideStats order rounds kills (withEmptyDamage mtch)
          stackNamesByPUUID).DefenseDamage p 0)
      = goSum ((damageEntries (attackingTeams order rounds mtch) stackNamesByPUUID rounds p).map
          (fun e => e.2)) ∧
    GoMap.getD (CalculateSideStats order rounds kills (withEmptyDamage mtch)
          stackNamesByPUUID).AttackRounds p 0
        + GoMap.getD (CalculateSideStats order rounds kills (withEmptyDamage mtch)
          stackNamesByPUUID).DefenseRounds p 0
      = ((damageEntries (attackingTeams order rounds mtch) stackNamesByPUUID rounds p).length
          : Int) ∧
    ((∀ e ∈ damageEntries (attackingTeams order rounds mtch) stackNamesByPUUID rounds p,
          0 ≤ e.2) →
      ((damageEntries (attackingTeams order rounds mtch) stackNamesByPUUID rounds p).map
          (fun e => e.2)).sum < 2 ^ 63 →
      GoMap.getD (CalculateSideStats order rounds kills (withEmptyDamage mtch)
            stackNamesByPUUID).AttackDamage p 0
          + GoMap.getD (CalculateSideStats order rounds kills (withEmptyDamage mtch)
            stackNamesByPUUID).DefenseDamage p 0
        = ((damageEntries (attackingTeams order rounds mtch) stackNamesByPUUID rounds p).map
            (fun e => e.2)).sum) := by
  have hc := sideCounters_CalculateSideStats order rounds kills mtch stackNamesByPUUID p
    hfirst hsecond hp
  generalize CalculateSideStats order rounds kills (withEmptyDamage mtch) stackNamesByPUUID
    = res at hc ⊢
  generalize damageEntries (attackingTeams order rounds mtch) stackNamesByPUUID rounds p
    = entries at hc ⊢
  have hAD : GoMap.getD res.AttackDamage p 0 = goSum (attackDamages entries) :=
    congrArg SideCounters.attackDamage hc
  have hDD : GoMap.getD res.DefenseDamage p 0 = goSum (defenseDamages entries) :=
    congrArg SideCounters.defenseDamage hc
  have hAR : GoMap.getD res.AttackRounds p 0 = ((attackDamages entries).length : Int) :=
    congrArg SideCounters.attackRounds hc
  have hDR : GoMap.getD res.DefenseRounds p 0 = ((defenseDamages entries).length : Int) :=
    congrArg SideCounters.defenseRounds hc
  refine ⟨hc, ?_, ?_, ?_⟩
  · rw [hAD, hDD, goSum_eq_wrap64, goSum_eq_wrap64, goSum_eq_wrap64, goAdd_eq_wrap64,
      wrap64_add_wrap64, sum_attack_add_sum_defense]
  · rw [hAR, hDR, length_attack_add_length_defense]
  · intro hnonneg hfit
    have hsplit := sum_attack_add_sum_defense entries
    have hA : 0 ≤ (attackDamages entries).sum := by
      apply sum_nonneg_of_forall
      intro x hx
      simp only [attackDamages, List.mem_map, List.mem_filter] at hx
      obtain ⟨e, ⟨he, _⟩, rfl⟩ := hx
      exact hnonneg e he
    have hD : 0 ≤ (defenseDamages entries).sum := by
      apply sum_nonneg_of_forall
      intro x hx
      simp only [defenseDamages, List.mem_map, List.mem_filter] at hx
      obtain ⟨e, ⟨he, _⟩, rfl⟩ := hx
      exact hnonneg e he
    have hAfit : IsGoInt (attackDamages entries).sum := by
      unfold IsGoInt; omega
    have hDfit : IsGoInt (defenseDamages entries).sum := by
      unfold IsGoInt; omega
    rw [hAD, hDD, goSum_eq_wrap64, goSum_eq_wrap64, wrap64_of_isGoInt hAfit,
      wrap64_of_isGoInt hDfit, hsplit]

/-- The theorem for the player `B` of `exampleSideMatch`: two entries, 40 and 150. -/
theorem CalculateSideStats_damage_split_witness :
    InferInitialAttackingTeam exampleSideMatch.Rounds ≠ "" ∧
    PickSecondTeam RangeOrder.listOrder exampleSideRecord.PlayerTeams ≠ "" ∧
    GoMap.getD (CalculateSideStats RangeOrder.listOrder exampleSideMatch.Rounds
          exampleSideMatch.Kills (withEmptyDamage exampleSideRecord)
          exampleSideNames).AttackRounds "B" 0
        + GoMap.getD (CalculateSideStats RangeOrder.listOrder exampleSideMatch.Rounds
          exampleSideMatch.Kills (withEmptyDamage exampleSideRecord)
          exampleSideNames).DefenseRounds "B" 0
      = 2 :=
  ⟨by decide, by decide,
    (CalculateSideStats_damage_split RangeOrder.listOrder exampleSideMatch.Rounds
      exampleSideMatch.Kills exampleSideRecord exampleSideNames "B"
      (by decide) (by decide) (by decide)).2.2.1.trans (by decide)⟩

/-! ## Match processing: the frame of side attribution -/

/-- `ProcessMatchDetails` on a payload of the expected type: the rejection test, then
the record before sides handed to `CalculateSideStats`. -/
theorem ProcessMatchDetails_v4 (sortSlice : SortSlice) (order : RangeOrder)
    (svc : AnalyticsService) (fullMatch : V4MatchResponse) (minStackPlayers : Int) :
    ProcessMatchDetails sortSlice order svc (ApiMatch.v4 fullMatch) minStackPlayers
      = if ((GetStackPlayers svc fullMatch.Players).length : Int) < minStackPlayers then none
        else some (CalculateSideStats order fullMatch.Rounds fullMatch.Kills
          (recordBeforeSides sortSlice svc fullMatch)
          (BuildStackNamesByPUUID svc fullMatch.Players)) := rfl

theorem clearSide_sideKill (attackingByRound : GoMap Int String) (names : GoMap String String)
    (m : MatchData) (kill : V4KillEventResponse) :
    clearSide (sideKill attackingByRound names m kill) = clearSide m := by
  unfold sideKill
  simp only
  split
  · rfl
  · split <;> rfl

theorem clearSide_sideDamage (attackingTeam : String) (names : GoMap String String)
    (m : MatchData) (stat : V4RoundStatsEntry) :
    clearSide (sideDamage attackingTeam names m stat) = clearSide m := by
  unfold sideDamage
  simp only
  split
  · rfl
  · split <;> rfl

/-- `CalculateSideStats` changes nothing but the eight side-split maps. -/
theorem clearSide_CalculateSideStats (order : RangeOrder) (rounds : List V4Round)
    (kills : List V4KillEventResponse) (mtch : MatchData) (names : GoMap String String) :
    clearSide (CalculateSideStats order rounds kills mtch names) = clearSide mtch := by
  unfold CalculateSideStats
  simp only
  split
  · rfl
  · split
    · rfl
    · rw [foldl_preserves clearSide _
        (fun m (round : V4Round) => foldl_preserves clearSide _
          (fun m stat => clearSide_sideDamage _ names m stat) round.Stats m)]
      exact foldl_preserves clearSide _ (fun m kill => clearSide_sideKill _ names m kill) kills mtch

theorem sideMaps_firstBloodStep (m : MatchData) (e : Int × List KillEvent) :
    sideMaps (firstBloodStep m e) = sideMaps m := by
  unfold firstBloodStep
  split
  · rfl
  · simp only
    split <;> split <;> rfl

/-- The record before sides has its eight side-split maps empty. -/
theorem sideMaps_recordBeforeSides (sortSlice : SortSlice) (svc : AnalyticsService)
    (fullMatch : V4MatchResponse) :
    sideMaps (recordBeforeSides sortSlice svc fullMatch) = ([], [], [], [], [], [], [], []) := by
  unfold recordBeforeSides
  simp only
  have hKAST : ∀ (tl : Timeline) (trades : Trades) (m : MatchData),
      sideMaps (CalculateKAST tl trades m) = sideMaps m := fun _ _ _ => rfl
  rw [hKAST]
  unfold CalculateFirstKillsAndDeaths
  rw [foldl_preserves sideMaps firstBloodStep sideMaps_firstBloodStep]
  simp only [sideMaps]
  have hplayers := foldl_preserves sideMaps
    (fun (m : MatchData) (player : V4MatchPlayer) =>
      if GetPlayerName svc player.Name player.Tag = "" then m
      else
        { m with
          PlayerData := m.PlayerData.set (GetPlayerName svc player.Name player.Tag)
            (playerMatchStats player)
          PlayerTeams := m.PlayerTeams.set (GetPlayerName svc player.Name player.Tag)
            player.TeamID })
    (fun m player => by
      simp only
      split <;> rfl)
    fullMatch.Players
  simp only [sideMaps] at hplayers
  rw [hplayers]

theorem clearSide_eq_self_of_sideMaps (m : MatchData)
    (h : sideMaps m = ([], [], [], [], [], [], [], [])) : clearSide m = m := by
  cases m
  simp only [sideMaps, Prod.mk.injEq] at h
  obtain ⟨h1, h2, h3, h4, h5, h6, h7, h8⟩ := h
  simp only [clearSide, h1, h2, h3, h4, h5, h6, h7, h8]

/-- The record before sides depends on the round list through its length only. -/
theorem recordBeforeSides_rounds (sortSlice : SortSlice) (svc : AnalyticsService)
    (fullMatch : V4MatchResponse) (rounds' : List V4Round)
    (hlen : rounds'.length = fullMatch.Rounds.length) :
    recordBeforeSides sortSlice svc { fullMatch with Rounds := rounds' }
      = recordBeforeSides sortSlice svc fullMatch := by
  unfold recordBeforeSides CalculateRoundsPlayed
  simp only [hlen]

theorem InferInitialAttackingTeam_of_noPlant (rounds : List V4Round)
    (h : ∀ r ∈ rounds, NoPlant r) : InferInitialAttackingTeam rounds = "" := by
  induction rounds with
  | nil => rfl
  | cons r rest ih =>
    have hr := (plantTeam_eq_none_iff r).mpr (h r (List.mem_cons_self _ _))
    simp only [InferInitialAttackingTeam, hr]
    exact ih (fun r' hr' => h r' (List.mem_cons_of_mem _ hr'))

/-- C13: for a match in which no round has a plant with a non-empty planter team, the
record of `ProcessMatchDetails` has its eight side-split maps empty, and it is the
record of the same match with plants present (rounds that differ in their plants only,
whatever the range order) with those eight maps emptied: every other field is the same. -/
theorem ProcessMatchDetails_without_plants (sortSlice : SortSlice) (order order' : RangeOrder)
    (svc : AnalyticsService) (fullMatch : V4MatchResponse) (rounds' : List V4Round)
    (minStackPlayers : Int)
    (hno : ∀ r ∈ fullMatch.Rounds, NoPlant r)
    (hsame : rounds'.map stripPlant = fullMatch.Rounds.map stripPlant) :
    (∀ m, ProcessMatchDetails sortSlice order svc (ApiMatch.v4 fullMatch) minStackPlayers = some m →
        sideMaps m = ([], [], [], [], [], [], [], [])) ∧
    ProcessMatchDetails sortSlice order svc (ApiMatch.v4 fullMatch) minStackPlayers
      = (ProcessMatchDetails sortSlice order' svc
          (ApiMatch.v4 { fullMatch with Rounds := rounds' }) minStackPlayers).map clearSide := by
  have hlen : rounds'.length = fullMatch.Rounds.length := by
    have := congrArg List.length hsame
    simpa using this
  have hrun : ProcessMatchDetails sortSlice order svc (ApiMatch.v4 fullMatch) minStackPlayers
      = if ((GetStackPlayers svc fullMatch.Players).length : Int) < minStackPlayers then none
        else some (recordBeforeSides sortSlice svc fullMatch) := by
    rw [ProcessMatchDetails_v4]
    have hskip : CalculateSideStats order fullMatch.Rounds fullMatch.Kills
        (recordBeforeSides sortSlice svc fullMatch)
        (BuildStackNamesByPUUID svc fullMatch.Players)
        = recordBeforeSides sortSlice svc fullMatch := by
      unfold CalculateSideStats
      simp only [InferInitialAttackingTeam_of_noPlant fullMatch.Rounds hno, if_true]
    rw [hskip]
  constructor
  · intro m hm
    rw [hrun] at hm
    split at hm
    · exact absurd hm (by simp)
    · have : recordBeforeSides sortSlice svc fullMatch = m := Option.some.inj hm
      rw [← this]
      exact sideMaps_recordBeforeSides sortSlice svc fullMatch
  · rw [hrun, ProcessMatchDetails_v4]
    have hplayers : ({ fullMatch with Rounds := rounds' } : V4MatchResponse).Players
        = fullMatch.Players := rfl
    rw [hplayers, recordBeforeSides_rounds sortSlice svc fullMatch rounds' hlen]
    split
    · rfl
    · simp only [Option.map_some', clearSide_CalculateSideStats]
      rw [clearSide_eq_self_of_sideMaps _ (sideMaps_recordBeforeSides sortSlice svc fullMatch)]

/-- The theorem on `exampleSideMatchNoPlant`, whose match with plants is `exampleSideMatch`. -/
theorem ProcessMatchDetails_without_plants_witness :
    (∀ r ∈ exampleSideMatchNoPlant.Rounds, NoPlant r) ∧
    exampleSideMatch.Rounds.map stripPlant = exampleSideMatchNoPlant.Rounds.map stripPlant ∧
    ProcessMatchDetails stableSort RangeOrder.listOrder exampleService
        (ApiMatch.v4 exampleSideMatchNoPlant) 2
      = (ProcessMatchDetails stableSort RangeOrder.listOrder exampleService
          (ApiMatch.v4 { exampleSideMatchNoPlant with Rounds := exampleSideMatch.Rounds })
          2).map clearSide :=
  ⟨by
      intro r hr team h
      simp only [exampleSideMatchNoPlant, exampleSideMatch, List.map_cons, List.map_nil,
        List.mem_cons, List.mem_singleton, List.not_mem_nil, or_false] at hr
      rcases hr with hr | hr <;> subst hr <;> exact Option.noConfusion h.1,
    by decide,
    (ProcessMatchDetails_without_plants stableSort RangeOrder.listOrder RangeOrder.listOrder
      exampleService exampleSideMatchNoPlant exampleSideMatch.Rounds 2
      (by
        intro r hr team h
        simp only [exampleSideMatchNoPlant, exampleSideMatch, List.map_cons, List.map_nil,
          List.mem_cons, List.mem_singleton, List.not_mem_nil, or_false] at hr
        rcases hr with hr | hr <;> subst hr <;> exact Option.noConfusion h.1)
      (by decide)).2⟩

/-! ## Side attribution: the second team -/

theorem RangeOrder.valid_listOrder : RangeOrder.Valid RangeOrder.listOrder :=
  ⟨fun m => List.Perm.refl m, fun m => List.Perm.refl m⟩

theorem RangeOrder.valid_reversed : RangeOrder.Valid RangeOrder.reversed :=
  ⟨fun m => List.reverse_perm m, fun m => List.Perm.refl m⟩

/-- C17 fails on the code: `PickSecondTeam` returns a team other than the first team its
own range meets, not other than the first attacking team.  In `exampleLongMatch` Blue
plants first; when the range meets the Red player first, the second team is Blue again,
the plant-less round 12 gets Blue as attacker, and both kills of `B`, one per half, count
as attack kills.  When the range meets the Blue player first, the second team is Red. -/
theorem PickSecondTeam_can_be_first_attacking_team :
    InferInitialAttackingTeam exampleLongMatch.Rounds = "Blue" ∧
    RangeOrder.Valid RangeOrder.listOrder ∧
    PickSecondTeam RangeOrder.listOrder [("A", "Red"), ("B", "Blue")] = "Blue" ∧
    GoMap.getD (attackingTeams RangeOrder.listOrder exampleLongMatch.Rounds exampleSideRecord)
      12 "" = "Blue" ∧
    (ProcessMatchDetails stableSort RangeOrder.listOrder exampleService
        (ApiMatch.v4 exampleLongMatch) 2).map
      (fun m => (m.PlayerTeams, GoMap.getD m.AttackKills "B" 0, GoMap.getD m.DefenseKills "B" 0))
      = some ([("A", "Red"), ("B", "Blue")], 2, 0) ∧
    RangeOrder.Valid RangeOrder.reversed ∧
    PickSecondTeam RangeOrder.reversed [("A", "Red"), ("B", "Blue")] = "Red" ∧
    (ProcessMatchDetails stableSort RangeOrder.reversed exampleService
        (ApiMatch.v4 exampleLongMatch) 2).map
      (fun m => (GoMap.getD m.AttackKills "B" 0, GoMap.getD m.DefenseKills "B" 0))
      = some (1, 1) := by
  refine ⟨by decide, RangeOrder.valid_listOrder, by decide, by decide, by decide,
    RangeOrder.valid_reversed, by decide, by decide⟩

/-! ## Match processing: rejection -/

theorem keys_foldl_GetStackPlayers (svc : AnalyticsService) (players : List V4MatchPlayer)
    (m : GoMap String PlayerMatchStats) (hm : (GoMap.keys m).Nodup) :
    (GoMap.keys (players.foldl
        (fun stackPlayers player =>
          if GetPlayerName svc player.Name player.Tag ≠ "" then
            GoMap.set stackPlayers (GetPlayerName svc player.Name player.Tag)
              (playerMatchStats player)
          else stackPlayers) m)).Nodup ∧
    ∀ k, k ∈ GoMap.keys (players.foldl
        (fun stackPlayers player =>
          if GetPlayerName svc player.Name player.Tag ≠ "" then
            GoMap.set stackPlayers (GetPlayerName svc player.Name player.Tag)
              (playerMatchStats player)
          else stackPlayers) m)
      ↔ k ∈ GoMap.keys m ∨ k ∈ trackedNames svc players := by
  induction players generalizing m with
  | nil => exact ⟨hm, fun k => by simp [trackedNames]⟩
  | cons player rest ih =>
    rw [List.foldl_cons]
    by_cases hn : GetPlayerName svc player.Name player.Tag = ""
    · have hstep : (if GetPlayerName svc player.Name player.Tag ≠ "" then
            GoMap.set m (GetPlayerName svc player.Name player.Tag) (playerMatchStats player)
          else m) = m := by simp [hn]
      rw [hstep]
      obtain ⟨h1, h2⟩ := ih m hm
      refine ⟨h1, fun k => ?_⟩
      rw [h2 k]
      simp [trackedNames, hn]
    · have hstep : (if GetPlayerName svc player.Name player.Tag ≠ "" then
            GoMap.set m (GetPlayerName svc player.Name player.Tag) (playerMatchStats player)
          else m)
          = GoMap.set m (GetPlayerName svc player.Name player.Tag) (playerMatchStats player) := by
        simp [hn]
      rw [hstep]
      obtain ⟨h1, h2⟩ := ih _ (GoMap.nodup_keys_set m _ (playerMatchStats player) hm)
      refine ⟨h1, fun k => ?_⟩
      rw [h2 k, GoMap.mem_keys_set]
      simp only [trackedNames, List.map_cons, List.filter_cons, ne_eq, hn, not_false_eq_true,
        decide_True, if_true, List.mem_cons]
      tauto

theorem length_GetStackPlayers (svc : AnalyticsService) (players : List V4MatchPlayer) :
    (GetStackPlayers svc players).length = trackedPlayerCount svc players := by
  obtain ⟨hnd, hmem⟩ := keys_foldl_GetStackPlayers svc players [] (by simp [GoMap.keys])
  have hperm : (GoMap.keys (GetStackPlayers svc players)).Perm (trackedNames svc players).dedup :=
    (List.perm_ext_iff_of_nodup hnd (List.nodup_dedup _)).mpr (fun k => by
      rw [List.mem_dedup]
      have := hmem k
      simp only [GoMap.keys, List.map_nil, List.not_mem_nil, false_or] at this
      exact this)
  have hlen := hperm.length_eq
  simp only [GoMap.keys, List.length_map] at hlen
  exact hlen

theorem collectMatches_foldl (sortSlice : SortSlice) (order : RangeOrder)
    (svc : AnalyticsService) (apiMatches : List ApiMatch) (minStackPlayers : Int)
    (collected : List MatchData) :
    apiMatches.foldl
        (fun collected apiMatch =>
          match ProcessMatchDetails sortSlice order svc apiMatch minStackPlayers with
          | some mtch => collected ++ [mtch]
          | none => collected)
        collected
      = collected ++ apiMatches.filterMap
          (fun apiMatch => ProcessMatchDetails sortSlice order svc apiMatch minStackPlayers) := by
  induction apiMatches generalizing collected with
  | nil => simp
  | cons a rest ih =>
    rw [List.foldl_cons, ih]
    cases h : ProcessMatchDetails sortSlice order svc a minStackPlayers with
    | none => simp [List.filterMap_cons, h]
    | some mtch => simp [List.filterMap_cons, h]

/-- C19: on a payload of the expected type and for every minimum,
`ProcessMatchDetails` returns no record exactly when the number of tracked players
present in the player list (distinct canonical names) is below the minimum; and the
collection that is aggregated later holds, in order, one record for every accepted
payload and nothing for a rejected one. -/
theorem ProcessMatchDetails_rejects_iff (sortSlice : SortSlice) (order : RangeOrder)
    (svc : AnalyticsService) (fullMatch : V4MatchResponse) (minStackPlayers : Int)
    (apiMatches : List ApiMatch) :
    (ProcessMatchDetails sortSlice order svc (ApiMatch.v4 fullMatch) minStackPlayers = none
      ↔ (trackedPlayerCount svc fullMatch.Players : Int) < minStackPlayers) ∧
    collectMatches sortSlice order svc apiMatches minStackPlayers
      = apiMatches.filterMap
          (fun apiMatch => ProcessMatchDetails sortSlice order svc apiMatch minStackPlayers) := by
  constructor
  · rw [ProcessMatchDetails_v4, length_GetStackPlayers]
    constructor
    · intro h
      by_contra hlt
      rw [if_neg hlt] at h
      exact Option.noConfusion h
    · intro h
      rw [if_pos h]
  · unfold collectMatches
    rw [collectMatches_foldl]
    simp

/-! ## Aggregation -/

/-- The three game counters after one match of the outer loop of `AnalyzeMatches`. -/
theorem analyzeMatch_games (playerNames : List String) (stats : PlayerStats) (mtch : MatchData) :
    (analyzeMatch playerNames stats mtch).Wins
        = stats.Wins + (if contributes playerNames mtch = true ∧ mtch.Won = true then 1 else 0) ∧
    (analyzeMatch playerNames stats mtch).Losses
        = stats.Losses
          + (if contributes playerNames mtch = true ∧ mtch.Won = false then 1 else 0) ∧
    (analyzeMatch playerNames stats mtch).TotalGames
        = stats.TotalGames + (if contributes playerNames mtch = true then 1 else 0) := by
  unfold analyzeMatch
  cases hfind : playerNames.find?
      (fun playerName => (GoMap.get? mtch.PlayerData playerName).isSome) with
  | none =>
    have hc : contributes playerNames mtch = false := by
      unfold contributes
      rw [List.any_eq_false]
      intro x hx
      have := List.find?_eq_none.mp hfind x hx
      simpa using this
    simp [hc]
  | some playerName =>
    have hsome := List.find?_some hfind
    have hmem := List.mem_of_find?_eq_some hfind
    have hc : contributes playerNames mtch = true := by
      unfold contributes
      rw [List.any_eq_true]
      exact ⟨playerName, hmem, hsome⟩
    cases hget : GoMap.get? mtch.PlayerData playerName with
    | none => simp [hget] at hsome
    | some pms =>
      simp only [hc, true_and, if_true]
      cases hw : mtch.Won <;> simp [addMatch, hw, hget]

/-- C20: for every list of per-match records and every list of target names, the result
of `AnalyzeMatches` has `TotalGames = Wins + Losses` with neither negative, `Wins` being
the number of contributing matches whose `Won` flag is true and `Losses` the number of
those whose flag is false. -/
theorem AnalyzeMatches_games (matchList : List MatchData) (playerNames : List String) :
    (AnalyzeMatches matchList playerNames).TotalGames
        = (AnalyzeMatches matchList playerNames).Wins
          + (AnalyzeMatches matchList playerNames).Losses ∧
    0 ≤ (AnalyzeMatches matchList playerNames).Wins ∧
    0 ≤ (AnalyzeMatches matchList playerNames).Losses ∧
    (AnalyzeMatches matchList playerNames).Wins
        = ((matchList.countP (fun mtch => contributes playerNames mtch && mtch.Won) : Nat) : Int) ∧
    (AnalyzeMatches matchList playerNames).Losses
        = ((matchList.countP (fun mtch => contributes playerNames mtch && !mtch.Won) : Nat)
            : Int) := by
  have key : ∀ (l : List MatchData) (stats : PlayerStats),
      (l.foldl (analyzeMatch playerNames) stats).Wins
          = stats.Wins
            + ((l.countP (fun mtch => contributes playerNames mtch && mtch.Won) : Nat) : Int) ∧
      (l.foldl (analyzeMatch playerNames) stats).Losses
          = stats.Losses
            + ((l.countP (fun mtch => contributes playerNames mtch && !mtch.Won) : Nat) : Int) ∧
      (l.foldl (analyzeMatch playerNames) stats).TotalGames
          = stats.TotalGames
            + ((l.countP (fun mtch => contributes playerNames mtch && mtch.Won) : Nat) : Int)
            + ((l.countP (fun mtch => contributes playerNames mtch && !mtch.Won) : Nat) : Int) := by
    intro l
    induction l with
    | nil => intro stats; simp
    | cons mtch rest ih =>
      intro stats
      rw [List.foldl_cons]
      obtain ⟨h1, h2, h3⟩ := ih (analyzeMatch playerNames stats mtch)
      obtain ⟨g1, g2, g3⟩ := analyzeMatch_games playerNames stats mtch
      rw [h1, h2, h3, g1, g2, g3]
      simp only [List.countP_cons]
      cases hc : contributes playerNames mtch <;> cases hw : mtch.Won <;>
        simp <;> omega
  obtain ⟨h1, h2, h3⟩ := key matchList emptyStats
  unfold AnalyzeMatches
  have e1 : emptyStats.Wins = 0 := rfl
  have e2 : emptyStats.Losses = 0 := rfl
  have e3 : emptyStats.TotalGames = 0 := rfl
  rw [h1, h2, h3, e1, e2, e3]
  refine ⟨by omega, by omega, by omega, by omega, by omega⟩

/-! ## C28: the identity lookup -/

/-- C28: `GetPlayerName svc name tag` is the canonical name stored under the key
`name ++ "#" ++ tag` when that key is in the identity map, and the empty string when it is
not.  The function returns the name only: the service, and so the map, is not part of what
it yields.  Two different keys may hold the same canonical name: in
`exampleTwoAccountService` the accounts `alpha#1` and `alfa#9` both give `A`. -/
theorem GetPlayerName_lookup (svc : AnalyticsService) (name tag : String) :
    (∀ player, GoMap.get? svc.playerAccountsMap (name ++ "#" ++ tag) = some player →
      GetPlayerName svc name tag = player) ∧
    (GoMap.get? svc.playerAccountsMap (name ++ "#" ++ tag) = none →
      GetPlayerName svc name tag = "") ∧
    (GetPlayerName exampleTwoAccountService "alpha" "1" = "A" ∧
      GetPlayerName exampleTwoAccountService "alfa" "9" = "A") := by
  refine ⟨fun player h => ?_, fun h => ?_, by decide, by decide⟩
  · simp [GetPlayerName, h]
  · simp [GetPlayerName, h]

/-! ## C22: a match without a target name -/

/-- A match none of whose `PlayerData` keys is a target name leaves the totals as
they are. -/
theorem analyzeMatch_of_absent (playerNames : List String) (stats : PlayerStats)
    (mtch : MatchData)
    (habsent : ∀ playerName ∈ playerNames, GoMap.get? mtch.PlayerData playerName = none) :
    analyzeMatch playerNames stats mtch = stats := by
  have hfind : playerNames.find?
      (fun playerName => (GoMap.get? mtch.PlayerData playerName).isSome) = none := by
    rw [List.find?_eq_none]
    intro playerName hmem
    simp [habsent playerName hmem]
  simp [analyzeMatch, hfind]

/-- C22: for every list of records `pre ++ post`, every list of target names and every
record `mtch` whose `PlayerData` has none of the target names as a key, `AnalyzeMatches`
gives the same `PlayerStats` with `mtch` inserted between `pre` and `post` as without it:
every field, counters and maps included, is equal. -/
theorem AnalyzeMatches_skips_absent (pre post : List MatchData) (mtch : MatchData)
    (playerNames : List String)
    (habsent : ∀ playerName ∈ playerNames, GoMap.get? mtch.PlayerData playerName = none) :
    AnalyzeMatches (pre ++ mtch :: post) playerNames =
      AnalyzeMatches (pre ++ post) playerNames := by
  unfold AnalyzeMatches
  rw [List.foldl_append, List.foldl_append, List.foldl_cons,
    analyzeMatch_of_absent playerNames _ mtch habsent]

/-- Witness for C22: the record of `C` between two records of `A` and `B`, for the target
names `A` and `B`. -/
theorem AnalyzeMatches_skips_absent_witness :
    (∀ playerName ∈ ["A", "B"], GoMap.get? exampleRecordOfC.PlayerData playerName = none) ∧
    AnalyzeMatches ([exampleMatch] ++ exampleRecordOfC :: [exampleMatch]) ["A", "B"] =
      AnalyzeMatches ([exampleMatch] ++ [exampleMatch]) ["A", "B"] :=
  ⟨by decide,
   AnalyzeMatches_skips_absent [exampleMatch] [exampleMatch] exampleRecordOfC ["A", "B"]
     (by decide)⟩

/-! ## The header and player fields of a record -/

theorem foldl_proj {α β γ : Type} (proj : α → γ) (f : α → β → α) (g : γ → β → γ)
    (h : ∀ a b, proj (f a b) = g (proj a) b) (l : List β) (a : α) :
    proj (l.foldl f a) = l.foldl g (proj a) := by
  induction l generalizing a with
  | nil => rfl
  | cons b rest ih => rw [List.foldl_cons, List.foldl_cons, ih, h]

theorem baseFields_firstBloodStep (m : MatchData) (e : Int × List KillEvent) :
    baseFields (firstBloodStep m e) = baseFields m := by
  unfold firstBloodStep
  split
  · rfl
  · simp only
    split <;> split <;> rfl

theorem baseFields_CalculateSideStats (order : RangeOrder) (rounds : List V4Round)
    (kills : List V4KillEventResponse) (mtch : MatchData) (names : GoMap String String) :
    baseFields (CalculateSideStats order rounds kills mtch names) = baseFields mtch := by
  have h : ∀ m : MatchData, baseFields (clearSide m) = baseFields m := fun _ => rfl
  rw [← h, clearSide_CalculateSideStats, h]

/-- The header and player fields of the record handed to `CalculateSideStats`. -/
theorem baseFields_recordBeforeSides (sortSlice : SortSlice) (svc : AnalyticsService)
    (fullMatch : V4MatchResponse) :
    baseFields (recordBeforeSides sortSlice svc fullMatch)
      = (fullMatch.ID, fullMatch.MapName, fullMatch.QueueID,
          GetStackPlayers svc fullMatch.Players, playerTeamsOf svc fullMatch.Players,
          stackTeamWon svc fullMatch.Players fullMatch.Teams,
          CalculateRoundsPlayed fullMatch.Rounds, fullMatch.GameStart) := by
  unfold recordBeforeSides
  simp only
  have hKAST : ∀ (tl : Timeline) (trades : Trades) (m : MatchData),
      baseFields (CalculateKAST tl trades m) = baseFields m := fun _ _ _ => rfl
  rw [hKAST]
  unfold CalculateFirstKillsAndDeaths
  rw [foldl_preserves baseFields firstBloodStep baseFields_firstBloodStep]
  simp only [baseFields, Prod.mk.injEq]
  refine ⟨?_, ?_, ?_, ?_, ?_, trivial, ?_, ?_⟩
  · exact foldl_preserves MatchData.MatchID _
      (fun m player => by split <;> rfl) fullMatch.Players _
  · exact foldl_preserves MatchData.Map _
      (fun m player => by split <;> rfl) fullMatch.Players _
  · exact foldl_preserves MatchData.Mode _
      (fun m player => by split <;> rfl) fullMatch.Players _
  · unfold GetStackPlayers
    exact foldl_proj MatchData.PlayerData _ _
      (fun m player => by
        simp only
        by_cases hname : GetPlayerName svc player.Name player.Tag = "" <;> simp [hname])
      fullMatch.Players _
  · unfold playerTeamsOf
    exact foldl_proj MatchData.PlayerTeams _ _
      (fun m player => by
        simp only
        by_cases hname : GetPlayerName svc player.Name player.Tag = "" <;> simp [hname])
      fullMatch.Players _
  · exact foldl_preserves MatchData.RoundsPlayed _
      (fun m player => by split <;> rfl) fullMatch.Players _
  · exact foldl_preserves MatchData.Timestamp _
      (fun m player => by split <;> rfl) fullMatch.Players _

/-- The header and player fields of an accepted record. -/
theorem baseFields_of_accepted (sortSlice : SortSlice) (order : RangeOrder)
    (svc : AnalyticsService) (fullMatch : V4MatchResponse) (minStackPlayers : Int)
    (record : MatchData)
    (haccepted : ProcessMatchDetails sortSlice order svc (ApiMatch.v4 fullMatch) minStackPlayers
      = some record) :
    baseFields record
      = (fullMatch.ID, fullMatch.MapName, fullMatch.QueueID,
          GetStackPlayers svc fullMatch.Players, playerTeamsOf svc fullMatch.Players,
          stackTeamWon svc fullMatch.Players fullMatch.Teams,
          CalculateRoundsPlayed fullMatch.Rounds, fullMatch.GameStart) := by
  rw [ProcessMatchDetails_v4] at haccepted
  split at haccepted
  · exact absurd haccepted (by simp)
  · rw [← Option.some.inj haccepted, baseFields_CalculateSideStats,
      baseFields_recordBeforeSides]

theorem PlayerData_of_accepted (sortSlice : SortSlice) (order : RangeOrder)
    (svc : AnalyticsService) (fullMatch : V4MatchResponse) (minStackPlayers : Int)
    (record : MatchData)
    (haccepted : ProcessMatchDetails sortSlice order svc (ApiMatch.v4 fullMatch) minStackPlayers
      = some record) :
    record.PlayerData = GetStackPlayers svc fullMatch.Players := by
  have h := baseFields_of_accepted sortSlice order svc fullMatch minStackPlayers record haccepted
  simp only [baseFields, Prod.mk.injEq] at h
  exact h.2.2.2.1

/-! ## C30: two accounts with one canonical name -/

theorem get?_foldl_GetStackPlayers_of_not_mem (svc : AnalyticsService)
    (post : List V4MatchPlayer) (m : GoMap String PlayerMatchStats) (name : String)
    (h : ∀ q ∈ post, GetPlayerName svc q.Name q.Tag ≠ name) :
    GoMap.get? (post.foldl
        (fun stackPlayers player =>
          if GetPlayerName svc player.Name player.Tag ≠ "" then
            GoMap.set stackPlayers (GetPlayerName svc player.Name player.Tag)
              (playerMatchStats player)
          else stackPlayers) m) name = GoMap.get? m name := by
  induction post generalizing m with
  | nil => rfl
  | cons q rest ih =>
    rw [List.foldl_cons, ih _ (fun q' hq' => h q' (List.mem_cons_of_mem _ hq'))]
    split
    · exact GoMap.get?_set_ne m _ (Ne.symm (h q (List.mem_cons_self _ _)))
    · rfl

/-- The entry of `GetStackPlayers` for a canonical name is the one of the last account of
the player list with that name. -/
theorem get?_GetStackPlayers_last (svc : AnalyticsService) (pre post : List V4MatchPlayer)
    (player : V4MatchPlayer) (hne : GetPlayerName svc player.Name player.Tag ≠ "")
    (hlast : ∀ q ∈ post,
      GetPlayerName svc q.Name q.Tag ≠ GetPlayerName svc player.Name player.Tag) :
    GoMap.get? (GetStackPlayers svc (pre ++ player :: post))
      (GetPlayerName svc player.Name player.Tag) = some (playerMatchStats player) := by
  unfold GetStackPlayers
  simp only
  rw [List.foldl_append, List.foldl_cons,
    get?_foldl_GetStackPlayers_of_not_mem svc post _ _ hlast]
  simp only [hne, ne_eq, not_false_eq_true, if_true]
  exact GoMap.get?_set_self _ _ _

/-- C30: in an accepted match in which several accounts resolve to one canonical name, the
`PlayerData` entry of the record for that name is the per-match record of the last such
account in payload order (`player`, after which no account of `post` has the name): the
entry is one account's totals, not a sum.  The name is a key of the map `stackPlayers`
exactly once, and the length of that map is the number compared with the minimum. -/
theorem ProcessMatchDetails_same_name_last_account (sortSlice : SortSlice) (order : RangeOrder)
    (svc : AnalyticsService) (fullMatch : V4MatchResponse) (minStackPlayers : Int)
    (record : MatchData) (pre post : List V4MatchPlayer) (player : V4MatchPlayer)
    (haccepted : ProcessMatchDetails sortSlice order svc (ApiMatch.v4 fullMatch) minStackPlayers
      = some record)
    (hplayers : fullMatch.Players = pre ++ player :: post)
    (hne : GetPlayerName svc player.Name player.Tag ≠ "")
    (hlast : ∀ q ∈ post,
      GetPlayerName svc q.Name q.Tag ≠ GetPlayerName svc player.Name player.Tag) :
    GoMap.get? record.PlayerData (GetPlayerName svc player.Name player.Tag)
      = some (playerMatchStats player) ∧
    (GoMap.keys (GetStackPlayers svc fullMatch.Players)).count
      (GetPlayerName svc player.Name player.Tag) = 1 ∧
    (GetStackPlayers svc fullMatch.Players).length = trackedPlayerCount svc fullMatch.Players := by
  have hget := get?_GetStackPlayers_last svc pre post player hne hlast
  rw [← hplayers] at hget
  refine ⟨?_, ?_, length_GetStackPlayers svc fullMatch.Players⟩
  · rw [PlayerData_of_accepted sortSlice order svc fullMatch minStackPlayers record haccepted]
    exact hget
  · obtain ⟨hnd, -⟩ := keys_foldl_GetStackPlayers svc fullMatch.Players [] (by simp [GoMap.keys])
    apply List.count_eq_one_of_mem hnd
    by_contra hmem
    have hnone := (GoMap.get?_eq_none_iff (GetStackPlayers svc fullMatch.Players) _).mpr hmem
    rw [hnone] at hget
    exact absurd hget (by simp)

/-- Witness for C30: in `exampleTwoAccountMatch` the accounts `alpha#1` (3 kills) and
`alfa#9` (4 kills) are both `A`; the entry of `A` is the one of `alfa#9`, and the match has
two tracked players. -/
theorem ProcessMatchDetails_same_name_last_account_witness :
    GoMap.get? (CalculateSideStats RangeOrder.listOrder exampleTwoAccountMatch.Rounds
        exampleTwoAccountMatch.Kills
        (recordBeforeSides stableSort exampleTwoAccountService exampleTwoAccountMatch)
        (BuildStackNamesByPUUID exampleTwoAccountService exampleTwoAccountMatch.Players)).PlayerData
      (GetPlayerName exampleTwoAccountService "alfa" "9")
      = some (playerMatchStats (examplePlayerWithKills "p2" "alfa" "9" "Red" 4)) ∧
    (GoMap.keys (GetStackPlayers exampleTwoAccountService exampleTwoAccountMatch.Players)).count
      (GetPlayerName exampleTwoAccountService "alfa" "9") = 1 ∧
    (GetStackPlayers exampleTwoAccountService exampleTwoAccountMatch.Players).length
      = trackedPlayerCount exampleTwoAccountService exampleTwoAccountMatch.Players :=
  ProcessMatchDetails_same_name_last_account stableSort RangeOrder.listOrder
    exampleTwoAccountService exampleTwoAccountMatch 2 _
    [examplePlayerWithKills "p1" "alpha" "1" "Red" 3]
    [examplePlayerWithKills "p3" "bravo" "2" "Red" 5]
    (examplePlayerWithKills "p2" "alfa" "9" "Red" 4)
    (by rfl) rfl (by decide) (by decide)

/-! ## C29: the liveness simulation is per round -/

theorem GoMap.set_of_not_mem {κ ν : Type} [DecidableEq κ] (m : GoMap κ ν) (k : κ) (v : ν)
    (h : k ∉ GoMap.keys m) : GoMap.set m k v = m ++ [(k, v)] := by
  induction m with
  | nil => rfl
  | cons e rest ih =>
    obtain ⟨k', v'⟩ := e
    simp only [GoMap.keys, List.map_cons, List.mem_cons, not_or] at h
    have hne : ¬ k' = k := fun heq => h.1 heq.symm
    simp only [GoMap.set, hne, if_false, List.cons_append]
    rw [ih (by simpa [GoMap.keys] using h.2)]

/-- Assigning the entries of a map without repeated keys, one by one, appends them. -/
theorem GoMap.foldl_set_of_nodup {κ ν μ : Type} [DecidableEq κ] (g : κ × ν → μ)
    (l : GoMap κ ν) (acc : GoMap κ μ) (hl : (GoMap.keys l).Nodup)
    (hdisj : ∀ k ∈ GoMap.keys l, k ∉ GoMap.keys acc) :
    l.foldl (fun m e => GoMap.set m e.1 (g e)) acc = acc ++ l.map (fun e => (e.1, g e)) := by
  induction l generalizing acc with
  | nil => simp
  | cons e rest ih =>
    simp only [GoMap.keys, List.map_cons, List.nodup_cons, List.mem_cons, forall_eq_or_imp] at hl hdisj
    rw [List.foldl_cons, GoMap.set_of_not_mem acc e.1 (g e) (by simpa [GoMap.keys] using hdisj.1)]
    rw [ih _ (by simpa [GoMap.keys] using hl.2)]
    · simp
    · intro k hk
      simp only [GoMap.keys, List.map_append, List.map_cons, List.map_nil, List.mem_append,
        List.mem_singleton, not_or]
      refine ⟨by simpa [GoMap.keys] using hdisj.2 k (by simpa [GoMap.keys] using hk), ?_⟩
      intro heq
      subst heq
      exact hl.1 (by simpa [GoMap.keys] using hk)

/-- The deep copy of a well-formed roster has the teams and members of the roster. -/
theorem CloneTeamMembers_eq_self (teamMembers : Roster) (hwf : WellFormedRoster teamMembers) :
    CloneTeamMembers teamMembers = teamMembers := by
  unfold CloneTeamMembers
  have h := GoMap.foldl_set_of_nodup
    (fun (e : String × GoMap String Unit) =>
      e.2.foldl (fun members m => GoMap.set members m.1 ()) [])
    teamMembers [] hwf.1 (by simp [GoMap.keys])
  rw [h]
  simp only [List.nil_append]
  conv_rhs => rw [← List.map_id teamMembers]
  apply List.map_congr_left
  intro e he
  have hin := GoMap.foldl_set_of_nodup (fun (_ : String × Unit) => ()) e.2 []
    (hwf.2 e he) (by simp [GoMap.keys])
  simp only [List.nil_append] at hin
  rw [hin]
  have hid : e.2.map (fun (m : String × Unit) => (m.1, ())) = e.2 :=
    (List.map_congr_left (fun _ _ => rfl)).trans (List.map_id _)
  rw [hid]
  rfl

/-- C29: for every roster and timeline, the clutch credit of each player `n` is the sum,
over the rounds of the timeline, of the credit that `ComputeClutches` gives `n` on the
timeline of that round alone with the same full roster: no round starts from the alive sets
another round has left.  The roster is an argument that `ComputeClutches` does not return,
and the copy each round starts from has the teams and members of the roster. -/
theorem ComputeClutches_per_round (eventsByRound : Timeline) (teamMembers : Roster)
    (hwf : WellFormedRoster teamMembers) (n : String) :
    GoMap.getD (ComputeClutches eventsByRound teamMembers) n 0
      = (eventsByRound.map
          (fun e => GoMap.getD (ComputeClutches [e] teamMembers) n 0)).sum ∧
    CloneTeamMembers teamMembers = teamMembers := by
  refine ⟨?_, CloneTeamMembers_eq_self teamMembers hwf⟩
  unfold ComputeClutches
  rw [getD_foldl_clutchesInRound]
  simp only [GoMap.getD_nil, zero_add, clutchKills, List.foldl_cons, List.foldl_nil,
    getD_clutchesInRound_clone]
  induction eventsByRound with
  | nil => rfl
  | cons e rest ih =>
    simp only [List.map_cons, List.sum_cons, Nat.cast_add, ih]

/-- Witness for C29: two rounds on `exampleDuelRoster`; in each the last Red player kills
the last Blue player, who is alive again in round 1. -/
theorem ComputeClutches_per_round_witness :
    WellFormedRoster exampleDuelRoster ∧
    GoMap.getD (ComputeClutches exampleTwoDuels exampleDuelRoster) "A" 0 = 2 ∧
    (GoMap.getD (ComputeClutches exampleTwoDuels exampleDuelRoster) "A" 0
      = (exampleTwoDuels.map
          (fun e => GoMap.getD (ComputeClutches [e] exampleDuelRoster) "A" 0)).sum ∧
    CloneTeamMembers exampleDuelRoster = exampleDuelRoster) :=
  ⟨⟨by decide, by decide⟩, by decide,
   ComputeClutches_per_round exampleTwoDuels exampleDuelRoster ⟨by decide, by decide⟩ "A"⟩

/-! ## C26: scenario A -/

/-- The credits of a round with a single event, when the victim is the only member of
the victim's team. -/
theorem getD_ComputeClutches_single_event (teamMembers : Roster) (ev : KillEvent) (r : Int)
    (hwf : WellFormedRoster teamMembers)
    (hsole : GoMap.get? teamMembers ev.VictimTeam = some [(ev.VictimPUUID, ())]) (n : String) :
    GoMap.getD (ComputeClutches [(r, [ev])] teamMembers) n 0
      = if n = ev.KillerName ∧ ev.KillerName ≠ "" ∧ aliveCount teamMembers ev.KillerTeam = 1
        then 1 else 0 := by
  unfold ComputeClutches
  simp only [List.foldl_cons, List.foldl_nil]
  rw [CloneTeamMembers_eq_self _ hwf, clutchesInRound_cons]
  simp only [clutchesInRound]
  have hbefore : aliveCount teamMembers ev.VictimTeam = 1 := by
    simp [aliveCount, GoMap.getD, hsole]
  have hafter : aliveCount (removeVictim teamMembers ev) ev.VictimTeam = 0 := by
    simp [aliveCount, removeVictim, hsole, GoMap.getD_set_self, GoMap.delete]
  simp only [hbefore, hafter, le_refl, and_true]
  by_cases hc : ev.KillerName ≠ "" ∧ aliveCount teamMembers ev.KillerTeam = 1
  · rw [if_pos hc, GoMap.getD_incr]
    by_cases hn : n = ev.KillerName
    · simp [hn, hc.1, hc.2, GoMap.getD_nil]
    · simp [hn, GoMap.getD_nil]
  · rw [if_neg hc]
    have hneg : ¬ (n = ev.KillerName ∧ ev.KillerName ≠ "" ∧
        aliveCount teamMembers ev.KillerTeam = 1) := fun h => hc h.2
    simp only [GoMap.getD_nil, if_neg hneg]

/-- C26, as the code has it: for the timeline of one round whose only event is the tracked
player `p1` killing the tracked player `p2` at 1000 ms, and every roster in which `p2` is
the sole member of its team: `ComputeTrades` flags no one; `ComputeClutches` credits one
clutch to `p1` when the killer's team has exactly one member in the roster, and no clutch to
anyone otherwise; `CalculateFirstKillsAndDeaths` adds one to `FirstKills[p1]` and one to
`FirstDeaths[p2]` (so both are 1 on a fresh record); `ComputeMultiKills` has no entry for
`p1`. -/
theorem scenarioA_results (svc : AnalyticsService) (teamMembers : Roster)
    (p1 p2 killerTeam victimTeam killerPUUID victimPUUID : String) (mtch : MatchData)
    (hwf : WellFormedRoster teamMembers) (hp1 : p1 ≠ "") (hp2 : p2 ≠ "")
    (hsole : GoMap.get? teamMembers victimTeam = some [(victimPUUID, ())]) :
    (∀ r n, Trades.flagged (ComputeTrades svc
        (scenarioATimeline p1 p2 killerTeam victimTeam killerPUUID victimPUUID)) r n = false) ∧
    (∀ n, GoMap.getD (ComputeClutches
        (scenarioATimeline p1 p2 killerTeam victimTeam killerPUUID victimPUUID) teamMembers) n 0
      = if n = p1 ∧ aliveCount teamMembers killerTeam = 1 then 1 else 0) ∧
    GoMap.getD (CalculateFirstKillsAndDeaths
        (scenarioATimeline p1 p2 killerTeam victimTeam killerPUUID victimPUUID) mtch).FirstKills
      p1 0 = GoMap.getD mtch.FirstKills p1 0 + 1 ∧
    GoMap.getD (CalculateFirstKillsAndDeaths
        (scenarioATimeline p1 p2 killerTeam victimTeam killerPUUID victimPUUID) mtch).FirstDeaths
      p2 0 = GoMap.getD mtch.FirstDeaths p2 0 + 1 ∧
    GoMap.get? (ComputeMultiKills
      (scenarioATimeline p1 p2 killerTeam victimTeam killerPUUID victimPUUID)) p1 = none := by
  refine ⟨fun r n => ?_, fun n => ?_, ?_, ?_, ?_⟩
  · by_cases hv : p2 = "" <;>
      simp [scenarioATimeline, exampleEvent, ComputeTrades, tradesInRound, scanTrade,
        Trades.flagged, GoMap.getD, GoMap.get?, hv]
  · have h := getD_ComputeClutches_single_event teamMembers
      (exampleEvent 1000 p1 p2 killerTeam victimTeam killerPUUID victimPUUID) 0 hwf hsole n
    simp only [exampleEvent, ne_eq, hp1, not_false_eq_true, true_and] at h
    exact h
  · have h := (foldl_firstBloodStep
      (scenarioATimeline p1 p2 killerTeam victimTeam killerPUUID victimPUUID) mtch p1).1
    unfold CalculateFirstKillsAndDeaths
    rw [h]
    simp [hp1, firstKillRounds, scenarioATimeline, exampleEvent]
  · have h := (foldl_firstBloodStep
      (scenarioATimeline p1 p2 killerTeam victimTeam killerPUUID victimPUUID) mtch p2).2
    unfold CalculateFirstKillsAndDeaths
    rw [h]
    simp [hp2, firstDeathRounds, scenarioATimeline, exampleEvent]
  · simp [scenarioATimeline, exampleEvent, ComputeMultiKills, killsThisRound, hp1, bumpMulti,
      GoMap.incr, GoMap.getD, GoMap.get?, GoMap.set]

/-- Witness for C26: `P1` (Red, with a teammate) kills `P2`, the only Blue player. -/
theorem scenarioA_results_witness :
    (∀ r n, Trades.flagged (ComputeTrades exampleService
        (scenarioATimeline "P1" "P2" "Red" "Blue" "r1" "b1")) r n = false) ∧
    (∀ n, GoMap.getD (ComputeClutches
        (scenarioATimeline "P1" "P2" "Red" "Blue" "r1" "b1")
        [("Red", [("r1", ()), ("r2", ())]), ("Blue", [("b1", ())])]) n 0
      = if n = "P1" ∧ aliveCount [("Red", [("r1", ()), ("r2", ())]), ("Blue", [("b1", ())])]
          "Red" = 1 then 1 else 0) ∧
    GoMap.getD (CalculateFirstKillsAndDeaths
        (scenarioATimeline "P1" "P2" "Red" "Blue" "r1" "b1") emptyMatch).FirstKills
      "P1" 0 = GoMap.getD emptyMatch.FirstKills "P1" 0 + 1 ∧
    GoMap.getD (CalculateFirstKillsAndDeaths
        (scenarioATimeline "P1" "P2" "Red" "Blue" "r1" "b1") emptyMatch).FirstDeaths
      "P2" 0 = GoMap.getD emptyMatch.FirstDeaths "P2" 0 + 1 ∧
    GoMap.get? (ComputeMultiKills
      (scenarioATimeline "P1" "P2" "Red" "Blue" "r1" "b1")) "P1" = none :=
  scenarioA_results exampleService [("Red", [("r1", ()), ("r2", ())]), ("Blue", [("b1", ())])]
    "P1" "P2" "Red" "Blue" "r1" "b1" emptyMatch ⟨by decide, by decide⟩ (by decide) (by decide)
    rfl

/-- Counterexample to C26: on `exampleDuelRoster`, in which `P2` is the sole member of Blue
and `P1` the sole member of Red, `ComputeClutches` credits `P1` with one clutch for the only
event of the round. -/
theorem scenarioA_clutch_credited :
    WellFormedRoster exampleDuelRoster ∧
    GoMap.get? exampleDuelRoster "Blue" = some [("b1", ())] ∧
    GoMap.getD (ComputeClutches (scenarioATimeline "P1" "P2" "Red" "Blue" "r1" "b1")
      exampleDuelRoster) "P1" 0 = 1 :=
  ⟨⟨by decide, by decide⟩, by decide, by decide⟩

/-! ## C27: scenario B -/

theorem clutchesInRound_append (pre rest : List KillEvent) (alive : Roster)
    (clutches : GoMap String Int) :
    clutchesInRound (pre ++ rest) alive clutches
      = clutchesInRound rest (pre.foldl removeVictim alive)
          (clutchesInRound pre alive clutches) := by
  induction pre generalizing alive clutches with
  | nil => rfl
  | cons ev pre ih =>
    rw [List.cons_append, clutchesInRound_cons, ih, clutchesInRound_cons, List.foldl_cons]

/-- Deleting a key from a map without repeated keys removes at most one entry. -/
theorem GoMap.length_le_length_delete_add_one {κ ν : Type} [DecidableEq κ] (m : GoMap κ ν)
    (k : κ) (h : (GoMap.keys m).Nodup) : m.length ≤ (GoMap.delete m k).length + 1 := by
  induction m with
  | nil => simp [GoMap.delete]
  | cons e rest ih =>
    simp only [GoMap.keys, List.map_cons, List.nodup_cons] at h
    by_cases he : e.1 = k
    · have hnot : ∀ x ∈ rest, decide (x.1 ≠ k) = true := by
        intro x hx
        have hne : x.1 ≠ k := by
          intro hxk
          exact h.1 (List.mem_map.mpr ⟨x, hx, by rw [hxk, he]⟩)
        simpa using hne
      have hfilter : GoMap.delete (e :: rest) k = rest := by
        simp only [GoMap.delete, List.filter_cons, he, ne_eq, not_true_eq_false, decide_False]
        exact List.filter_eq_self.mpr hnot
      rw [hfilter]
      simp
    · have hcons : GoMap.delete (e :: rest) k = e :: GoMap.delete rest k := by
        simp [GoMap.delete, List.filter_cons, he]
      rw [hcons]
      have := ih (by simpa [GoMap.keys] using h.2)
      simp only [List.length_cons]
      omega

theorem GoMap.nodup_keys_delete {κ ν : Type} [DecidableEq κ] (m : GoMap κ ν) (k : κ)
    (h : (GoMap.keys m).Nodup) : (GoMap.keys (GoMap.delete m k)).Nodup := by
  unfold GoMap.keys GoMap.delete
  exact ((List.filter_sublist _).map Prod.fst).nodup h

theorem GoMap.get?_set {κ ν : Type} [DecidableEq κ] (m : GoMap κ ν) (k k' : κ) (v : ν) :
    GoMap.get? (GoMap.set m k v) k' = if k' = k then some v else GoMap.get? m k' := by
  by_cases h : k' = k
  · subst h
    simp [GoMap.get?_set_self]
  · simp [h, GoMap.get?_set_ne m v h]

/-- The alive sets of the liveness simulation have no repeated member. -/
theorem nodup_alive (teamMembers : Roster) (pre : List KillEvent) (t : String)
    (members : GoMap String Unit)
    (h : GoMap.get? (pre.foldl removeVictim (CloneTeamMembers teamMembers)) t = some members) :
    (GoMap.keys members).Nodup := by
  have hclone : ∀ (src init : Roster),
      (∀ t members, GoMap.get? init t = some members → (GoMap.keys members).Nodup) →
      ∀ t members, GoMap.get? (src.foldl
        (fun clone e => clone.set e.1 (e.2.foldl (fun members m => members.set m.1 ()) []))
        init) t = some members → (GoMap.keys members).Nodup := by
    intro src
    induction src with
    | nil => intro init hinit; exact hinit
    | cons e rest ih =>
      intro init hinit
      rw [List.foldl_cons]
      apply ih
      intro t members hget
      rw [GoMap.get?_set] at hget
      split at hget
      · rw [← Option.some.inj hget]
        have hinner : ∀ (l acc : GoMap String Unit), (GoMap.keys acc).Nodup →
            (GoMap.keys (l.foldl (fun members m => GoMap.set members m.1 ()) acc)).Nodup := by
          intro l
          induction l with
          | nil => intro acc hacc; exact hacc
          | cons x xs ihx =>
            intro acc hacc
            rw [List.foldl_cons]
            exact ihx _ (GoMap.nodup_keys_set acc x.1 () hacc)
        exact hinner e.2 [] (by simp [GoMap.keys])
      · exact hinit t members hget
  have hfold : ∀ (pre : List KillEvent) (alive : Roster),
      (∀ t members, GoMap.get? alive t = some members → (GoMap.keys members).Nodup) →
      ∀ t members, GoMap.get? (pre.foldl removeVictim alive) t = some members →
        (GoMap.keys members).Nodup := by
    intro pre
    induction pre with
    | nil => intro alive halive; exact halive
    | cons ev rest ih =>
      intro alive halive
      rw [List.foldl_cons]
      apply ih
      intro t members hget
      unfold removeVictim at hget
      cases hv : GoMap.get? alive ev.VictimTeam with
      | none =>
        rw [hv] at hget
        exact halive t members hget
      | some victims =>
        rw [hv] at hget
        simp only at hget
        rw [GoMap.get?_set] at hget
        split at hget
        · rw [← Option.some.inj hget]
          exact GoMap.nodup_keys_delete _ _ (halive _ _ hv)
        · exact halive t members hget
  exact hfold pre (CloneTeamMembers teamMembers)
    (hclone teamMembers [] (fun t members hget => by simp [GoMap.get?] at hget)) t members h

theorem aliveBefore_append_length (teamMembers : Roster) (pre rest : List KillEvent) :
    aliveBefore teamMembers (pre ++ rest) pre.length
      = pre.foldl removeVictim (CloneTeamMembers teamMembers) := by
  simp [aliveBefore, aliveFrom]

/-- The credits of a round after its last event. -/
theorem ComputeClutches_last_event (teamMembers : Roster) (r : Int) (pre : List KillEvent)
    (ev : KillEvent) (n : String) :
    GoMap.getD (ComputeClutches [(r, pre ++ [ev])] teamMembers) n 0
      = GoMap.getD (ComputeClutches [(r, pre)] teamMembers) n 0 +
        (if n = ev.KillerName ∧ ev.KillerName ≠ "" ∧
            aliveCount (aliveBefore teamMembers (pre ++ [ev]) pre.length) ev.KillerTeam = 1 ∧
            1 ≤ aliveCount (aliveBefore teamMembers (pre ++ [ev]) pre.length) ev.VictimTeam ∧
            aliveCount (removeVictim (aliveBefore teamMembers (pre ++ [ev]) pre.length) ev)
              ev.VictimTeam = 0
          then 1 else 0) := by
  rw [aliveBefore_append_length]
  unfold ComputeClutches
  simp only [List.foldl_cons, List.foldl_nil]
  rw [clutchesInRound_append, clutchesInRound_cons]
  simp only [clutchesInRound]
  by_cases hc : ev.KillerName ≠ "" ∧
      aliveCount (pre.foldl removeVictim (CloneTeamMembers teamMembers)) ev.KillerTeam = 1 ∧
      1 ≤ aliveCount (pre.foldl removeVictim (CloneTeamMembers teamMembers)) ev.VictimTeam ∧
      aliveCount (removeVictim (pre.foldl removeVictim (CloneTeamMembers teamMembers)) ev)
        ev.VictimTeam = 0
  · rw [if_pos hc, GoMap.getD_incr]
    by_cases hn : n = ev.KillerName
    · rw [if_pos hn, if_pos ⟨hn, hc⟩]
    · rw [if_neg hn, if_neg (fun h => hn h.1)]
  · rw [if_neg hc, if_neg (fun h => hc h.2)]
    simp

/-- C27, as the code has it: in a one-round timeline whose last kill event is made by the
tracked player `A = ev.KillerName` at a moment when the team of `A` has exactly one alive
member, `ComputeClutches` credits `A` with one clutch for that kill when the enemy team has
exactly one alive member, the victim, before the kill; when the enemy team still has two
alive members before the kill, the kill earns no credit: the total of `A` is the one of the
earlier events of the round. -/
theorem scenarioB_last_kill (teamMembers : Roster) (r : Int) (pre : List KillEvent)
    (ev : KillEvent) (hA : ev.KillerName ≠ "")
    (hteam : aliveCount (aliveBefore teamMembers (pre ++ [ev]) pre.length) ev.KillerTeam = 1) :
    (GoMap.getD (aliveBefore teamMembers (pre ++ [ev]) pre.length) ev.VictimTeam []
        = [(ev.VictimPUUID, ())] →
      GoMap.getD (ComputeClutches [(r, pre ++ [ev])] teamMembers) ev.KillerName 0
        = GoMap.getD (ComputeClutches [(r, pre)] teamMembers) ev.KillerName 0 + 1) ∧
    (aliveCount (aliveBefore teamMembers (pre ++ [ev]) pre.length) ev.VictimTeam = 2 →
      GoMap.getD (ComputeClutches [(r, pre ++ [ev])] teamMembers) ev.KillerName 0
        = GoMap.getD (ComputeClutches [(r, pre)] teamMembers) ev.KillerName 0) := by
  constructor
  · intro hvictim
    rw [ComputeClutches_last_event, if_pos]
    refine ⟨rfl, hA, hteam, ?_, ?_⟩
    · simp [aliveCount, hvictim]
    · cases hget : GoMap.get? (aliveBefore teamMembers (pre ++ [ev]) pre.length) ev.VictimTeam with
      | none => simp [GoMap.getD, hget] at hvictim
      | some members =>
        have hmem : members = [(ev.VictimPUUID, ())] := by
          simpa [GoMap.getD, hget] using hvictim
        simp [aliveCount, removeVictim, hget, hmem, GoMap.getD_set_self, GoMap.delete]
  · intro htwo
    rw [ComputeClutches_last_event, if_neg, add_zero]
    rintro ⟨-, -, -, -, hafter⟩
    cases hget : GoMap.get? (aliveBefore teamMembers (pre ++ [ev]) pre.length) ev.VictimTeam with
    | none => simp [aliveCount, GoMap.getD, hget] at htwo
    | some members =>
      have hnd : (GoMap.keys members).Nodup := by
        rw [aliveBefore_append_length] at hget
        exact nodup_alive teamMembers pre ev.VictimTeam members hget
      have hlen := GoMap.length_le_length_delete_add_one members ev.VictimPUUID hnd
      have h2 : members.length = 2 := by
        have : ((members.length : Nat) : Int) = 2 := by
          simpa [aliveCount, GoMap.getD, hget] using htwo
        exact_mod_cast this
      have h0 : (GoMap.delete members ev.VictimPUUID).length = 0 := by
        have : (((GoMap.delete members ev.VictimPUUID).length : Nat) : Int) = 0 := by
          simpa [aliveCount, removeVictim, hget, GoMap.getD_set_self] using hafter
        exact_mod_cast this
      omega

/-- Witness for C27: on `exampleFiveRoster`, after `exampleRoundStart` and the kill of `b4`,
`A` is the last Red player and `b5` the last Blue player; the kill of `b5` is credited. -/
theorem scenarioB_last_kill_witness :
    GoMap.getD (ComputeClutches [(0, (exampleRoundStart ++ [exampleKillOfB4]) ++ [exampleKillOfB5])]
        exampleFiveRoster) exampleKillOfB5.KillerName 0
      = GoMap.getD (ComputeClutches [(0, exampleRoundStart ++ [exampleKillOfB4])]
          exampleFiveRoster) exampleKillOfB5.KillerName 0 + 1 :=
  (scenarioB_last_kill exampleFiveRoster 0 (exampleRoundStart ++ [exampleKillOfB4])
    exampleKillOfB5 (by decide) (by decide)).1 (by decide)

/-- Counterexample to C27: on the five against five roster `exampleFiveRoster`, the last
event of the round `exampleRoundStart ++ [exampleKillOfB4]` is a kill by the tracked player
`A` at a moment when Red has exactly one alive member and Blue two; `ComputeClutches` credits
`A` with no clutch. -/
theorem scenarioB_no_credit_with_two_enemies :
    aliveCount (aliveBefore exampleFiveRoster (exampleRoundStart ++ [exampleKillOfB4])
      exampleRoundStart.length) exampleKillOfB4.KillerTeam = 1 ∧
    aliveCount (aliveBefore exampleFiveRoster (exampleRoundStart ++ [exampleKillOfB4])
      exampleRoundStart.length) exampleKillOfB4.VictimTeam = 2 ∧
    exampleKillOfB4.KillerName = "A" ∧
    GoMap.getD (ComputeClutches [(0, exampleRoundStart ++ [exampleKillOfB4])]
      exampleFiveRoster) "A" 0 = 0 :=
  ⟨by decide, by decide, rfl, by decide⟩

/-! ## C25: a kill event without a team id -/

/-- The header and player fields of the result do not depend on the kill list. -/
theorem baseFields_ProcessMatchDetails_kills (sortSlice : SortSlice) (order : RangeOrder)
    (svc : AnalyticsService) (fullMatch : V4MatchResponse) (kills : List V4KillEventResponse)
    (minStackPlayers : Int) :
    Option.map baseFields
        (ProcessMatchDetails sortSlice order svc (ApiMatch.v4 fullMatch) minStackPlayers)
      = Option.map baseFields
        (ProcessMatchDetails sortSlice order svc
          (ApiMatch.v4 { fullMatch with Kills := kills }) minStackPlayers) := by
  rw [ProcessMatchDetails_v4, ProcessMatchDetails_v4]
  simp only
  by_cases hmin : ((GetStackPlayers svc fullMatch.Players).length : Int) < minStackPlayers
  · rw [if_pos hmin, if_pos hmin]
  · rw [if_neg hmin, if_neg hmin]
    simp only [Option.map_some', baseFields_CalculateSideStats, baseFields_recordBeforeSides]

/-- A kill of the payload is an event of its round in the timeline. -/
theorem toKillEvent_mem_BuildKillEvents (sortSlice : SortSlice)
    (hsort : SortsBy sortSlice lessByTime) (kills : List V4KillEventResponse)
    (names : GoMap String String) (kill : V4KillEventResponse) (hmem : kill ∈ kills) :
    toKillEvent names kill ∈ GoMap.getD (BuildKillEvents sortSlice kills names) kill.Round [] := by
  rw [(perm_getD_BuildKillEvents sortSlice hsort kills names kill.Round).mem_iff]
  unfold roundPayload
  exact List.mem_map.mpr ⟨kill, List.mem_filter.mpr ⟨hmem, by simp⟩, rfl⟩

/-- C25, as the code has it: a kill event whose killer team id or victim team id is empty
is not fatal and is not skipped.  For every match with such an event, `ProcessMatchDetails`
accepts or rejects the match as it does with the event removed, and the fields `MatchID`,
`Map`, `Mode`, `PlayerData`, `PlayerTeams`, `Won`, `RoundsPlayed` and `Timestamp` of the two
records are equal; the event itself is kept, with its empty team id, in the timeline of its
round, from which the trade, clutch, KAST, first-blood and multi-kill loops read. -/
theorem ProcessMatchDetails_keeps_malformed_kill (sortSlice : SortSlice)
    (hsort : SortsBy sortSlice lessByTime) (order : RangeOrder) (svc : AnalyticsService)
    (fullMatch : V4MatchResponse) (pre post : List V4KillEventResponse)
    (kill : V4KillEventResponse) (minStackPlayers : Int)
    (hkills : fullMatch.Kills = pre ++ kill :: post)
    (hmalformed : kill.Killer.Team = "" ∨ kill.Victim.Team = "") :
    Option.map baseFields
        (ProcessMatchDetails sortSlice order svc (ApiMatch.v4 fullMatch) minStackPlayers)
      = Option.map baseFields
        (ProcessMatchDetails sortSlice order svc
          (ApiMatch.v4 { fullMatch with Kills := pre ++ post }) minStackPlayers) ∧
    ∃ ev ∈ GoMap.getD (BuildKillEvents sortSlice fullMatch.Kills
        (BuildStackNamesByPUUID svc fullMatch.Players)) kill.Round [],
      ev = toKillEvent (BuildStackNamesByPUUID svc fullMatch.Players) kill ∧
      (ev.KillerTeam = "" ∨ ev.VictimTeam = "") := by
  refine ⟨baseFields_ProcessMatchDetails_kills sortSlice order svc fullMatch (pre ++ post)
    minStackPlayers, _, toKillEvent_mem_BuildKillEvents sortSlice hsort fullMatch.Kills _ kill
      (by rw [hkills]; simp), rfl, hmalformed⟩

/-- Witness for C25: `exampleMalformedMatch`, whose only kill has no killer team id. -/
theorem ProcessMatchDetails_keeps_malformed_kill_witness :
    Option.map baseFields
        (ProcessMatchDetails stableSort RangeOrder.listOrder exampleService
          (ApiMatch.v4 exampleMalformedMatch) 2)
      = Option.map baseFields
        (ProcessMatchDetails stableSort RangeOrder.listOrder exampleService
          (ApiMatch.v4 { exampleMalformedMatch with Kills := [] ++ [] }) 2) ∧
    ∃ ev ∈ GoMap.getD (BuildKillEvents stableSort exampleMalformedMatch.Kills
        (BuildStackNamesByPUUID exampleService exampleMalformedMatch.Players))
        exampleMalformedKill.Round [],
      ev = toKillEvent (BuildStackNamesByPUUID exampleService exampleMalformedMatch.Players)
        exampleMalformedKill ∧
      (ev.KillerTeam = "" ∨ ev.VictimTeam = "") :=
  ProcessMatchDetails_keeps_malformed_kill stableSort sortsBy_stableSort RangeOrder.listOrder
    exampleService exampleMalformedMatch [] [] exampleMalformedKill 2 rfl (Or.inl rfl)

/-- Counterexample to C25: the only kill of `exampleMalformedMatch` has no killer team id,
the match is accepted, and its record differs from the record of the match with the event
removed: the event gives `A` a first kill and a KAST round, and `B` a first death. -/
theorem ProcessMatchDetails_counts_malformed_kill :
    exampleMalformedKill.Killer.Team = "" ∧
    ProcessMatchDetails stableSort RangeOrder.listOrder exampleService
        (ApiMatch.v4 exampleMalformedMatch) 2
      ≠ ProcessMatchDetails stableSort RangeOrder.listOrder exampleService
        (ApiMatch.v4 { exampleMalformedMatch with Kills := [] }) 2 ∧
    (ProcessMatchDetails stableSort RangeOrder.listOrder exampleService
        (ApiMatch.v4 exampleMalformedMatch) 2).map
      (fun m => (GoMap.getD m.FirstKills "A" 0, GoMap.getD m.FirstDeaths "B" 0,
        GoMap.getD m.KASTRounds "A" 0, GoMap.getD m.KASTRounds "B" 0)) = some (1, 1, 1, 0) ∧
    (ProcessMatchDetails stableSort RangeOrder.listOrder exampleService
        (ApiMatch.v4 { exampleMalformedMatch with Kills := [] }) 2).map
      (fun m => (GoMap.getD m.FirstKills "A" 0, GoMap.getD m.FirstDeaths "B" 0,
        GoMap.getD m.KASTRounds "A" 0, GoMap.getD m.KASTRounds "B" 0)) = some (0, 0, 0, 0) := by
  refine ⟨rfl, by decide, by decide, by decide⟩

/-! ## C21: the totals do not depend on the order of the matches -/

/-- A fold whose step commutes up to a relation gives related results on rearranged lists. -/
theorem foldl_perm_rel {α β : Type} (R : α → α → Prop) (f : α → β → α)
    (hrefl : ∀ a, R a a) (htrans : ∀ a b c, R a b → R b c → R a c)
    (hcongr : ∀ a a' b, R a a' → R (f a b) (f a' b))
    (hswap : ∀ a b c, R (f (f a b) c) (f (f a c) b))
    {l₁ l₂ : List β} (hp : l₁.Perm l₂) :
    ∀ a a', R a a' → R (l₁.foldl f a) (l₂.foldl f a') := by
  have hfold : ∀ (l : List β) (a a' : α), R a a' → R (l.foldl f a) (l.foldl f a') := by
    intro l
    induction l with
    | nil => intro a a' h; exact h
    | cons b rest ih => intro a a' h; exact ih _ _ (hcongr a a' b h)
  induction hp with
  | nil => intro a a' h; exact h
  | cons x _ ih => intro a a' h; exact ih _ _ (hcongr a a' x h)
  | swap x y l =>
    intro a a' h
    simp only [List.foldl_cons]
    apply hfold
    exact htrans _ _ _ (hswap a y x) (hcongr _ _ y (hcongr a a' x h))
  | trans _ _ ih₁ ih₂ =>
    intro a a' h
    exact htrans _ _ _ (ih₁ a a' h) (ih₂ a' a' (hrefl a'))

theorem goAdd_right_comm (a x y : Int) : goAdd (goAdd a x) y = goAdd (goAdd a y) x := by
  unfold goAdd
  omega

theorem addIfPresent_right_comm (a : Int) (m₁ m₂ : GoMap String Int) (k₁ k₂ : String) :
    addIfPresent (addIfPresent a m₁ k₁) m₂ k₂ = addIfPresent (addIfPresent a m₂ k₂) m₁ k₁ := by
  unfold addIfPresent
  cases GoMap.get? m₁ k₁ <;> cases GoMap.get? m₂ k₂ <;> simp only [goAdd_right_comm]

theorem GoMap.get?_incr {κ : Type} [DecidableEq κ] (m : GoMap κ Int) (k k' : κ) :
    GoMap.get? (GoMap.incr m k) k' =
      if k' = k then some (GoMap.getD m k 0 + 1) else GoMap.get? m k' := by
  unfold GoMap.incr
  rw [GoMap.get?_set]

theorem get?_addOccurrences (multi : GoMap Int Int) (e : Int × Int) (k : Int) :
    GoMap.get? (addOccurrences multi e) k =
      if k = e.1 then some (goAdd (GoMap.getD multi e.1 0) e.2) else GoMap.get? multi k := by
  unfold addOccurrences
  rw [GoMap.get?_set]

theorem addOccurrences_congr (multi multi' : GoMap Int Int) (e : Int × Int)
    (h : ∀ k, GoMap.get? multi k = GoMap.get? multi' k) (k : Int) :
    GoMap.get? (addOccurrences multi e) k = GoMap.get? (addOccurrences multi' e) k := by
  rw [get?_addOccurrences, get?_addOccurrences]
  unfold GoMap.getD
  rw [h e.1, h k]

theorem addOccurrences_swap (multi : GoMap Int Int) (b c : Int × Int) (k : Int) :
    GoMap.get? (addOccurrences (addOccurrences multi b) c) k
      = GoMap.get? (addOccurrences (addOccurrences multi c) b) k := by
  simp only [get?_addOccurrences]
  have hb : ∀ x, GoMap.getD (addOccurrences multi b) x 0
      = if x = b.1 then goAdd (GoMap.getD multi b.1 0) b.2 else GoMap.getD multi x 0 := by
    intro x
    unfold addOccurrences
    rw [GoMap.getD_set]
  have hc : ∀ x, GoMap.getD (addOccurrences multi c) x 0
      = if x = c.1 then goAdd (GoMap.getD multi c.1 0) c.2 else GoMap.getD multi x 0 := by
    intro x
    unfold addOccurrences
    rw [GoMap.getD_set]
  rw [hb, hc]
  by_cases hbc : c.1 = b.1
  · have hcb : b.1 = c.1 := hbc.symm
    by_cases hk : k = c.1
    · have hk' : k = b.1 := hk.trans hbc
      simp only [hk, hbc, if_true, goAdd_right_comm]
    · have hk' : ¬ k = b.1 := fun h => hk (h.trans hcb)
      simp only [hk, hk', if_false]
  · have hcb : ¬ b.1 = c.1 := fun h => hbc h.symm
    by_cases hk : k = c.1
    · have hk' : ¬ k = b.1 := fun h => hbc (hk.symm.trans h)
      simp only [hk, hbc, hcb, if_true, if_false]
    · simp only [hk, hbc, hcb, if_false]

/-- The totals of `MultiKills` after the entries of `mk`, for rearranged `mk`. -/
theorem foldl_addOccurrences_perm {mk₁ mk₂ : GoMap Int Int} (hp : List.Perm mk₁ mk₂)
    (multi multi' : GoMap Int Int)
    (h : ∀ k, GoMap.get? multi k = GoMap.get? multi' k) (k : Int) :
    GoMap.get? (mk₁.foldl addOccurrences multi) k
      = GoMap.get? (mk₂.foldl addOccurrences multi') k :=
  foldl_perm_rel (fun (m m' : GoMap Int Int) => ∀ k, GoMap.get? m k = GoMap.get? m' k)
    addOccurrences (fun _ _ => rfl) (fun _ _ _ h₁ h₂ k => (h₁ k).trans (h₂ k))
    (fun m m' e h k => addOccurrences_congr m m' e h k)
    (fun m b c k => addOccurrences_swap m b c k) hp multi multi' h k

/-- A match either leaves every total as it is or is added for one name and its entry. -/
theorem analyzeMatch_cases (playerNames : List String) (mtch : MatchData) :
    (∀ stats, analyzeMatch playerNames stats mtch = stats) ∨
    ∃ playerName playerMatchStats,
      playerNames.find? (fun playerName => (GoMap.get? mtch.PlayerData playerName).isSome)
        = some playerName ∧
      GoMap.get? mtch.PlayerData playerName = some playerMatchStats ∧
      ∀ stats, analyzeMatch playerNames stats mtch
        = addMatch stats mtch playerName playerMatchStats := by
  cases hfind : playerNames.find?
      (fun playerName => (GoMap.get? mtch.PlayerData playerName).isSome) with
  | none =>
    left
    intro stats
    simp only [analyzeMatch, hfind]
  | some playerName =>
    cases hget : GoMap.get? mtch.PlayerData playerName with
    | none =>
      left
      intro stats
      simp only [analyzeMatch, hfind, hget]
    | some playerMatchStats =>
      right
      refine ⟨playerName, playerMatchStats, rfl, hget, fun stats => ?_⟩
      simp only [analyzeMatch, hfind, hget]

theorem addMatch_MultiKills (stats : PlayerStats) (mtch : MatchData) (playerName : String)
    (playerMatchStats : PlayerMatchStats) :
    (addMatch stats mtch playerName playerMatchStats).MultiKills
      = match GoMap.get? mtch.MultiKills playerName with
        | some mk => mk.foldl addOccurrences stats.MultiKills
        | none => stats.MultiKills := rfl

theorem addMatch_Agents (stats : PlayerStats) (mtch : MatchData) (playerName : String)
    (playerMatchStats : PlayerMatchStats) :
    (addMatch stats mtch playerName playerMatchStats).Agents
      = if playerMatchStats.Agent ≠ "" then GoMap.incr stats.Agents playerMatchStats.Agent
        else stats.Agents := rfl

theorem sameStats_refl (s : PlayerStats) : SameStats s s :=
  ⟨rfl, fun _ => rfl, fun _ => rfl⟩

theorem sameStats_trans {s t u : PlayerStats} (h₁ : SameStats s t) (h₂ : SameStats t u) :
    SameStats s u :=
  ⟨h₁.1.trans h₂.1, fun k => (h₁.2.1 k).trans (h₂.2.1 k), fun k => (h₁.2.2 k).trans (h₂.2.2 k)⟩

theorem SameStats_addMatch_congr (s t : PlayerStats) (mtch : MatchData) (playerName : String)
    (playerMatchStats : PlayerMatchStats) (h : SameStats s t) :
    SameStats (addMatch s mtch playerName playerMatchStats)
      (addMatch t mtch playerName playerMatchStats) := by
  obtain ⟨hnum, hagents, hmulti⟩ := h
  refine ⟨?_, fun agent => ?_, fun count => ?_⟩
  · simp only [numericFields, sumFields, List.cons.injEq, and_true] at hnum
    obtain ⟨h1, h2, h3, h4, h5, h6, h7, h8, h9, h10, h11, h12, h13, h14, h15, h16, h17, h18,
      h19, h20, h21, h22, h23, h24, h25⟩ := hnum
    simp only [numericFields, sumFields, addMatch, h1, h2, h3, h4, h5, h6, h7, h8, h9, h10, h11,
      h12, h13, h14, h15, h16, h17, h18, h19, h20, h21, h22, h23, h24, h25]
  · rw [addMatch_Agents, addMatch_Agents]
    split
    · rw [GoMap.get?_incr, GoMap.get?_incr]
      unfold GoMap.getD
      rw [hagents, hagents]
    · exact hagents agent
  · rw [addMatch_MultiKills, addMatch_MultiKills]
    cases GoMap.get? mtch.MultiKills playerName with
    | none => exact hmulti count
    | some mk => exact foldl_addOccurrences_perm (List.Perm.refl mk) _ _ hmulti count

theorem get?_incr_swap (agents : GoMap String Int) (a b k : String) :
    GoMap.get? (GoMap.incr (GoMap.incr agents a) b) k
      = GoMap.get? (GoMap.incr (GoMap.incr agents b) a) k := by
  simp only [GoMap.get?_incr, GoMap.getD_incr]
  by_cases hab : a = b
  · subst hab
    rfl
  · have hba : ¬ b = a := fun h => hab h.symm
    by_cases hkb : k = b
    · have hka : ¬ k = a := fun h => hab (h.symm.trans hkb)
      simp only [hkb, hba, hab, if_true, if_false, add_zero]
    · simp only [hkb, hba, hab, if_false, add_zero]

theorem SameStats_addMatch_swap (s : PlayerStats) (m₁ m₂ : MatchData) (n₁ n₂ : String)
    (p₁ p₂ : PlayerMatchStats) :
    SameStats (addMatch (addMatch s m₁ n₁ p₁) m₂ n₂ p₂)
      (addMatch (addMatch s m₂ n₂ p₂) m₁ n₁ p₁) := by
  refine ⟨?_, fun agent => ?_, fun count => ?_⟩
  · simp only [numericFields, sumFields, addMatch, List.cons.injEq, and_true]
    repeat' apply And.intro
    all_goals first
      | trivial
      | exact goAdd_right_comm _ _ _
      | exact addIfPresent_right_comm _ _ _ _ _
      | (split_ifs <;> rfl)
  · simp only [addMatch_Agents]
    by_cases h₁ : p₁.Agent ≠ "" <;> by_cases h₂ : p₂.Agent ≠ ""
    · simp only [if_pos h₁, if_pos h₂]
      exact get?_incr_swap s.Agents p₁.Agent p₂.Agent agent
    · simp only [if_pos h₁, if_neg h₂]
    · simp only [if_neg h₁, if_pos h₂]
    · simp only [if_neg h₁, if_neg h₂]
  · simp only [addMatch_MultiKills]
    cases GoMap.get? m₁.MultiKills n₁ with
    | none => rfl
    | some mk₁ =>
      cases GoMap.get? m₂.MultiKills n₂ with
      | none => rfl
      | some mk₂ =>
        simp only
        rw [← List.foldl_append, ← List.foldl_append]
        exact foldl_addOccurrences_perm List.perm_append_comm _ _ (fun _ => rfl) count

/-- C21: for every list of target names and any two lists of per-match records that are
rearrangements of each other, the two results of `AnalyzeMatches` have the same value in
every numeric field, and their maps `Agents` and `MultiKills` have the same keys with the
same values. -/
theorem AnalyzeMatches_perm (playerNames : List String) (matchList₁ matchList₂ : List MatchData)
    (hperm : matchList₁.Perm matchList₂) :
    SameStats (AnalyzeMatches matchList₁ playerNames) (AnalyzeMatches matchList₂ playerNames) := by
  unfold AnalyzeMatches
  refine foldl_perm_rel SameStats (analyzeMatch playerNames) sameStats_refl
    (fun _ _ _ h₁ h₂ => sameStats_trans h₁ h₂) ?_ ?_ hperm emptyStats emptyStats
    (sameStats_refl _)
  · intro s t mtch h
    rcases analyzeMatch_cases playerNames mtch with hskip | ⟨n, p, -, -, hadd⟩
    · rw [hskip, hskip]
      exact h
    · rw [hadd, hadd]
      exact SameStats_addMatch_congr s t mtch n p h
  · intro s m₁ m₂
    rcases analyzeMatch_cases playerNames m₁ with hskip₁ | ⟨n₁, p₁, -, -, hadd₁⟩
    · rw [hskip₁, hskip₁]
      exact sameStats_refl _
    · rcases analyzeMatch_cases playerNames m₂ with hskip₂ | ⟨n₂, p₂, -, -, hadd₂⟩
      · rw [hskip₂, hskip₂]
        exact sameStats_refl _
      · rw [hadd₁, hadd₂, hadd₂, hadd₁]
        exact SameStats_addMatch_swap s m₁ m₂ n₁ n₂ p₁ p₂

/-- Witness for C21: the record of `A` and `B` and the record of `C`, in both orders, for
the target names `A` and `C`. -/
theorem AnalyzeMatches_perm_witness :
    SameStats (AnalyzeMatches [exampleMatch, exampleRecordOfC] ["A", "C"])
      (AnalyzeMatches [exampleRecordOfC, exampleMatch] ["A", "C"]) :=
  AnalyzeMatches_perm ["A", "C"] [exampleMatch, exampleRecordOfC]
    [exampleRecordOfC, exampleMatch] (List.Perm.swap _ _ _)

/-! ## C23: monotone totals -/

theorem analyzeMatch_eq_addedBy (playerNames : List String) (stats : PlayerStats)
    (mtch : MatchData) :
    analyzeMatch playerNames stats mtch
      = match addedBy playerNames mtch with
        | some e => addMatch stats mtch e.1 e.2
        | none => stats := by
  unfold analyzeMatch addedBy
  cases playerNames.find? (fun playerName => (GoMap.get? mtch.PlayerData playerName).isSome) with
  | none => rfl
  | some playerName =>
    simp only
    cases GoMap.get? mtch.PlayerData playerName <;> rfl

theorem le_goAdd {total value : Int} (h0 : 0 ≤ value) (hfit : IsGoInt (total + value)) :
    total ≤ goAdd total value := by
  rw [goAdd_eq_add hfit]
  omega

theorem le_addIfPresent {total : Int} (m : GoMap String Int) (k : String)
    (h0 : 0 ≤ GoMap.getD m k 0) (hfit : IsGoInt (total + GoMap.getD m k 0)) :
    total ≤ addIfPresent total m k := by
  unfold addIfPresent
  unfold GoMap.getD at h0 hfit
  cases hget : GoMap.get? m k with
  | none => exact le_refl _
  | some v =>
    rw [hget] at h0 hfit
    exact le_goAdd h0 hfit

theorem getD_addOccurrences (multi : GoMap Int Int) (e : Int × Int) (k : Int) :
    GoMap.getD (addOccurrences multi e) k 0
      = if k = e.1 then goAdd (GoMap.getD multi e.1 0) e.2 else GoMap.getD multi k 0 := by
  unfold addOccurrences
  rw [GoMap.getD_set]

/-- The totals of `MultiKills` do not decrease over a loop that adds non-negative values
without overflow. -/
theorem le_getD_foldl_addOccurrences (mk : GoMap Int Int) (multi : GoMap Int Int)
    (hnd : (GoMap.keys mk).Nodup)
    (hfit : ∀ e ∈ mk, 0 ≤ e.2 ∧ IsGoInt (GoMap.getD multi e.1 0 + e.2)) (k : Int) :
    GoMap.getD multi k 0 ≤ GoMap.getD (mk.foldl addOccurrences multi) k 0 := by
  induction mk generalizing multi with
  | nil => exact le_refl _
  | cons e rest ih =>
    simp only [GoMap.keys, List.map_cons, List.nodup_cons] at hnd
    rw [List.foldl_cons]
    have hrest : ∀ e' ∈ rest,
        0 ≤ e'.2 ∧ IsGoInt (GoMap.getD (addOccurrences multi e) e'.1 0 + e'.2) := by
      intro e' he'
      have hne : ¬ e'.1 = e.1 := fun h => hnd.1 (h ▸ List.mem_map.mpr ⟨e', he', rfl⟩)
      rw [getD_addOccurrences, if_neg hne]
      exact hfit e' (List.mem_cons_of_mem _ he')
    refine le_trans ?_ (ih (addOccurrences multi e) (by simpa [GoMap.keys] using hnd.2) hrest)
    rw [getD_addOccurrences]
    split
    · rename_i hk
      subst hk
      exact le_goAdd (hfit e (List.mem_cons_self _ _)).1 (hfit e (List.mem_cons_self _ _)).2
    · exact le_refl _

theorem statsLe_refl (s : PlayerStats) : StatsLe s s := by
  refine ⟨?_, fun _ => le_refl _, fun _ => le_refl _⟩
  simp only [numericFields, sumFields, List.forall₂_cons, le_refl, true_and]
  exact List.Forall₂.nil

/-- The totals after a match that adds non-negative values without overflow. -/
theorem StatsLe_addMatch (stats : PlayerStats) (mtch : MatchData) (playerName : String)
    (playerMatchStats : PlayerMatchStats)
    (h : AddsWithoutOverflow stats mtch playerName playerMatchStats) :
    StatsLe stats (addMatch stats mtch playerName playerMatchStats) := by
  obtain ⟨hsum, hnd, hmk⟩ := h
  refine ⟨?_, fun agent => ?_, fun count => ?_⟩
  · simp only [sumFields, addedValues, List.zip_cons_cons, List.zip_nil_right,
      List.forall_mem_cons] at hsum
    obtain ⟨⟨a1, b1⟩, ⟨a2, b2⟩, ⟨a3, b3⟩, ⟨a4, b4⟩, ⟨a5, b5⟩, ⟨a6, b6⟩, ⟨a7, b7⟩, ⟨a8, b8⟩,
      ⟨a9, b9⟩, ⟨a10, b10⟩, ⟨a11, b11⟩, ⟨a12, b12⟩, ⟨a13, b13⟩, ⟨a14, b14⟩, ⟨a15, b15⟩,
      ⟨a16, b16⟩, ⟨a17, b17⟩, ⟨a18, b18⟩, ⟨a19, b19⟩, ⟨a20, b20⟩, ⟨a21, b21⟩, ⟨a22, b22⟩, -⟩ :=
      hsum
    simp only [numericFields, sumFields, addMatch, List.forall₂_cons]
    exact ⟨by split_ifs <;> omega, by split_ifs <;> omega, by omega,
      le_goAdd a1 b1, le_goAdd a2 b2, le_goAdd a3 b3, le_goAdd a4 b4, le_goAdd a5 b5,
      le_goAdd a6 b6, le_goAdd a7 b7, le_goAdd a8 b8, le_goAdd a9 b9, le_goAdd a10 b10,
      le_addIfPresent _ _ a11 b11, le_addIfPresent _ _ a12 b12, le_addIfPresent _ _ a13 b13,
      le_goAdd a14 b14, le_goAdd a15 b15, le_goAdd a16 b16, le_goAdd a17 b17,
      le_goAdd a18 b18, le_goAdd a19 b19, le_goAdd a20 b20, le_goAdd a21 b21,
      le_addIfPresent _ _ a22 b22, List.Forall₂.nil⟩
  · rw [addMatch_Agents]
    split
    · rw [GoMap.getD_incr]
      split <;> omega
    · exact le_refl _
  · rw [addMatch_MultiKills]
    cases hget : GoMap.get? mtch.MultiKills playerName with
    | none => exact le_refl _
    | some mk =>
      simp only [GoMap.getD, hget, Option.getD_some] at hnd hmk
      exact le_getD_foldl_addOccurrences mk stats.MultiKills hnd hmk count

/-- C23, as the code has it: for every list of records `ms`, every further record `m` and
every list of target names, the counters `Wins`, `Losses` and `TotalGames` and the entries of
`Agents` of `AnalyzeMatches (ms ++ [m])` are not smaller than in `AnalyzeMatches ms`; and
when every value that `m` adds to a total is non-negative and its sum with the total fits in
Go's `int`, no numeric field and no entry of `Agents` or `MultiKills` is smaller. -/
theorem AnalyzeMatches_monotone (matchList : List MatchData) (mtch : MatchData)
    (playerNames : List String) :
    ((AnalyzeMatches matchList playerNames).Wins
        ≤ (AnalyzeMatches (matchList ++ [mtch]) playerNames).Wins ∧
      (AnalyzeMatches matchList playerNames).Losses
        ≤ (AnalyzeMatches (matchList ++ [mtch]) playerNames).Losses ∧
      (AnalyzeMatches matchList playerNames).TotalGames
        ≤ (AnalyzeMatches (matchList ++ [mtch]) playerNames).TotalGames ∧
      ∀ agent, GoMap.getD (AnalyzeMatches matchList playerNames).Agents agent 0
        ≤ GoMap.getD (AnalyzeMatches (matchList ++ [mtch]) playerNames).Agents agent 0) ∧
    ((∀ e ∈ addedBy playerNames mtch,
        AddsWithoutOverflow (AnalyzeMatches matchList playerNames) mtch e.1 e.2) →
      StatsLe (AnalyzeMatches matchList playerNames)
        (AnalyzeMatches (matchList ++ [mtch]) playerNames)) := by
  have hstep : AnalyzeMatches (matchList ++ [mtch]) playerNames
      = analyzeMatch playerNames (AnalyzeMatches matchList playerNames) mtch := by
    simp [AnalyzeMatches, List.foldl_append]
  rw [hstep, analyzeMatch_eq_addedBy]
  cases hadded : addedBy playerNames mtch with
  | none =>
    simp only
    exact ⟨⟨le_refl _, le_refl _, le_refl _, fun _ => le_refl _⟩, fun _ => statsLe_refl _⟩
  | some e =>
    simp only
    refine ⟨⟨?_, ?_, ?_, fun agent => ?_⟩, fun hfit => ?_⟩
    · simp only [addMatch]
      split_ifs <;> omega
    · simp only [addMatch]
      split_ifs <;> omega
    · simp only [addMatch]
      omega
    · rw [addMatch_Agents]
      split
      · rw [GoMap.getD_incr]
        split <;> omega
      · exact le_refl _
    · exact StatsLe_addMatch _ mtch e.1 e.2 (hfit e rfl)

/-- Witness for C23: the record of `C` (7 kills, 20 rounds) added after another record of
`C`. -/
theorem AnalyzeMatches_monotone_witness :
    StatsLe (AnalyzeMatches [exampleRecordOfC] ["C"])
      (AnalyzeMatches ([exampleRecordOfC] ++ [exampleRecordOfC]) ["C"]) :=
  (AnalyzeMatches_monotone [exampleRecordOfC] exampleRecordOfC ["C"]).2 (by decide)

/-- Counterexample to C23: a record with a negative per-match value lowers the total
(`Kills` goes from 0 to -1), and so does a value that makes the total overflow (`Kills`
goes from `2^63 - 1` to `-2^63`). -/
theorem AnalyzeMatches_total_can_decrease :
    (AnalyzeMatches ([] ++ [exampleRecordWithKills (-1)]) ["A"]).Kills
      < (AnalyzeMatches [] ["A"]).Kills ∧
    (AnalyzeMatches ([exampleRecordWithKills (2 ^ 63 - 1)] ++ [exampleRecordWithKills 1])
        ["A"]).Kills
      < (AnalyzeMatches [exampleRecordWithKills (2 ^ 63 - 1)] ["A"]).Kills ∧
    (AnalyzeMatches ([exampleRecordWithKills (2 ^ 63 - 1)] ++ [exampleRecordWithKills 1])
        ["A"]).Kills = -(2 ^ 63) := by
  refine ⟨by decide, by decide, by decide⟩

/-! ## C24: the keys of the derived maps are tracked players of the match -/

theorem foldl_invariant {α β : Type} (Inv : α → Prop) (f : α → β → α) (l : List β)
    (h : ∀ a, ∀ b ∈ l, Inv a → Inv (f a b)) (a : α) (ha : Inv a) : Inv (l.foldl f a) := by
  induction l generalizing a with
  | nil => exact ha
  | cons b rest ih =>
    rw [List.foldl_cons]
    exact ih (fun a' b' hb' => h a' b' (List.mem_cons_of_mem _ hb')) _
      (h a b (List.mem_cons_self _ _) ha)

theorem GoMap.forall_keys_set {κ ν : Type} [DecidableEq κ] (P : κ → Prop) (m : GoMap κ ν)
    (k : κ) (v : ν) (hk : P k) (hm : ∀ x ∈ GoMap.keys m, P x) :
    ∀ x ∈ GoMap.keys (GoMap.set m k v), P x := by
  intro x hx
  rcases (GoMap.mem_keys_set m k x v).mp hx with h | h
  · exact h ▸ hk
  · exact hm x h

theorem GoMap.forall_keys_incr {κ : Type} [DecidableEq κ] (P : κ → Prop) (m : GoMap κ Int)
    (k : κ) (hk : P k) (hm : ∀ x ∈ GoMap.keys m, P x) :
    ∀ x ∈ GoMap.keys (GoMap.incr m k), P x :=
  GoMap.forall_keys_set P m k _ hk hm

theorem forall_keys_nil {κ ν : Type} (P : κ → Prop) :
    ∀ x ∈ GoMap.keys ([] : GoMap κ ν), P x := by
  intro x hx
  simp [GoMap.keys] at hx

/-- Every name stored by `BuildStackNamesByPUUID` is the canonical name of a tracked player
of the player list. -/
theorem BuildStackNamesByPUUID_values (svc : AnalyticsService) (players : List V4MatchPlayer)
    (e : String × String) (he : e ∈ BuildStackNamesByPUUID svc players) :
    e.2 ∈ trackedNames svc players := by
  unfold BuildStackNamesByPUUID at he
  refine foldl_invariant
    (fun (mapping : GoMap String String) => ∀ e ∈ mapping, e.2 ∈ trackedNames svc players)
    _ players ?_ [] (by simp) e he
  intro mapping player hplayer hmapping
  simp only
  split
  · rename_i hname
    intro e' he'
    rcases GoMap.mem_set mapping _ _ e' he' with h | h
    · rw [h]
      unfold trackedNames
      exact List.mem_filter.mpr ⟨List.mem_map.mpr ⟨player, hplayer, rfl⟩, by simpa using hname⟩
    · exact hmapping e' h
  · exact hmapping

/-- A non-empty name found under a PUUID is a key of the map of the tracked players. -/
theorem getD_names_mem_keys (svc : AnalyticsService) (players : List V4MatchPlayer)
    (puuid : String)
    (h : GoMap.getD (BuildStackNamesByPUUID svc players) puuid "" ≠ "") :
    GoMap.getD (BuildStackNamesByPUUID svc players) puuid ""
      ∈ GoMap.keys (GetStackPlayers svc players) := by
  unfold GoMap.getD at h ⊢
  cases hget : GoMap.get? (BuildStackNamesByPUUID svc players) puuid with
  | none => simp [hget] at h
  | some name =>
    simp only [Option.getD_some]
    have hmem := BuildStackNamesByPUUID_values svc players (puuid, name)
      (GoMap.mem_of_get? _ _ _ hget)
    have hkeys := (keys_foldl_GetStackPlayers svc players [] (by simp [GoMap.keys])).2 name
    exact hkeys.mpr (Or.inr hmem)

/-- The killer and victim names of the events of the timeline are the names found under
their PUUIDs. -/
theorem names_of_mem_BuildKillEvents (sortSlice : SortSlice)
    (hsort : SortsBy sortSlice lessByTime) (kills : List V4KillEventResponse)
    (names : GoMap String String) (e : Int × List KillEvent)
    (he : e ∈ BuildKillEvents sortSlice kills names) (ev : KillEvent) (hev : ev ∈ e.2) :
    ev.KillerName = GoMap.getD names ev.KillerPUUID "" ∧
    ev.VictimName = GoMap.getD names ev.VictimPUUID "" := by
  obtain ⟨events, hmem, h2⟩ := mem_BuildKillEvents sortSlice kills names e he
  rw [h2] at hev
  have hev' : ev ∈ events := (hsort events).1.mem_iff.mp hev
  obtain ⟨kill, -, hkill⟩ := mem_groupKillEvents kills names (e.1, events) hmem ev hev'
  rw [hkill]
  exact ⟨rfl, rfl⟩

theorem forall_keys_killsThisRound (P : String → Prop) (events : List KillEvent)
    (h : ∀ ev ∈ events, ev.KillerName ≠ "" → P ev.KillerName) :
    ∀ name ∈ GoMap.keys (killsThisRound events), P name := by
  unfold killsThisRound
  refine foldl_invariant (fun (kills : GoMap String Int) => ∀ name ∈ GoMap.keys kills, P name)
    _ events ?_ [] (forall_keys_nil P)
  intro kills ev hev hkills
  split
  · exact hkills
  · rename_i hname
    exact GoMap.forall_keys_incr P kills _ (h ev hev hname) hkills

theorem forall_keys_ComputeMultiKills (P : String → Prop) (tl : Timeline)
    (h : ∀ e ∈ tl, ∀ ev ∈ e.2, ev.KillerName ≠ "" → P ev.KillerName) :
    ∀ name ∈ GoMap.keys (ComputeMultiKills tl), P name := by
  unfold ComputeMultiKills
  refine foldl_invariant
    (fun (multi : GoMap String (GoMap Int Int)) => ∀ name ∈ GoMap.keys multi, P name)
    _ tl ?_ [] (forall_keys_nil P)
  intro multi e he hmulti
  refine foldl_invariant
    (fun (multi : GoMap String (GoMap Int Int)) => ∀ name ∈ GoMap.keys multi, P name)
    bumpMulti (killsThisRound e.2) ?_ multi hmulti
  intro multi' entry hentry hmulti'
  unfold bumpMulti
  split
  · exact hmulti'
  · refine GoMap.forall_keys_set P multi' _ _ ?_ hmulti'
    exact forall_keys_killsThisRound P e.2 (h e he) entry.1
      (List.mem_map.mpr ⟨entry, hentry, rfl⟩)

theorem forall_keys_clutchesInRound (P : String → Prop) (events : List KillEvent)
    (alive : Roster) (clutches : GoMap String Int)
    (h : ∀ ev ∈ events, ev.KillerName ≠ "" → P ev.KillerName)
    (hc : ∀ name ∈ GoMap.keys clutches, P name) :
    ∀ name ∈ GoMap.keys (clutchesInRound events alive clutches), P name := by
  induction events generalizing alive clutches with
  | nil => exact hc
  | cons ev rest ih =>
    rw [clutchesInRound_cons]
    apply ih _ _ (fun ev' hev' => h ev' (List.mem_cons_of_mem _ hev'))
    split
    · rename_i hcond
      exact GoMap.forall_keys_incr P clutches _ (h ev (List.mem_cons_self _ _) hcond.1) hc
    · exact hc

theorem forall_keys_ComputeClutches (P : String → Prop) (tl : Timeline) (teamMembers : Roster)
    (h : ∀ e ∈ tl, ∀ ev ∈ e.2, ev.KillerName ≠ "" → P ev.KillerName) :
    ∀ name ∈ GoMap.keys (ComputeClutches tl teamMembers), P name := by
  unfold ComputeClutches
  refine foldl_invariant (fun (c : GoMap String Int) => ∀ name ∈ GoMap.keys c, P name)
    _ tl ?_ [] (forall_keys_nil P)
  intro c e he hc
  exact forall_keys_clutchesInRound P e.2 _ c (h e he) hc

/-- The keys after the loop that copies a map entry by entry. -/
theorem forall_keys_foldl_copy {ν : Type} (P : String → Prop) (src init : GoMap String ν)
    (hsrc : ∀ name ∈ GoMap.keys src, P name) (hinit : ∀ name ∈ GoMap.keys init, P name) :
    ∀ name ∈ GoMap.keys (src.foldl (fun (m : GoMap String ν) (e : String × ν) =>
      GoMap.set m e.1 e.2) init), P name := by
  refine foldl_invariant (fun (m : GoMap String ν) => ∀ name ∈ GoMap.keys m, P name)
    _ src ?_ init hinit
  intro m e he hm
  exact GoMap.forall_keys_set P m _ _ (hsrc e.1 (List.mem_map.mpr ⟨e, he, rfl⟩)) hm

theorem DerivedKeysIn_firstBloodStep (P : String → Prop) (m : MatchData)
    (e : Int × List KillEvent)
    (h : ∀ ev ∈ e.2, (ev.KillerName ≠ "" → P ev.KillerName) ∧
      (ev.VictimName ≠ "" → P ev.VictimName))
    (hm : DerivedKeysIn P m) : DerivedKeysIn P (firstBloodStep m e) := by
  obtain ⟨r, events⟩ := e
  cases events with
  | nil => exact hm
  | cons ev rest =>
    have hev := h ev (List.mem_cons_self _ _)
    simp only [firstBloodStep]
    by_cases hk : ev.KillerName ≠ "" <;> by_cases hv : ev.VictimName ≠ ""
    · simp only [if_pos hk, if_pos hv]
      exact { hm with
        FirstKills := GoMap.forall_keys_incr P _ _ (hev.1 hk) hm.FirstKills
        FirstDeaths := GoMap.forall_keys_incr P _ _ (hev.2 hv) hm.FirstDeaths }
    · simp only [if_pos hk, if_neg hv]
      exact { hm with FirstKills := GoMap.forall_keys_incr P _ _ (hev.1 hk) hm.FirstKills }
    · simp only [if_neg hk, if_pos hv]
      exact { hm with FirstDeaths := GoMap.forall_keys_incr P _ _ (hev.2 hv) hm.FirstDeaths }
    · simp only [if_neg hk, if_neg hv]
      exact hm

theorem forall_keys_kastRound (P : String → Prop) (trades : Trades)
    (playerData : GoMap String PlayerMatchStats) (round : Int) (events : List KillEvent)
    (kastRounds : GoMap String Int) (hPD : ∀ name ∈ GoMap.keys playerData, P name)
    (hk : ∀ name ∈ GoMap.keys kastRounds, P name) :
    ∀ name ∈ GoMap.keys (kastRound trades playerData round events kastRounds), P name := by
  unfold kastRound
  simp only
  refine foldl_invariant (fun (kast : GoMap String Int) => ∀ name ∈ GoMap.keys kast, P name)
    _ playerData ?_ kastRounds hk
  intro kast e he hkast
  split
  · exact GoMap.forall_keys_incr P kast _ (hPD e.1 (List.mem_map.mpr ⟨e, he, rfl⟩)) hkast
  · exact hkast

theorem DerivedKeysIn_CalculateKAST (P : String → Prop) (tl : Timeline) (trades : Trades)
    (m : MatchData) (hPD : ∀ name ∈ GoMap.keys m.PlayerData, P name)
    (hm : DerivedKeysIn P m) : DerivedKeysIn P (CalculateKAST tl trades m) := by
  unfold CalculateKAST
  exact { hm with
    KASTRounds := foldl_invariant
      (fun (kast : GoMap String Int) => ∀ name ∈ GoMap.keys kast, P name) _ tl
      (fun kast e _ hkast => forall_keys_kastRound P trades m.PlayerData e.1 e.2 kast hPD hkast)
      m.KASTRounds hm.KASTRounds }

theorem DerivedKeysIn_sideKill (P : String → Prop) (attackingByRound : GoMap Int String)
    (names : GoMap String String) (m : MatchData) (kill : V4KillEventResponse)
    (hnames : ∀ puuid, GoMap.getD names puuid "" ≠ "" → P (GoMap.getD names puuid ""))
    (hm : DerivedKeysIn P m) : DerivedKeysIn P (sideKill attackingByRound names m kill) := by
  unfold sideKill
  simp only
  split
  · exact hm
  · rename_i hcond
    have hk : GoMap.getD names kill.Killer.PUUID "" ≠ "" := fun h => hcond (Or.inl h)
    have hv : GoMap.getD names kill.Victim.PUUID "" ≠ "" := fun h => hcond (Or.inr h)
    split
    · exact { hm with
        AttackKills := GoMap.forall_keys_incr P _ _ (hnames _ hk) hm.AttackKills
        DefenseDeaths := GoMap.forall_keys_incr P _ _ (hnames _ hv) hm.DefenseDeaths }
    · exact { hm with
        DefenseKills := GoMap.forall_keys_incr P _ _ (hnames _ hk) hm.DefenseKills
        AttackDeaths := GoMap.forall_keys_incr P _ _ (hnames _ hv) hm.AttackDeaths }

theorem DerivedKeysIn_sideDamage (P : String → Prop) (attackingTeam : String)
    (names : GoMap String String) (m : MatchData) (stat : V4RoundStatsEntry)
    (hnames : ∀ puuid, GoMap.getD names puuid "" ≠ "" → P (GoMap.getD names puuid ""))
    (hm : DerivedKeysIn P m) : DerivedKeysIn P (sideDamage attackingTeam names m stat) := by
  unfold sideDamage
  simp only
  split
  · exact hm
  · rename_i hname
    split
    · exact { hm with
        AttackDamage := GoMap.forall_keys_set P _ _ _ (hnames _ hname) hm.AttackDamage
        AttackRounds := GoMap.forall_keys_incr P _ _ (hnames _ hname) hm.AttackRounds }
    · exact { hm with
        DefenseDamage := GoMap.forall_keys_set P _ _ _ (hnames _ hname) hm.DefenseDamage
        DefenseRounds := GoMap.forall_keys_incr P _ _ (hnames _ hname) hm.DefenseRounds }

theorem DerivedKeysIn_CalculateSideStats (P : String → Prop) (order : RangeOrder)
    (rounds : List V4Round) (kills : List V4KillEventResponse) (m : MatchData)
    (names : GoMap String String)
    (hnames : ∀ puuid, GoMap.getD names puuid "" ≠ "" → P (GoMap.getD names puuid ""))
    (hm : DerivedKeysIn P m) :
    DerivedKeysIn P (CalculateSideStats order rounds kills m names) := by
  unfold CalculateSideStats
  simp only
  split
  · exact hm
  · split
    · exact hm
    · refine foldl_invariant (DerivedKeysIn P) _ rounds ?_ _ ?_
      · intro m' round _ hm'
        exact foldl_invariant (DerivedKeysIn P) _ round.Stats
          (fun m'' stat _ hm'' => DerivedKeysIn_sideDamage P _ names m'' stat hnames hm'') m' hm'
      · exact foldl_invariant (DerivedKeysIn P) _ kills
          (fun m' kill _ hm' => DerivedKeysIn_sideKill P _ names m' kill hnames hm') m hm

theorem PlayerData_recordBeforeSides (sortSlice : SortSlice) (svc : AnalyticsService)
    (fullMatch : V4MatchResponse) :
    (recordBeforeSides sortSlice svc fullMatch).PlayerData
      = GetStackPlayers svc fullMatch.Players := by
  have h := baseFields_recordBeforeSides sortSlice svc fullMatch
  simp only [baseFields, Prod.mk.injEq] at h
  exact h.2.2.2.1

theorem DerivedKeysIn_copyMultiKills (P : String → Prop) (m : MatchData)
    (multiKills : GoMap String (GoMap Int Int)) (hm : DerivedKeysIn P m)
    (h : ∀ name ∈ GoMap.keys multiKills, P name) :
    DerivedKeysIn P { m with
      MultiKills := multiKills.foldl
        (fun (mk : GoMap String (GoMap Int Int)) (e : String × GoMap Int Int) =>
          GoMap.set mk e.1 e.2) m.MultiKills } :=
  { hm with MultiKills := forall_keys_foldl_copy P multiKills m.MultiKills h hm.MultiKills }

theorem DerivedKeysIn_copyClutches (P : String → Prop) (m : MatchData)
    (clutches : GoMap String Int) (hm : DerivedKeysIn P m)
    (h : ∀ name ∈ GoMap.keys clutches, P name) :
    DerivedKeysIn P { m with
      Clutches := clutches.foldl
        (fun (c : GoMap String Int) (e : String × Int) => GoMap.set c e.1 e.2) m.Clutches } :=
  { hm with Clutches := forall_keys_foldl_copy P clutches m.Clutches h hm.Clutches }

theorem DerivedKeysIn_setWon (P : String → Prop) (m : MatchData) (won : Bool)
    (hm : DerivedKeysIn P m) : DerivedKeysIn P { m with Won := won } :=
  { hm with }

/-- The keys of the derived maps of the record handed to `CalculateSideStats`. -/
theorem DerivedKeysIn_recordBeforeSides (P : String → Prop) (sortSlice : SortSlice)
    (svc : AnalyticsService) (fullMatch : V4MatchResponse)
    (hgood : ∀ e ∈ BuildKillEvents sortSlice fullMatch.Kills
        (BuildStackNamesByPUUID svc fullMatch.Players),
      ∀ ev ∈ e.2, (ev.KillerName ≠ "" → P ev.KillerName) ∧
        (ev.VictimName ≠ "" → P ev.VictimName))
    (hPD : ∀ name ∈ GoMap.keys (GetStackPlayers svc fullMatch.Players), P name) :
    DerivedKeysIn P (recordBeforeSides sortSlice svc fullMatch) := by
  have hPD' : ∀ name ∈ GoMap.keys (recordBeforeSides sortSlice svc fullMatch).PlayerData,
      P name := by
    rw [PlayerData_recordBeforeSides]
    exact hPD
  have hkiller : ∀ e ∈ BuildKillEvents sortSlice fullMatch.Kills
      (BuildStackNamesByPUUID svc fullMatch.Players),
      ∀ ev ∈ e.2, ev.KillerName ≠ "" → P ev.KillerName :=
    fun e he ev hev => (hgood e he ev hev).1
  unfold recordBeforeSides at hPD' ⊢
  refine DerivedKeysIn_CalculateKAST P _ _ _ hPD' ?_
  unfold CalculateFirstKillsAndDeaths
  refine foldl_invariant (DerivedKeysIn P) firstBloodStep _
    (fun m e he hm => DerivedKeysIn_firstBloodStep P m e (hgood e he) hm) _ ?_
  refine DerivedKeysIn_copyClutches P _ _ ?_ (forall_keys_ComputeClutches P _ _ hkiller)
  refine DerivedKeysIn_copyMultiKills P _ _ ?_ (forall_keys_ComputeMultiKills P _ hkiller)
  refine DerivedKeysIn_setWon P _ _ ?_
  refine foldl_invariant (DerivedKeysIn P) _ fullMatch.Players ?_ _
    ⟨forall_keys_nil P, forall_keys_nil P, forall_keys_nil P, forall_keys_nil P,
      forall_keys_nil P, forall_keys_nil P, forall_keys_nil P, forall_keys_nil P,
      forall_keys_nil P, forall_keys_nil P, forall_keys_nil P, forall_keys_nil P,
      forall_keys_nil P⟩
  intro m player _ hm
  simp only
  split
  · exact hm
  · exact { hm with }

theorem victim_of_roundFlags (w : Int) (events : List KillEvent) (n : String)
    (h : roundFlags w events n = true) : ∃ ev ∈ events, ev.VictimName = n ∧ n ≠ "" := by
  induction events with
  | nil => simp [roundFlags] at h
  | cons ev rest ih =>
    unfold roundFlags at h
    rw [Bool.or_eq_true] at h
    rcases h with h | h
    · simp only [Bool.and_eq_true, decide_eq_true_eq] at h
      exact ⟨ev, List.mem_cons_self _ _, h.1.1, h.1.2⟩
    · obtain ⟨ev', hev', hn⟩ := ih h
      exact ⟨ev', List.mem_cons_of_mem _ hev', hn⟩

/-- C24: for every accepted match, with a `sort.Slice` that does what its documentation
promises: every key of the map `PlayerData` of the record is a non-empty canonical name of
a player of the match; every key of each derived per-player map of the record
(`FirstKills`, `FirstDeaths`, `KASTRounds`, `MultiKills`, `Clutches` and the eight side maps)
is a key of `PlayerData`; and so is every name flagged by `ComputeTrades` on the timeline
of the match. -/
theorem ProcessMatchDetails_keys_tracked (sortSlice : SortSlice)
    (hsort : SortsBy sortSlice lessByTime) (order : RangeOrder) (svc : AnalyticsService)
    (fullMatch : V4MatchResponse) (minStackPlayers : Int) (record : MatchData)
    (haccepted : ProcessMatchDetails sortSlice order svc (ApiMatch.v4 fullMatch) minStackPlayers
      = some record) :
    (∀ name ∈ GoMap.keys record.PlayerData,
      name ≠ "" ∧ ∃ player ∈ fullMatch.Players,
        GetPlayerName svc player.Name player.Tag = name) ∧
    DerivedKeysIn (fun name => name ∈ GoMap.keys record.PlayerData) record ∧
    (∀ round name,
      Trades.flagged (ComputeTrades svc (BuildKillEvents sortSlice fullMatch.Kills
        (BuildStackNamesByPUUID svc fullMatch.Players))) round name = true →
      name ∈ GoMap.keys record.PlayerData) := by
  have hPD := PlayerData_of_accepted sortSlice order svc fullMatch minStackPlayers record
    haccepted
  rw [hPD]
  have hgood : ∀ e ∈ BuildKillEvents sortSlice fullMatch.Kills
      (BuildStackNamesByPUUID svc fullMatch.Players),
      ∀ ev ∈ e.2,
        (ev.KillerName ≠ "" → ev.KillerName ∈ GoMap.keys (GetStackPlayers svc fullMatch.Players)) ∧
        (ev.VictimName ≠ "" →
          ev.VictimName ∈ GoMap.keys (GetStackPlayers svc fullMatch.Players)) := by
    intro e he ev hev
    obtain ⟨hk, hv⟩ := names_of_mem_BuildKillEvents sortSlice hsort fullMatch.Kills _ e he ev hev
    rw [hk, hv]
    exact ⟨getD_names_mem_keys svc fullMatch.Players _,
      getD_names_mem_keys svc fullMatch.Players _⟩
  refine ⟨?_, ?_, ?_⟩
  · intro name hname
    have hkeys := (keys_foldl_GetStackPlayers svc fullMatch.Players []
      (by simp [GoMap.keys])).2 name
    unfold GetStackPlayers at hname
    rcases hkeys.mp hname with h | h
    · simp [GoMap.keys] at h
    · unfold trackedNames at h
      obtain ⟨hmem, hne⟩ := List.mem_filter.mp h
      obtain ⟨player, hplayer, hp⟩ := List.mem_map.mp hmem
      exact ⟨by simpa using hne, player, hplayer, hp⟩
  · rw [ProcessMatchDetails_v4] at haccepted
    split at haccepted
    · exact absurd haccepted (by simp)
    · rw [← Option.some.inj haccepted]
      exact DerivedKeysIn_CalculateSideStats _ order _ _ _ _
        (fun puuid h => getD_names_mem_keys svc fullMatch.Players puuid h)
        (DerivedKeysIn_recordBeforeSides _ sortSlice svc fullMatch hgood (fun _ h => h))
  · intro round name hflag
    obtain ⟨events, hmem, hflags⟩ := (flagged_ComputeTrades svc _ round name).mp hflag
    obtain ⟨ev, hev, hvictim, hne⟩ := victim_of_roundFlags _ events name hflags
    have h := (hgood (round, events) hmem ev hev).2 (by rw [hvictim]; exact hne)
    rw [hvictim] at h
    exact h

/-- Witness for C24: `exampleSideMatch`, accepted with a minimum of two tracked players. -/
theorem ProcessMatchDetails_keys_tracked_witness :
    (∀ name ∈ GoMap.keys (CalculateSideStats RangeOrder.listOrder exampleSideMatch.Rounds
        exampleSideMatch.Kills (recordBeforeSides stableSort exampleService exampleSideMatch)
        exampleSideNames).PlayerData,
      name ≠ "" ∧ ∃ player ∈ exampleSideMatch.Players,
        GetPlayerName exampleService player.Name player.Tag = name) ∧
    DerivedKeysIn
      (fun name => name ∈ GoMap.keys (CalculateSideStats RangeOrder.listOrder
        exampleSideMatch.Rounds exampleSideMatch.Kills
        (recordBeforeSides stableSort exampleService exampleSideMatch)
        exampleSideNames).PlayerData)
      (CalculateSideStats RangeOrder.listOrder exampleSideMatch.Rounds exampleSideMatch.Kills
        (recordBeforeSides stableSort exampleService exampleSideMatch) exampleSideNames) ∧
    (∀ round name,
      Trades.flagged (ComputeTrades exampleService (BuildKillEvents stableSort
        exampleSideMatch.Kills
        (BuildStackNamesByPUUID exampleService exampleSideMatch.Players))) round name = true →
      name ∈ GoMap.keys (CalculateSideStats RangeOrder.listOrder exampleSideMatch.Rounds
        exampleSideMatch.Kills (recordBeforeSides stableSort exampleService exampleSideMatch)
        exampleSideNames).PlayerData) :=
  ProcessMatchDetails_keys_tracked stableSort sortsBy_stableSort RangeOrder.listOrder
    exampleService exampleSideMatch 2 _ (by rfl)

/-! ## C31: the win flag and the rounds played -/

theorem any_tracked_iff (svc : AnalyticsService) (players : List V4MatchPlayer)
    (team : V4Team) :
    players.any (fun player =>
        decide (player.TeamID = team.TeamID) &&
          decide (GetPlayerName svc player.Name player.Tag ≠ "")) = true
      ↔ HasTrackedPlayer svc players team := by
  unfold HasTrackedPlayer
  simp only [List.any_eq_true, Bool.and_eq_true, decide_eq_true_eq]

/-- The flag of `stackTeamWon` is the one of the first listed team with a tracked player. -/
theorem stackTeamWon_first (svc : AnalyticsService) (players : List V4MatchPlayer)
    (pre : List V4Team) (team : V4Team) (post : List V4Team)
    (hpre : ∀ t ∈ pre, ¬ HasTrackedPlayer svc players t)
    (hteam : HasTrackedPlayer svc players team) :
    stackTeamWon svc players (pre ++ team :: post) = team.Won := by
  induction pre with
  | nil =>
    simp only [List.nil_append, stackTeamWon]
    rw [if_pos ((any_tracked_iff svc players team).mpr hteam)]
  | cons t rest ih =>
    have hnot : ¬ players.any (fun player =>
        decide (player.TeamID = t.TeamID) &&
          decide (GetPlayerName svc player.Name player.Tag ≠ "")) = true :=
      fun h => hpre t (List.mem_cons_self _ _) ((any_tracked_iff svc players t).mp h)
    simp only [List.cons_append, stackTeamWon]
    rw [if_neg hnot]
    exact ih (fun t' ht' => hpre t' (List.mem_cons_of_mem _ ht'))

theorem stackTeamWon_none (svc : AnalyticsService) (players : List V4MatchPlayer)
    (teams : List V4Team) (h : ∀ t ∈ teams, ¬ HasTrackedPlayer svc players t) :
    stackTeamWon svc players teams = false := by
  induction teams with
  | nil => rfl
  | cons t rest ih =>
    have hnot : ¬ players.any (fun player =>
        decide (player.TeamID = t.TeamID) &&
          decide (GetPlayerName svc player.Name player.Tag ≠ "")) = true :=
      fun h' => h t (List.mem_cons_self _ _) ((any_tracked_iff svc players t).mp h')
    simp only [stackTeamWon]
    rw [if_neg hnot]
    exact ih (fun t' ht' => h t' (List.mem_cons_of_mem _ ht'))

/-- C31: for every accepted match, the `Won` flag of the record is the `Won` value of the
first team of the payload's team list that has at least one tracked player (`team`, with no
such team before it in the list), and it is false when no listed team has a tracked
player; `RoundsPlayed` is the length of the round list. -/
theorem ProcessMatchDetails_won_and_rounds (sortSlice : SortSlice) (order : RangeOrder)
    (svc : AnalyticsService) (fullMatch : V4MatchResponse) (minStackPlayers : Int)
    (record : MatchData)
    (haccepted : ProcessMatchDetails sortSlice order svc (ApiMatch.v4 fullMatch) minStackPlayers
      = some record) :
    (∀ pre team post, fullMatch.Teams = pre ++ team :: post →
      (∀ t ∈ pre, ¬ HasTrackedPlayer svc fullMatch.Players t) →
      HasTrackedPlayer svc fullMatch.Players team → record.Won = team.Won) ∧
    ((∀ t ∈ fullMatch.Teams, ¬ HasTrackedPlayer svc fullMatch.Players t) →
      record.Won = false) ∧
    record.RoundsPlayed = (fullMatch.Rounds.length : Int) := by
  have h := baseFields_of_accepted sortSlice order svc fullMatch minStackPlayers record haccepted
  simp only [baseFields, Prod.mk.injEq] at h
  obtain ⟨-, -, -, -, -, hwon, hrounds, -⟩ := h
  refine ⟨?_, ?_, ?_⟩
  · intro pre team post hteams hpre hteam
    rw [hwon, hteams]
    exact stackTeamWon_first svc fullMatch.Players pre team post hpre hteam
  · intro hnone
    rw [hwon]
    exact stackTeamWon_none svc fullMatch.Players fullMatch.Teams hnone
  · rw [hrounds]
    rfl

/-- Witness for C31: `exampleMalformedMatch`, whose first team, Red, has the tracked player
`A` and won. -/
theorem ProcessMatchDetails_won_and_rounds_witness :
    (ProcessMatchDetails stableSort RangeOrder.listOrder exampleService
        (ApiMatch.v4 exampleMalformedMatch) 2).map (fun m => (m.Won, m.RoundsPlayed))
      = some (true, 1) ∧
    ∀ record, ProcessMatchDetails stableSort RangeOrder.listOrder exampleService
        (ApiMatch.v4 exampleMalformedMatch) 2 = some record →
      record.Won = true ∧ record.RoundsPlayed = 1 :=
  ⟨by decide, fun record haccepted =>
    ⟨(ProcessMatchDetails_won_and_rounds stableSort RangeOrder.listOrder exampleService
        exampleMalformedMatch 2 record haccepted).1 []
        { TeamID := "Red", RoundsWon := 1, RoundsLost := 0, Won := true }
        [{ TeamID := "Blue", RoundsWon := 0, RoundsLost := 1, Won := false }] rfl
        (by simp) ⟨examplePlayer "pa" "alpha" "1" "Red", by decide, rfl, by decide⟩,
     (ProcessMatchDetails_won_and_rounds stableSort RangeOrder.listOrder exampleService
        exampleMalformedMatch 2 record haccepted).2.2⟩⟩

/-! ## C32: at most one clutch on a roster of two teams -/

theorem aliveCount_foldl_removeVictim_zero (pre : List KillEvent) (alive : Roster) (t : String)
    (h : aliveCount alive t = 0) : aliveCount (pre.foldl removeVictim alive) t = 0 := by
  induction pre generalizing alive with
  | nil => exact h
  | cons ev rest ih =>
    rw [List.foldl_cons]
    exact ih _ (aliveCount_removeVictim_zero alive ev t h)

/-- C32: for every roster with exactly the two teams `teamA` and `teamB` and every
single-round timeline in which the killer and the victim of each event are on the two
different teams, `ComputeClutches` credits at most one clutch in total; and once the alive
set of one of the two teams is empty (after the events `pre`), the later events of the round
(`rest`) earn no credit. -/
theorem ComputeClutches_two_teams (teamMembers : Roster) (teamA teamB : String)
    (round : Int) (events : List KillEvent)
    (hroster : TwoTeamRoster teamMembers teamA teamB)
    (hevents : ∀ ev ∈ events, OpposingTeams teamA teamB ev) :
    totalCredits (ComputeClutches [(round, events)] teamMembers) ≤ 1 ∧
    ∀ pre rest, events = pre ++ rest →
      (aliveCount (aliveBefore teamMembers events pre.length) teamA = 0 ∨
        aliveCount (aliveBefore teamMembers events pre.length) teamB = 0) →
      totalCredits (ComputeClutches [(round, events)] teamMembers)
        = totalCredits (ComputeClutches [(round, pre)] teamMembers) := by
  obtain ⟨hne, -, -, hkeys⟩ := hroster
  have hopp : ∀ ev ∈ events, ev.KillerTeam ≠ ev.VictimTeam := by
    intro ev hev
    rcases hevents ev hev with ⟨hk, hv⟩ | ⟨hk, hv⟩
    · rw [hk, hv]
      exact hne
    · rw [hk, hv]
      exact Ne.symm hne
  have hother : ∀ t, t ≠ teamA → t ≠ teamB →
      aliveCount (CloneTeamMembers teamMembers) t = 0 := by
    intro t hta htb
    apply aliveCount_CloneTeamMembers_of_not_mem
    intro hmem
    rcases hkeys t hmem with h | h
    · exact hta h
    · exact htb h
  constructor
  · unfold ComputeClutches
    simp only [List.foldl_cons, List.foldl_nil]
    have h := totalCredits_clutchesInRound_le teamA teamB events _ [] hother hopp
    simpa [totalCredits] using h
  · intro pre rest hsplit hempty
    subst hsplit
    rw [aliveBefore_append_length] at hempty
    unfold ComputeClutches
    simp only [List.foldl_cons, List.foldl_nil]
    rw [clutchesInRound_append]
    have hrest : ∀ ev ∈ rest, ev.KillerTeam ≠ ev.VictimTeam :=
      fun ev hev => hopp ev (List.mem_append_right _ hev)
    rcases hempty with hA | hB
    · apply totalCredits_clutchesInRound_of_single teamB rest _ _ _ hrest
      intro t ht
      by_cases hta : t = teamA
      · rw [hta]
        exact hA
      · exact aliveCount_foldl_removeVictim_zero pre _ t (hother t hta ht)
    · apply totalCredits_clutchesInRound_of_single teamA rest _ _ _ hrest
      intro t ht
      by_cases htb : t = teamB
      · rw [htb]
        exact hB
      · exact aliveCount_foldl_removeVictim_zero pre _ t (hother t ht htb)

/-- Witness for C32: the round of nine kills on `exampleFiveRoster` that ends with `A`
killing the last Blue player. -/
theorem ComputeClutches_two_teams_witness :
    totalCredits (ComputeClutches
        [(0, exampleRoundStart ++ [exampleKillOfB4, exampleKillOfB5])] exampleFiveRoster) ≤ 1 ∧
    ∀ pre rest, exampleRoundStart ++ [exampleKillOfB4, exampleKillOfB5] = pre ++ rest →
      (aliveCount (aliveBefore exampleFiveRoster
          (exampleRoundStart ++ [exampleKillOfB4, exampleKillOfB5]) pre.length) "Red" = 0 ∨
        aliveCount (aliveBefore exampleFiveRoster
          (exampleRoundStart ++ [exampleKillOfB4, exampleKillOfB5]) pre.length) "Blue" = 0) →
      totalCredits (ComputeClutches
          [(0, exampleRoundStart ++ [exampleKillOfB4, exampleKillOfB5])] exampleFiveRoster)
        = totalCredits (ComputeClutches [(0, pre)] exampleFiveRoster) :=
  ComputeClutches_two_teams exampleFiveRoster "Red" "Blue" 0
    (exampleRoundStart ++ [exampleKillOfB4, exampleKillOfB5])
    ⟨by decide, by decide, by decide, by decide⟩ (by decide)

/-! ## C33: all tracked players on one team -/

/-- With one team id among the values of `playerTeams`, `PickSecondTeam` finds no second
team. -/
theorem PickSecondTeam_of_same (order : RangeOrder) (hvalid : order.Valid)
    (playerTeams : GoMap String String) (t : String)
    (hsame : ∀ e ∈ playerTeams, e.2 = t) : PickSecondTeam order playerTeams = "" := by
  unfold PickSecondTeam
  simp only
  have hsame' : ∀ e ∈ order.teams playerTeams, e.2 = t :=
    fun e he => hsame e ((hvalid.1 playerTeams).mem_iff.mp he)
  have hinv := foldl_invariant
    (fun (acc : String × GoMap String Bool) =>
      (acc.2 = [] ∧ acc.1 = "") ∨ (acc.1 = t ∧ ∀ e ∈ acc.2, e.1 = t))
    (fun (acc : String × GoMap String Bool) (e : String × String) =>
      ((if acc.1 = "" then e.2 else acc.1), GoMap.set acc.2 e.2 true))
    (order.teams playerTeams)
    (by
      intro acc e he hacc
      have het := hsame' e he
      simp only
      right
      rcases hacc with ⟨h2, h1⟩ | ⟨h1, h2⟩
      · refine ⟨by rw [if_pos h1, het], ?_⟩
        intro e' he'
        rw [h2, het] at he'
        simp only [GoMap.set, List.mem_singleton] at he'
        rw [he']
      · refine ⟨by split <;> simp [het, h1], ?_⟩
        intro e' he'
        rcases GoMap.mem_set acc.2 _ _ e' he' with h | h
        · rw [h, het]
        · exact h2 e' h)
    ("", []) (Or.inl ⟨rfl, rfl⟩)
  have hnone : (order.seen ((order.teams playerTeams).foldl
      (fun (acc : String × GoMap String Bool) (e : String × String) =>
        ((if acc.1 = "" then e.2 else acc.1), GoMap.set acc.2 e.2 true)) ("", [])).2).find?
      (fun e => decide (e.1 ≠ ((order.teams playerTeams).foldl
        (fun (acc : String × GoMap String Bool) (e : String × String) =>
          ((if acc.1 = "" then e.2 else acc.1), GoMap.set acc.2 e.2 true)) ("", [])).1))
      = none := by
    rw [List.find?_eq_none]
    intro e he
    have he' := (hvalid.2 _).mem_iff.mp he
    rcases hinv with ⟨h2, -⟩ | ⟨h1, h2⟩
    · rw [h2] at he'
      simp at he'
    · simp [h1, h2 e he']
  rw [hnone]

theorem playerTeamsOf_values (svc : AnalyticsService) (players : List V4MatchPlayer)
    (t : String)
    (hsame : ∀ player ∈ players,
      GetPlayerName svc player.Name player.Tag ≠ "" → player.TeamID = t) :
    ∀ e ∈ playerTeamsOf svc players, e.2 = t := by
  unfold playerTeamsOf
  refine foldl_invariant (fun (playerTeams : GoMap String String) => ∀ e ∈ playerTeams, e.2 = t)
    _ players ?_ [] (by simp)
  intro playerTeams player hplayer hteams
  simp only
  split
  · exact hteams
  · rename_i hname
    intro e he
    rcases GoMap.mem_set playerTeams _ _ e he with h | h
    · rw [h]
      exact hsame player hplayer hname
    · exact hteams e h

/-- C33: in an accepted match in which every tracked player has the same team id `t`, for
every range order of the two map loops, `PickSecondTeam` returns the empty string on the
record's `PlayerTeams`, `CalculateSideStats` returns the record it is given, and the eight
side-split maps of the result are empty, whether or not a round has a plant. -/
theorem ProcessMatchDetails_single_team (sortSlice : SortSlice) (order : RangeOrder)
    (hvalid : order.Valid) (svc : AnalyticsService) (fullMatch : V4MatchResponse)
    (minStackPlayers : Int) (record : MatchData) (t : String)
    (haccepted : ProcessMatchDetails sortSlice order svc (ApiMatch.v4 fullMatch) minStackPlayers
      = some record)
    (hsame : ∀ player ∈ fullMatch.Players,
      GetPlayerName svc player.Name player.Tag ≠ "" → player.TeamID = t) :
    PickSecondTeam order record.PlayerTeams = "" ∧
    CalculateSideStats order fullMatch.Rounds fullMatch.Kills
        (recordBeforeSides sortSlice svc fullMatch)
        (BuildStackNamesByPUUID svc fullMatch.Players)
      = recordBeforeSides sortSlice svc fullMatch ∧
    sideMaps record = ([], [], [], [], [], [], [], []) := by
  have hbase := baseFields_of_accepted sortSlice order svc fullMatch minStackPlayers record
    haccepted
  have hbefore := baseFields_recordBeforeSides sortSlice svc fullMatch
  simp only [baseFields, Prod.mk.injEq] at hbase hbefore
  have hvalues := playerTeamsOf_values svc fullMatch.Players t hsame
  have hpick : PickSecondTeam order (recordBeforeSides sortSlice svc fullMatch).PlayerTeams
      = "" := by
    rw [hbefore.2.2.2.2.1]
    exact PickSecondTeam_of_same order hvalid _ t hvalues
  have hsides : CalculateSideStats order fullMatch.Rounds fullMatch.Kills
      (recordBeforeSides sortSlice svc fullMatch)
      (BuildStackNamesByPUUID svc fullMatch.Players)
      = recordBeforeSides sortSlice svc fullMatch := by
    unfold CalculateSideStats
    simp only [hpick, if_true, ite_self]
  refine ⟨?_, hsides, ?_⟩
  · rw [hbase.2.2.2.2.1]
    exact PickSecondTeam_of_same order hvalid _ t hvalues
  · rw [ProcessMatchDetails_v4] at haccepted
    split at haccepted
    · exact absurd haccepted (by simp)
    · rw [← Option.some.inj haccepted, hsides]
      exact sideMaps_recordBeforeSides sortSlice svc fullMatch

/-- Witness for C33: `exampleSingleTeamMatch`, in which Blue plants in round 0 and both
tracked players are on Red. -/
theorem ProcessMatchDetails_single_team_witness :
    InferInitialAttackingTeam exampleSingleTeamMatch.Rounds = "Blue" ∧
    (ProcessMatchDetails stableSort RangeOrder.listOrder exampleService
        (ApiMatch.v4 exampleSingleTeamMatch) 2).map sideMaps
      = some ([], [], [], [], [], [], [], []) ∧
    ∀ record, ProcessMatchDetails stableSort RangeOrder.listOrder exampleService
        (ApiMatch.v4 exampleSingleTeamMatch) 2 = some record →
      PickSecondTeam RangeOrder.listOrder record.PlayerTeams = "" ∧
      sideMaps record = ([], [], [], [], [], [], [], []) :=
  ⟨by decide, by rfl, fun record haccepted =>
    ⟨(ProcessMatchDetails_single_team stableSort RangeOrder.listOrder
        RangeOrder.valid_listOrder exampleService exampleSingleTeamMatch 2 record "Red"
        haccepted (by decide)).1,
     (ProcessMatchDetails_single_team stableSort RangeOrder.listOrder
        RangeOrder.valid_listOrder exampleService exampleSingleTeamMatch 2 record "Red"
        haccepted (by decide)).2.2⟩⟩

/-! ## C34: the side kill and death maps are symmetric -/

theorem sideKillTotals_sideKill (attackingByRound : GoMap Int String)
    (names : GoMap String String) (m : MatchData) (kill : V4KillEventResponse) :
    sideKillTotals (sideKill attackingByRound names m kill)
      = ((sideKillTotals m).1 + (attackSideKills attackingByRound names [kill] : Int),
         (sideKillTotals m).2.1 + (attackSideKills attackingByRound names [kill] : Int),
         (sideKillTotals m).2.2.1 + (defenseSideKills attackingByRound names [kill] : Int),
         (sideKillTotals m).2.2.2 + (defenseSideKills attackingByRound names [kill] : Int)) := by
  unfold sideKill attackSideKills defenseSideKills
  simp only [List.countP_cons, List.countP_nil, zero_add]
  by_cases hskip : GoMap.getD names kill.Killer.PUUID "" = ""
      ∨ GoMap.getD names kill.Victim.PUUID "" = ""
  · have hno : ¬ (GoMap.getD names kill.Killer.PUUID "" ≠ ""
        ∧ GoMap.getD names kill.Victim.PUUID "" ≠ "") := by
      rintro ⟨h1, h2⟩
      rcases hskip with h | h
      · exact h1 h
      · exact h2 h
    simp [hskip, hno, sideKillTotals]
  · have hyes : GoMap.getD names kill.Killer.PUUID "" ≠ ""
        ∧ GoMap.getD names kill.Victim.PUUID "" ≠ "" :=
      ⟨fun h => hskip (Or.inl h), fun h => hskip (Or.inr h)⟩
    rw [if_neg hskip]
    by_cases hatt : kill.Killer.Team = GoMap.getD attackingByRound kill.Round ""
    · simp [hatt, hyes, sideKillTotals, totalCredits_incr]
    · simp [hatt, hyes, sideKillTotals, totalCredits_incr]

theorem sideKillTotals_foldl_sideKill (attackingByRound : GoMap Int String)
    (names : GoMap String String) (kills : List V4KillEventResponse) (m : MatchData) :
    sideKillTotals (kills.foldl (sideKill attackingByRound names) m)
      = ((sideKillTotals m).1 + (attackSideKills attackingByRound names kills : Int),
         (sideKillTotals m).2.1 + (attackSideKills attackingByRound names kills : Int),
         (sideKillTotals m).2.2.1 + (defenseSideKills attackingByRound names kills : Int),
         (sideKillTotals m).2.2.2 + (defenseSideKills attackingByRound names kills : Int)) := by
  induction kills generalizing m with
  | nil => simp [attackSideKills, defenseSideKills]
  | cons kill rest ih =>
    rw [List.foldl_cons, ih, sideKillTotals_sideKill]
    have ha : attackSideKills attackingByRound names (kill :: rest)
        = attackSideKills attackingByRound names [kill]
          + attackSideKills attackingByRound names rest := by
      simp only [attackSideKills, List.countP_cons, List.countP_nil]
      omega
    have hd : defenseSideKills attackingByRound names (kill :: rest)
        = defenseSideKills attackingByRound names [kill]
          + defenseSideKills attackingByRound names rest := by
      simp only [defenseSideKills, List.countP_cons, List.countP_nil]
      omega
    rw [ha, hd]
    simp only [Prod.mk.injEq]
    push_cast
    refine ⟨by ring, by ring, by ring, by ring⟩

/-- Every kill with both players tracked is an attack-side or a defense-side kill. -/
theorem attackSideKills_add_defenseSideKills (attackingByRound : GoMap Int String)
    (names : GoMap String String) (kills : List V4KillEventResponse) :
    attackSideKills attackingByRound names kills + defenseSideKills attackingByRound names kills
      = bothTrackedKills names kills := by
  induction kills with
  | nil => rfl
  | cons kill rest ih =>
    simp only [attackSideKills, defenseSideKills, bothTrackedKills, List.countP_cons] at ih ⊢
    by_cases hboth : GoMap.getD names kill.Killer.PUUID "" ≠ ""
        ∧ GoMap.getD names kill.Victim.PUUID "" ≠ ""
    · by_cases hatt : kill.Killer.Team = GoMap.getD attackingByRound kill.Round ""
      · have h1 : (GoMap.getD names kill.Killer.PUUID "" ≠ ""
            ∧ GoMap.getD names kill.Victim.PUUID "" ≠ "")
            ∧ kill.Killer.Team = GoMap.getD attackingByRound kill.Round "" := ⟨hboth, hatt⟩
        have h2 : ¬ ((GoMap.getD names kill.Killer.PUUID "" ≠ ""
            ∧ GoMap.getD names kill.Victim.PUUID "" ≠ "")
            ∧ kill.Killer.Team ≠ GoMap.getD attackingByRound kill.Round "") :=
          fun h => h.2 hatt
        rw [decide_eq_true h1, decide_eq_false h2, decide_eq_true hboth]
        simp only [if_true, Bool.false_eq_true, if_false]
        omega
      · have h1 : ¬ ((GoMap.getD names kill.Killer.PUUID "" ≠ ""
            ∧ GoMap.getD names kill.Victim.PUUID "" ≠ "")
            ∧ kill.Killer.Team = GoMap.getD attackingByRound kill.Round "") :=
          fun h => hatt h.2
        have h2 : (GoMap.getD names kill.Killer.PUUID "" ≠ ""
            ∧ GoMap.getD names kill.Victim.PUUID "" ≠ "")
            ∧ kill.Killer.Team ≠ GoMap.getD attackingByRound kill.Round "" := ⟨hboth, hatt⟩
        rw [decide_eq_false h1, decide_eq_true h2, decide_eq_true hboth]
        simp only [if_true, Bool.false_eq_true, if_false]
        omega
    · have h1 : ¬ ((GoMap.getD names kill.Killer.PUUID "" ≠ ""
          ∧ GoMap.getD names kill.Victim.PUUID "" ≠ "")
          ∧ kill.Killer.Team = GoMap.getD attackingByRound kill.Round "") :=
        fun h => hboth h.1
      have h2 : ¬ ((GoMap.getD names kill.Killer.PUUID "" ≠ ""
          ∧ GoMap.getD names kill.Victim.PUUID "" ≠ "")
          ∧ kill.Killer.Team ≠ GoMap.getD attackingByRound kill.Round "") :=
        fun h => hboth h.1
      rw [decide_eq_false h1, decide_eq_false h2, decide_eq_false hboth]
      simp only [Bool.false_eq_true, if_false]
      omega

theorem sideKillTotals_CalculateSideStats (order : RangeOrder) (rounds : List V4Round)
    (kills : List V4KillEventResponse) (mtch : MatchData) (names : GoMap String String)
    (hfirst : InferInitialAttackingTeam rounds ≠ "")
    (hsecond : PickSecondTeam order mtch.PlayerTeams ≠ "") :
    sideKillTotals (CalculateSideStats order rounds kills mtch names)
      = sideKillTotals (kills.foldl (sideKill (attackingTeams order rounds mtch) names) mtch) := by
  rw [CalculateSideStats_of_sides order rounds kills mtch names hfirst hsecond]
  have hstat : ∀ (attackingTeam : String) (m : MatchData) (stat : V4RoundStatsEntry),
      sideKillTotals (sideDamage attackingTeam names m stat) = sideKillTotals m := by
    intro attackingTeam m stat
    obtain ⟨h1, h2, h3, h4⟩ := sideDamage_kill_maps attackingTeam names m stat
    simp only [sideKillTotals, h1, h2, h3, h4]
  exact foldl_preserves sideKillTotals _
    (fun m (round : V4Round) => foldl_preserves sideKillTotals _
      (fun m stat => hstat _ m stat) round.Stats m) rounds _

/-- C34: when `CalculateSideStats` attributes kills (a round has a plant and a second team
is found) to a record whose side kill and death maps are empty, the sum over players of
`AttackKills` equals the sum of `DefenseDeaths`, the sum of `DefenseKills` equals the sum of
`AttackDeaths`, and the sums of `AttackKills` and `DefenseKills` add up to the number of
kill events whose killer and victim are both tracked: `AttackKills` counts those whose
killer is on the attacking team of the round, `DefenseKills` the others. -/
theorem CalculateSideStats_kills_symmetric (order : RangeOrder) (rounds : List V4Round)
    (kills : List V4KillEventResponse) (mtch : MatchData)
    (stackNamesByPUUID : GoMap String String)
    (hfirst : InferInitialAttackingTeam rounds ≠ "")
    (hsecond : PickSecondTeam order mtch.PlayerTeams ≠ "")
    (hempty : mtch.AttackKills = [] ∧ mtch.DefenseDeaths = [] ∧ mtch.DefenseKills = [] ∧
      mtch.AttackDeaths = []) :
    totalCredits (CalculateSideStats order rounds kills mtch stackNamesByPUUID).AttackKills
      = totalCredits (CalculateSideStats order rounds kills mtch stackNamesByPUUID).DefenseDeaths ∧
    totalCredits (CalculateSideStats order rounds kills mtch stackNamesByPUUID).DefenseKills
      = totalCredits (CalculateSideStats order rounds kills mtch stackNamesByPUUID).AttackDeaths ∧
    totalCredits (CalculateSideStats order rounds kills mtch stackNamesByPUUID).AttackKills
        + totalCredits (CalculateSideStats order rounds kills mtch stackNamesByPUUID).DefenseKills
      = (bothTrackedKills stackNamesByPUUID kills : Int) ∧
    totalCredits (CalculateSideStats order rounds kills mtch stackNamesByPUUID).AttackKills
      = (attackSideKills (attackingTeams order rounds mtch) stackNamesByPUUID kills : Int) ∧
    totalCredits (CalculateSideStats order rounds kills mtch stackNamesByPUUID).DefenseKills
      = (defenseSideKills (attackingTeams order rounds mtch) stackNamesByPUUID kills : Int) := by
  have h := sideKillTotals_CalculateSideStats order rounds kills mtch stackNamesByPUUID
    hfirst hsecond
  rw [sideKillTotals_foldl_sideKill] at h
  obtain ⟨h1, h2, h3, h4⟩ := hempty
  simp only [sideKillTotals, h1, h2, h3, h4, totalCredits, List.map_nil, List.sum_nil, zero_add,
    Prod.mk.injEq] at h
  obtain ⟨hAK, hDD, hDK, hAD⟩ := h
  have hsum := attackSideKills_add_defenseSideKills (attackingTeams order rounds mtch)
    stackNamesByPUUID kills
  simp only [totalCredits]
  refine ⟨by rw [hAK, hDD], by rw [hDK, hAD], ?_, hAK, hDK⟩
  rw [hAK, hDK, ← hsum]
  push_cast
  rfl

/-- Witness for C34: `exampleSideMatch`, in which one kill has both players tracked. -/
theorem CalculateSideStats_kills_symmetric_witness :
    totalCredits (CalculateSideStats RangeOrder.listOrder exampleSideMatch.Rounds
        exampleSideMatch.Kills exampleSideRecord exampleSideNames).AttackKills
      = totalCredits (CalculateSideStats RangeOrder.listOrder exampleSideMatch.Rounds
        exampleSideMatch.Kills exampleSideRecord exampleSideNames).DefenseDeaths ∧
    totalCredits (CalculateSideStats RangeOrder.listOrder exampleSideMatch.Rounds
        exampleSideMatch.Kills exampleSideRecord exampleSideNames).DefenseKills
      = totalCredits (CalculateSideStats RangeOrder.listOrder exampleSideMatch.Rounds
        exampleSideMatch.Kills exampleSideRecord exampleSideNames).AttackDeaths ∧
    totalCredits (CalculateSideStats RangeOrder.listOrder exampleSideMatch.Rounds
        exampleSideMatch.Kills exampleSideRecord exampleSideNames).AttackKills
        + totalCredits (CalculateSideStats RangeOrder.listOrder exampleSideMatch.Rounds
          exampleSideMatch.Kills exampleSideRecord exampleSideNames).DefenseKills
      = (bothTrackedKills exampleSideNames exampleSideMatch.Kills : Int) ∧
    totalCredits (CalculateSideStats RangeOrder.listOrder exampleSideMatch.Rounds
        exampleSideMatch.Kills exampleSideRecord exampleSideNames).AttackKills
      = (attackSideKills (attackingTeams RangeOrder.listOrder exampleSideMatch.Rounds
          exampleSideRecord) exampleSideNames exampleSideMatch.Kills : Int) ∧
    totalCredits (CalculateSideStats RangeOrder.listOrder exampleSideMatch.Rounds
        exampleSideMatch.Kills exampleSideRecord exampleSideNames).DefenseKills
      = (defenseSideKills (attackingTeams RangeOrder.listOrder exampleSideMatch.Rounds
          exampleSideRecord) exampleSideNames exampleSideMatch.Kills : Int) :=
  CalculateSideStats_kills_symmetric RangeOrder.listOrder exampleSideMatch.Rounds
    exampleSideMatch.Kills exampleSideRecord exampleSideNames (by decide) (by decide)
    ⟨rfl, rfl, rfl, rfl⟩

/-! ## C35: every match is counted at most once -/

theorem contributes_iff (playerNames : List String) (mtch : MatchData) :
    contributes playerNames mtch = true
      ↔ ∃ n ∈ playerNames, n ∈ GoMap.keys mtch.PlayerData := by
  unfold contributes
  rw [List.any_eq_true]
  constructor
  · rintro ⟨n, hn, hsome⟩
    refine ⟨n, hn, ?_⟩
    by_contra hmem
    rw [(GoMap.get?_eq_none_iff mtch.PlayerData n).mpr hmem] at hsome
    simp at hsome
  · rintro ⟨n, hn, hmem⟩
    refine ⟨n, hn, ?_⟩
    cases hget : GoMap.get? mtch.PlayerData n with
    | none => exact absurd hmem ((GoMap.get?_eq_none_iff mtch.PlayerData n).mp hget)
    | some p => rfl

/-- The first element of a list that satisfies a test, with the elements before it. -/
theorem find?_some_split {α : Type} (p : α → Bool) (l : List α) (a : α)
    (h : l.find? p = some a) :
    ∃ pre post, l = pre ++ a :: post ∧ (∀ q ∈ pre, p q = false) ∧ p a = true := by
  induction l with
  | nil => simp at h
  | cons x rest ih =>
    by_cases hx : p x = true
    · rw [List.find?_cons_of_pos _ hx] at h
      have hxa : x = a := Option.some.inj h
      subst hxa
      exact ⟨[], rest, rfl, by simp, hx⟩
    · rw [List.find?_cons_of_neg _ hx] at h
      obtain ⟨pre, post, hsplit, hpre, ha⟩ := ih h
      refine ⟨x :: pre, post, by rw [hsplit]; rfl, ?_, ha⟩
      intro q hq
      rcases List.mem_cons.mp hq with hq | hq
      · rw [hq]
        simpa using hx
      · exact hpre q hq

/-- A record that does not contribute leaves the totals as they are; a record that
contributes is added once, under the first target name that is a key of its `PlayerData`. -/
theorem analyzeMatch_first_name (playerNames : List String) (stats : PlayerStats)
    (mtch : MatchData) :
    (contributes playerNames mtch = false → analyzeMatch playerNames stats mtch = stats) ∧
    (contributes playerNames mtch = true →
      ∃ pre n post p, playerNames = pre ++ n :: post ∧
        (∀ q ∈ pre, GoMap.get? mtch.PlayerData q = none) ∧
        GoMap.get? mtch.PlayerData n = some p ∧
        analyzeMatch playerNames stats mtch = addMatch stats mtch n p) := by
  rcases analyzeMatch_cases playerNames mtch with hskip | ⟨n, p, hfind, hget, hadd⟩
  · refine ⟨fun _ => hskip stats, fun hc => ?_⟩
    exfalso
    have hgames := (analyzeMatch_games playerNames stats mtch).2.2
    rw [hskip stats, if_pos hc] at hgames
    omega
  · refine ⟨fun hc => ?_, fun _ => ?_⟩
    · exfalso
      unfold contributes at hc
      rw [List.any_eq_false] at hc
      have := hc n (List.mem_of_find?_eq_some hfind)
      simp [hget] at this
    · obtain ⟨pre, post, hsplit, hpre, -⟩ := find?_some_split _ playerNames n hfind
      refine ⟨pre, n, post, p, hsplit, ?_, hget, hadd stats⟩
      intro q hq
      have := hpre q hq
      cases hq' : GoMap.get? mtch.PlayerData q with
      | none => rfl
      | some v => simp [hq'] at this

theorem analyzeMatch_TotalRounds (playerNames : List String) (stats : PlayerStats)
    (mtch : MatchData) :
    (analyzeMatch playerNames stats mtch).TotalRounds
      = if contributes playerNames mtch = true then goAdd stats.TotalRounds mtch.RoundsPlayed
        else stats.TotalRounds := by
  obtain ⟨hno, hyes⟩ := analyzeMatch_first_name playerNames stats mtch
  by_cases hc : contributes playerNames mtch = true
  · obtain ⟨_, n, _, p, -, -, -, hadd⟩ := hyes hc
    rw [if_pos hc, hadd]
    rfl
  · rw [if_neg hc, hno (by simpa using hc)]

theorem foldl_analyzeMatch_totals (playerNames : List String) (matchList : List MatchData)
    (stats : PlayerStats) :
    (matchList.foldl (analyzeMatch playerNames) stats).TotalGames
      = stats.TotalGames + ((matchList.countP (contributes playerNames) : Nat) : Int) ∧
    (matchList.foldl (analyzeMatch playerNames) stats).TotalRounds
      = (contributingRounds playerNames matchList).foldl goAdd stats.TotalRounds := by
  induction matchList generalizing stats with
  | nil => simp [contributingRounds]
  | cons mtch rest ih =>
    rw [List.foldl_cons]
    obtain ⟨h1, h2⟩ := ih (analyzeMatch playerNames stats mtch)
    rw [h1, h2, (analyzeMatch_games playerNames stats mtch).2.2, analyzeMatch_TotalRounds]
    by_cases hc : contributes playerNames mtch = true
    · simp only [hc, if_true, List.countP_cons_of_pos, contributingRounds,
        List.filter_cons_of_pos, List.map_cons, List.foldl_cons]
      exact ⟨by push_cast; ring, trivial⟩
    · simp only [hc, if_false, Bool.false_eq_true, contributingRounds, add_zero]
      rw [List.countP_cons_of_neg _ _ hc, List.filter_cons_of_neg hc]
      exact ⟨rfl, rfl⟩

/-- C35: `AnalyzeMatches` counts each record at most once.  A record contributes exactly
when one of the target names is a key of its `PlayerData`; a record that does not
contribute changes nothing, and a record that contributes is added once, with the entry of
the first target name, in the order of `playerNames`, that is a key of its `PlayerData`.
So `TotalGames` is the number of contributing records, at most the number of records, and
`TotalRounds` is the sum of their `RoundsPlayed` as the program adds it up, which is their
integer sum when that sum fits in Go's `int`. -/
theorem AnalyzeMatches_counts_once (matchList : List MatchData) (playerNames : List String) :
    (∀ mtch, contributes playerNames mtch = true
      ↔ ∃ n ∈ playerNames, n ∈ GoMap.keys mtch.PlayerData) ∧
    (∀ stats mtch, contributes playerNames mtch = false →
      analyzeMatch playerNames stats mtch = stats) ∧
    (∀ stats mtch, contributes playerNames mtch = true →
      ∃ pre n post p, playerNames = pre ++ n :: post ∧
        (∀ q ∈ pre, GoMap.get? mtch.PlayerData q = none) ∧
        GoMap.get? mtch.PlayerData n = some p ∧
        analyzeMatch playerNames stats mtch = addMatch stats mtch n p) ∧
    (AnalyzeMatches matchList playerNames).TotalGames
      = ((matchList.countP (contributes playerNames) : Nat) : Int) ∧
    (AnalyzeMatches matchList playerNames).TotalGames ≤ (matchList.length : Int) ∧
    (AnalyzeMatches matchList playerNames).TotalRounds
      = goSum (contributingRounds playerNames matchList) ∧
    (IsGoInt (contributingRounds playerNames matchList).sum →
      (AnalyzeMatches matchList playerNames).TotalRounds
        = (contributingRounds playerNames matchList).sum) := by
  obtain ⟨hgames, hrounds⟩ := foldl_analyzeMatch_totals playerNames matchList emptyStats
  have hgames' : (AnalyzeMatches matchList playerNames).TotalGames
      = ((matchList.countP (contributes playerNames) : Nat) : Int) := by
    unfold AnalyzeMatches
    rw [hgames]
    simp [emptyStats]
  have hrounds' : (AnalyzeMatches matchList playerNames).TotalRounds
      = goSum (contributingRounds playerNames matchList) := by
    unfold AnalyzeMatches
    rw [hrounds]
    rfl
  refine ⟨contributes_iff playerNames,
    fun stats mtch => (analyzeMatch_first_name playerNames stats mtch).1,
    fun stats mtch => (analyzeMatch_first_name playerNames stats mtch).2,
    hgames', ?_, hrounds', ?_⟩
  · rw [hgames']
    exact_mod_cast List.countP_le_length (contributes playerNames)
  · intro hfit
    rw [hrounds', goSum_eq_wrap64, wrap64_of_isGoInt hfit]

end ValoTrack
